import Mathlib

/-!
Verification of the mage front end of `e2e-tests`.

A shallow embedding of `magefiles/magefile.go`.  Package-level variables of the Go
program become the fields of `State`; every call that leaves the magefile (rule engine,
diff service, HTTP, shell, GitHub client, clock) is answered by a field of `World` and is
recorded, in call order, in `State.trace`.  A Go `error` is represented by its message:
`none` is `nil`, `some msg` is a non-nil error.
-/

namespace Magefile

/-! ## Strings (Go package `strings`) -/

/-- Whether the character list `p` starts the character list `s` (`strings.HasPrefix`). -/
def hasPrefixChars : List Char → List Char → Bool
  | _, [] => true
  | [], _ :: _ => false
  | c :: cs, p :: ps => c == p && hasPrefixChars cs ps

/-- Whether `sub` occurs in `s`, on character lists. -/
def containsChars : List Char → List Char → Bool
  | [], sub => sub.isEmpty
  | c :: cs, sub => hasPrefixChars (c :: cs) sub || containsChars cs sub

/-- Go `strings.Contains(s, substr)`. -/
def strContains (s substr : String) : Bool :=
  containsChars s.toList substr.toList

/-- Go `strings.HasSuffix(s, suffix)`. -/
def strHasSuffix (s suffix : String) : Bool :=
  hasPrefixChars s.toList.reverse suffix.toList.reverse

/-! ## Data carried by the magefile -/

/-- The fields of `rulesengine.RuleCtx` that the magefile reads or writes.  The type itself is
declared in package `rulesengine`; the embedded ginkgo configuration is not touched by the
magefile and is left out. -/
structure RuleCtx where
  RepoName : String
  DiffFiles : List String
  JobName : String
  JobType : String
  PrRemoteName : String
  PrBranchName : String
  PrCommitSha : String
  PrNum : Int
  IsPaired : Bool
  TektonEventType : String
  DryRun : Bool
  Parallel : Bool
  OutputDir : String
  JUnitReport : String
  JSONReport : String
  deriving DecidableEq, Repr

/-- The Go zero value `rulesengine.RuleCtx{}` (magefile.go line 74). -/
def RuleCtx.zero : RuleCtx :=
  { RepoName := "", DiffFiles := [], JobName := "", JobType := "", PrRemoteName := "",
    PrBranchName := "", PrCommitSha := "", PrNum := 0, IsPaired := false,
    TektonEventType := "", DryRun := false, Parallel := false, OutputDir := "",
    JUnitReport := "", JSONReport := "" }

/-- The type `PullRequestMetadata` of package `main`, with the fields the magefile uses. -/
structure PullRequestMetadata where
  Organization : String
  RepoName : String
  BranchName : String
  CommitSHA : String
  Number : Int
  RemoteName : String
  deriving DecidableEq, Repr

/-- The Go zero value `PullRequestMetadata{}` (line 55). -/
def PullRequestMetadata.zero : PullRequestMetadata :=
  { Organization := "", RepoName := "", BranchName := "", CommitSHA := "", Number := 0,
    RemoteName := "" }

/-- The `KonfluxGitRefs` part of `KonfluxCISpec`. -/
structure KonfluxGitRefs where
  GitOrg : String
  GitRepo : String
  CommitSha : String
  PullRequestNumber : Int
  EventType : String
  deriving DecidableEq, Repr

/-- The type `KonfluxCISpec` of package `main`. -/
structure KonfluxCISpec where
  KonfluxGitRefs : KonfluxGitRefs
  deriving DecidableEq, Repr

/-- The Go zero value `KonfluxCISpec{}` (line 72). -/
def KonfluxCISpec.zero : KonfluxCISpec :=
  { KonfluxGitRefs :=
      { GitOrg := "", GitRepo := "", CommitSha := "", PullRequestNumber := 0, EventType := "" } }

/-- One entry of `Refs.Pulls`. -/
structure Pull where
  SHA : String
  Number : Int
  deriving DecidableEq, Repr

/-- The `Refs` part of `OpenshiftJobSpec`. -/
structure Refs where
  Organization : String
  Repo : String
  Pulls : List Pull
  deriving DecidableEq, Repr

/-- The type `OpenshiftJobSpec` of package `main`. -/
structure OpenshiftJobSpec where
  Refs : Refs
  deriving DecidableEq, Repr

/-- The Go zero value `OpenshiftJobSpec{}` (line 54). -/
def OpenshiftJobSpec.zero : OpenshiftJobSpec :=
  { Refs := { Organization := "", Repo := "", Pulls := [] } }

/-- The branch of a pull request (`gh.PullRequestBranch`): `Ref` is a nullable string. -/
structure PullRequestBranch where
  Ref : Option String
  deriving DecidableEq, Repr

/-- A GitHub user (`gh.User`): `Login` is a nullable string. -/
structure User where
  Login : Option String
  deriving DecidableEq, Repr

/-- A pull request as returned by the GitHub API (`gh.PullRequest`), with its nullable
`Head` and `User`. -/
structure PullRequest where
  Head : Option PullRequestBranch
  User : Option User
  deriving DecidableEq, Repr

/-- `(*PullRequestBranch).GetRef` after `(*PullRequest).GetHead`: the empty string when either
pointer is nil. -/
def PullRequest.GetHeadRef (p : PullRequest) : String :=
  match p.Head with
  | none => ""
  | some h => h.Ref.getD ""

/-- `(*User).GetLogin` after `(*PullRequest).GetUser`: the empty string when either pointer
is nil. -/
def PullRequest.GetUserLogin (p : PullRequest) : String :=
  match p.User with
  | none => ""
  | some u => u.Login.getD ""

/-- A repository as returned by the GitHub API (`gh.Repository`): nullable name,
description and creation time (nanoseconds since the Unix epoch). -/
structure Repository where
  Name : Option String
  Description : Option String
  CreatedAt : Option Int
  deriving DecidableEq, Repr

/-- A webhook of a repository as returned by the GitHub API (`gh.Hook`): nullable identifier,
name and creation time (nanoseconds since the Unix epoch). -/
structure Hook where
  ID : Option Int
  Name : Option String
  CreatedAt : Option Int
  deriving DecidableEq, Repr

/-- A compiled regular expression, seen through `(*regexp.Regexp).MatchString`. -/
abbrev Regexp := String → Bool

/-! ## Calls that leave the magefile -/

/-- One call made by the magefile to a collaborator, with its arguments. -/
inductive Event where
  | GetChangedFiles (repo : String)
  | RunRules (ctx : RuleCtx) (category catalog : String)
  | RunRulesOfCategory (category : String) (ctx : RuleCtx)
  | sendHttpRequestAndParseResponse (url method : String)
  | shRun (cmd : String) (args : List String)
  | DeleteRepository (repo : Repository)
  | klog (level msg : String)
  | external (name : String) (args : List String)
  | ListRepoWebhooks (repo : String)
  | DeleteWebhook (repo : String) (id : Int)
  | httpGet (url : String)
  | UnregisterServer (server : String)
  deriving DecidableEq, Repr

/-- The answers of the collaborators during one run of a mage target. -/
structure World where
  /-- `rulesengine.NewRuleCtx()`: the fresh context. -/
  NewRuleCtx : RuleCtx
  /-- `utils.GetChangedFiles(repo)`: the returned files and the returned error. -/
  GetChangedFiles : String → List String × Option String
  /-- `engine.MageEngine.RunRules(rctx, category, catalog)`. -/
  RunRules : RuleCtx → String → String → Option String
  /-- `engine.MageEngine.RunRulesOfCategory(category, rctx)`. -/
  RunRulesOfCategory : String → RuleCtx → Option String
  /-- `sendHttpRequestAndParseResponse(url, method, &pullRequests)`. -/
  sendHttpRequestAndParseResponse : String → String → Except String (List PullRequest)
  /-- `sh.Run` and `sh.RunV`. -/
  shRun : String → List String → Option String
  /-- `json.Unmarshal` of the data into `konfluxCiSpec`: the value left in the variable and
  the returned error. -/
  unmarshalKonfluxCISpec : String → KonfluxCISpec → KonfluxCISpec × Option String
  /-- `json.Unmarshal` of the data into `openshiftJobSpec`: the value left in the variable and
  the returned error. -/
  unmarshalOpenshiftJobSpec : String → OpenshiftJobSpec → OpenshiftJobSpec × Option String
  /-- `getRemoteAndBranchNameFromPRLink(url)`: remote name, branch name, error. -/
  getRemoteAndBranchNameFromPRLink : String → String × String × Option String
  /-- `build.CreateCustomBuildBundle(name)`. -/
  CreateCustomBuildBundle : String → Except String String
  /-- `github.NewGithubClient(token, org)`. -/
  NewGithubClient : String → String → Option String
  /-- `ghClient.GetAllRepositories()`. -/
  GetAllRepositories : Except String (List Repository)
  /-- `ghClient.DeleteRepository(repo)`. -/
  DeleteRepository : Repository → Option String
  /-- `regexp.Compile(pattern)`. -/
  regexpCompile : String → Except String Regexp
  /-- `time.Now()`, in nanoseconds since the Unix epoch, at the n-th reading of the clock. -/
  Now : Nat → Int
  /-- `installation.NewAppStudioInstallController()`. -/
  NewAppStudioInstallController : Option String
  /-- `ic.InstallAppStudioPreviewMode()`. -/
  InstallAppStudioPreviewMode : Option String
  /-- `sprayproxy.NewSprayProxyConfig(url, token)`: the base URL of the configuration. -/
  NewSprayProxyConfig : String → String → Except String String
  /-- `sprayproxy.GetPaCHost()`. -/
  GetPaCHost : Except String String
  /-- `sprayProxyConfig.RegisterServer(host)`. -/
  RegisterServer : String → Option String
  /-- `sprayProxyConfig.GetServers()`. -/
  GetServers : Except String String
  /-- `HandleErrorWithAlert(err, severity)`. -/
  HandleErrorWithAlert : String → Option String
  /-- `repos.GetPairedCommitSha(repo, rctx)`. -/
  GetPairedCommitSha : String → RuleCtx → String
  /-- The tekton bundle work of `SetupMultiPlatformTests` for one platform: the error, or the
  reference of the pushed pipeline bundle. -/
  buildRemotePipelineBundle : String → Except String String
  /-- `constants.CUSTOM_DOCKER_BUILD_PIPELINE_BUNDLE_ENV`. -/
  CUSTOM_DOCKER_BUILD_PIPELINE_BUNDLE_ENV : String
  /-- `constants.CUSTOM_BUILDAH_REMOTE_PIPELINE_BUILD_BUNDLE_ENV`. -/
  CUSTOM_BUILDAH_REMOTE_PIPELINE_BUILD_BUNDLE_ENV : String
  /-- `constants.SKIP_PAC_TESTS_ENV`. -/
  SKIP_PAC_TESTS_ENV : String
  /-- `constants.GITHUB_E2E_ORGANIZATION_ENV`. -/
  GITHUB_E2E_ORGANIZATION_ENV : String
  /-- `constants.GITHUB_TOKEN_ENV`. -/
  GITHUB_TOKEN_ENV : String
  /-- `gh.ListRepoWebhooks(repo)`. -/
  ListRepoWebhooks : String → Except String (List Hook)
  /-- `gh.DeleteWebhook(repo, id)`. -/
  DeleteWebhook : String → Int → Option String
  /-- The text that `%v` prints for the pointer `wh.Name`. -/
  sprintNamePointer : Hook → String
  /-- `ic.CheckOperatorsReady()`. -/
  CheckOperatorsReady : Option String
  /-- `MergePRInRemote(branch, forkOrganization, repoPath)`. -/
  MergePRInRemote : String → String → String → Option String
  /-- The error of `httpClient.Get(url)` in `isValidPacHost`. -/
  httpGet : String → Option String
  /-- `sprayProxyConfig.UnregisterServer(server)`. -/
  UnregisterServer : String → Option String

/-- The process environment: `os.LookupEnv`. -/
abbrev Env := String → Option String

/-- The package-level variables of the magefile (lines 51 to 75), the process environment,
the number of clock readings so far, and the calls made so far. -/
structure State where
  env : Env
  artifactDir : String
  openshiftJobSpec : OpenshiftJobSpec
  pr : PullRequestMetadata
  konfluxCI : String
  jobName : String
  jobType : String
  requiresSprayProxyRegistering : Bool
  requiresMultiPlatformTests : Bool
  sprayProxyConfig : Option String
  konfluxCiSpec : KonfluxCISpec
  rctx : RuleCtx
  clock : Nat
  trace : List Event

/-- Go `os.Getenv`: the value of the variable, the empty string when it is not set. -/
def Getenv (env : Env) (key : String) : String :=
  (env key).getD ""

/-- Modelled from the spec: `utils.GetEnv` of package `pkg/utils`, which is not part of the
sources at hand.  It gives the value of the variable, or the given default when the
variable is not set or is empty. -/
def GetEnv (env : Env) (key defaultVal : String) : String :=
  if Getenv env key ≠ "" then Getenv env key else defaultVal

/-- The error of Go `os.Setenv`: the call is refused when the key is empty or holds `=` or a
NUL character, or when the value holds a NUL character. -/
def SetenvError (key value : String) : Option String :=
  if key = "" ∨ key.toList.any (fun c => c = '=' ∨ c = Char.ofNat 0) ∨
      value.toList.any (fun c => c = Char.ofNat 0) then
    some ("setenv: invalid argument")
  else none

/-- Go `os.Setenv` on the environment: a refused call leaves it as it was. -/
def Setenv (env : Env) (key value : String) : Env :=
  match SetenvError key value with
  | some _ => env
  | none => fun k => if k = key then some value else env k

/-- The package-level variables as the Go runtime initialises them from the environment when
the process starts (lines 51 to 75). -/
def State.start (env : Env) : State :=
  { env := env
    artifactDir := GetEnv env "ARTIFACT_DIR" "."
    openshiftJobSpec := OpenshiftJobSpec.zero
    pr := PullRequestMetadata.zero
    konfluxCI := Getenv env "KONFLUX_CI"
    jobName := GetEnv env "JOB_NAME" ""
    jobType := GetEnv env "JOB_TYPE" ""
    requiresSprayProxyRegistering := false
    requiresMultiPlatformTests := false
    sprayProxyConfig := none
    konfluxCiSpec := KonfluxCISpec.zero
    rctx := RuleCtx.zero
    clock := 0
    trace := [] }

/-- Record a call at the end of the trace. -/
def emit (e : Event) (s : State) : State :=
  { s with trace := s.trace ++ [e] }

/-- `os.Setenv` on the process environment of the state. -/
def setenv (key value : String) (s : State) : State :=
  { s with env := Setenv s.env key value }

/-! ## Pairing lookup (lines 828 to 844) -/

/-- The loop of `isPRPairingRequired` over the returned pull requests. -/
def anyPullMatches (branchName remoteName : String) : List PullRequest → Bool
  | [] => false
  | pull :: rest =>
    if pull.GetHeadRef = branchName ∧ pull.GetUserLogin = remoteName then true
    else anyPullMatches branchName remoteName rest

/-- The URL that `isPRPairingRequired` asks for the pull requests of the companion
repository. -/
def pairingUrl (repoForPairing : String) : String :=
  "https://api.github.com/repos/redhat-appstudio/" ++ repoForPairing ++ "/pulls?per_page=100"

/-- The function `isPRPairingRequired` of the magefile. -/
def isPRPairingRequired (w : World) (repoForPairing : String) (s : State) : Bool × State :=
  let url := pairingUrl repoForPairing
  let s1 := emit (Event.sendHttpRequestAndParseResponse url "GET") s
  match w.sendHttpRequestAndParseResponse url "GET" with
  | Except.error err =>
    (false, emit (Event.klog "Info" ("cannot determine " ++ repoForPairing ++
      " Github branches for author " ++ s.pr.RemoteName ++ ": " ++ err ++
      ". will stick with the redhat-appstudio/" ++ repoForPairing ++
      " main branch for running tests")) s1)
  | Except.ok pullRequests =>
    (anyPullMatches s.pr.BranchName s.pr.RemoteName pullRequests, s1)

/-! ## Running the test binary and the rule engine (lines 361 to 377, 1262 to 1281) -/

/-- The argument list that `runTests` hands to `ginkgo`. -/
def ginkgoArgs (s : State) (labelsToRun junitReportFile : String) : List String :=
  let args := ["-p", "--output-interceptor-mode=none", "--no-color", "--timeout=90m",
    "--json-report=e2e-report.json", "--output-dir=" ++ s.artifactDir,
    "--junit-report=" ++ junitReportFile, "--label-filter=" ++ labelsToRun]
  let args := if Getenv s.env "GINKGO_PROCS" ≠ "" then
      args ++ ["--procs=" ++ Getenv s.env "GINKGO_PROCS"] else args
  let args := if Getenv s.env "E2E_BIN_PATH" ≠ "" then
      args ++ [Getenv s.env "E2E_BIN_PATH"] else args ++ ["./cmd"]
  args ++ ["--"]

/-- The function `runTests` of the magefile. -/
def runTests (w : World) (labelsToRun junitReportFile : String) (s : State) :
    Option String × State :=
  let args := ginkgoArgs s labelsToRun junitReportFile
  (w.shRun "ginkgo" args, emit (Event.shRun "ginkgo" args) s)

/-- The default label filter of `RunE2ETests` (line 374). -/
def defaultLabelFilter : String :=
  "!upgrade-create && !upgrade-verify && !upgrade-cleanup && !release-pipelines"

/-- Line 363 of `RunE2ETests`: the changed files of the repository are looked up and assigned
to `rctx.DiffFiles`. -/
def RunE2ETests.lookup (w : World) (s : State) : State :=
  { emit (Event.GetChangedFiles s.rctx.RepoName) s with
    rctx := { s.rctx with DiffFiles := (w.GetChangedFiles s.rctx.RepoName).1 } }

/-- The assignment `rctx.IsPaired = paired`. -/
def setIsPaired (paired : Bool) (s : State) : State :=
  { s with rctx := { s.rctx with IsPaired := paired } }

/-- The function `RunE2ETests` of the magefile. -/
def RunE2ETests (w : World) (s : State) : Option String × State :=
  let s1 := RunE2ETests.lookup w s
  match (w.GetChangedFiles s.rctx.RepoName).2 with
  | some err => (some err, s1)
  | none =>
    if s1.rctx.RepoName = "release-service-catalog" then
      let p := isPRPairingRequired w "release-service" s1
      let s3 := setIsPaired p.1 p.2
      (w.RunRules s3.rctx "tests" "release-service-catalog",
        emit (Event.RunRules s3.rctx "tests" "release-service-catalog") s3)
    else if s1.rctx.RepoName = "infra-deployments" then
      (w.RunRules s1.rctx "tests" "infra-deployments",
        emit (Event.RunRules s1.rctx "tests" "infra-deployments") s1)
    else
      let labelFilter := GetEnv s1.env "E2E_TEST_SUITE_LABEL" defaultLabelFilter
      runTests w labelFilter "e2e-report.xml" s1

/-! ## Preview and demo targets (lines 1320 to 1378) -/

/-- The target `Local.PreviewTestSelection`. -/
def Local.PreviewTestSelection (w : World) (s : State) : Option String × State :=
  let rctx := w.NewRuleCtx
  let s1 := emit (Event.GetChangedFiles "e2e-tests") s
  match w.GetChangedFiles "e2e-tests" with
  | (_, some err) => (some err, emit (Event.klog "Error" err) s1)
  | (files, none) =>
    let rctx := { rctx with DiffFiles := files }
    let rctx := { rctx with DryRun := true }
    let s2 := emit (Event.RunRules rctx "tests" "e2e-repo") s1
    match w.RunRules rctx "tests" "e2e-repo" with
    | some err => (some err, s2)
    | none => (none, s2)

/-- The target `Local.RunRuleDemo`. -/
def Local.RunRuleDemo (w : World) (s : State) : Option String × State :=
  let rctx := w.NewRuleCtx
  let s1 := emit (Event.GetChangedFiles "e2e-tests") s
  match w.GetChangedFiles "e2e-tests" with
  | (_, some err) => (some err, emit (Event.klog "Error" err) s1)
  | (files, none) =>
    let rctx := { rctx with DiffFiles := files }
    let rctx := { rctx with DryRun := true }
    let s2 := emit (Event.RunRulesOfCategory "demo" rctx) s1
    match w.RunRulesOfCategory "demo" rctx with
    | some err => (some err, s2)
    | none => (none, s2)

/-- The target `Local.RunInfraDeploymentsRuleDemo`. -/
def Local.RunInfraDeploymentsRuleDemo (w : World) (s : State) : Option String × State :=
  let rctx := w.NewRuleCtx
  let rctx := { rctx with Parallel := true }
  let rctx := { rctx with OutputDir := s.artifactDir }
  let rctx := { rctx with RepoName := "infra-deployments" }
  let rctx := { rctx with JobName := "" }
  let rctx := { rctx with JobType := "" }
  let rctx := { rctx with DryRun := true }
  let s1 := emit (Event.GetChangedFiles "infra-deployments") s
  match w.GetChangedFiles "infra-deployments" with
  | (_, some err) => (some err, s1)
  | (files, none) =>
    let rctx := { rctx with DiffFiles := files }
    (w.RunRules rctx "tests" "infra-deployments",
      emit (Event.RunRules rctx "tests" "infra-deployments") s1)

/-! ## Job metadata (lines 77 to 147) -/

/-- The method `CI.parseJobSpec`. -/
def CI.parseJobSpec (w : World) (s : State) : Option String × State :=
  let jobSpecEnvVarData := Getenv s.env "JOB_SPEC"
  if s.konfluxCI = "true" then
    let r := w.unmarshalKonfluxCISpec jobSpecEnvVarData s.konfluxCiSpec
    let s1 := { s with konfluxCiSpec := r.1 }
    match r.2 with
    | some err => (some ("error when parsing openshift job spec data: " ++ err), s1)
    | none => (none, s1)
  else
    let r := w.unmarshalOpenshiftJobSpec jobSpecEnvVarData s.openshiftJobSpec
    let s1 := { s with openshiftJobSpec := r.1 }
    match r.2 with
    | some err => (some ("error when parsing openshift job spec data: " ++ err), s1)
    | none => (none, s1)

/-- Lines 104 to 114 of `CI.init`: the pull-request identity is taken from the parsed job spec.
`none` is the run-time panic of `Pulls[0]` on an empty list. -/
def CI.initPullRequest (s : State) : Option State :=
  if s.konfluxCI = "true" then
    some { s with pr := { s.pr with
      Organization := s.konfluxCiSpec.KonfluxGitRefs.GitOrg
      RepoName := s.konfluxCiSpec.KonfluxGitRefs.GitRepo
      CommitSHA := s.konfluxCiSpec.KonfluxGitRefs.CommitSha
      Number := s.konfluxCiSpec.KonfluxGitRefs.PullRequestNumber } }
  else
    match s.openshiftJobSpec.Refs.Pulls with
    | [] => none
    | pull :: _ =>
      some { s with pr := { s.pr with
        Organization := s.openshiftJobSpec.Refs.Organization
        RepoName := s.openshiftJobSpec.Refs.Repo
        CommitSHA := pull.SHA
        Number := pull.Number } }

/-- Lines 116 to 125 of `CI.init`: remote and branch name of the pull request. -/
def CI.initRemoteAndBranch (w : World) (s : State) : Option String × State :=
  if s.konfluxCiSpec.KonfluxGitRefs.EventType ≠ "push" then
    let prUrl := "https://api.github.com/repos/" ++ s.pr.Organization ++ "/" ++ s.pr.RepoName ++
      "/pulls/" ++ toString s.pr.Number
    let r := w.getRemoteAndBranchNameFromPRLink prUrl
    let s1 := emit (Event.external "getRemoteAndBranchNameFromPRLink" [prUrl]) s
    let s1 := { s1 with pr := { s1.pr with RemoteName := r.1, BranchName := r.2.1 } }
    (r.2.2, s1)
  else if s.konfluxCiSpec.KonfluxGitRefs.EventType = "push" ∧
      s.konfluxCiSpec.KonfluxGitRefs.GitRepo = "release-service-catalog" then
    (none, { s with pr := { s.pr with RemoteName := "konflux-ci", BranchName := "staging" } })
  else (none, s)

/-- Lines 127 to 144 of `CI.init`: the rule context is created and filled. -/
def CI.initRuleCtx (w : World) (s : State) : State :=
  let rctx := w.NewRuleCtx
  let rctx := { rctx with Parallel := true }
  let rctx := { rctx with OutputDir := s.artifactDir }
  let rctx := { rctx with JUnitReport := "e2e-report.xml" }
  let rctx := { rctx with JSONReport := "e2e-report.json" }
  let rctx := { rctx with RepoName := s.pr.RepoName }
  let rctx := { rctx with JobName := s.jobName }
  let rctx := { rctx with JobType := s.jobType }
  let rctx := { rctx with PrRemoteName := s.pr.RemoteName }
  let rctx := { rctx with PrBranchName := s.pr.BranchName }
  let rctx := { rctx with PrCommitSha := s.pr.CommitSHA }
  let rctx := { rctx with PrNum := s.pr.Number }
  let rctx := if s.konfluxCI = "true" then
      { rctx with TektonEventType := s.konfluxCiSpec.KonfluxGitRefs.EventType } else rctx
  { s with rctx := rctx }

/-- The method `CI.init`.  The result `none` is the run-time panic of line 112; otherwise the
returned error and the state. -/
def CI.init (w : World) (s : State) : Option (Option String × State) :=
  if s.jobType = "periodic" ∨ strContains s.jobName "rehearse" = true then some (none, s)
  else
    match CI.parseJobSpec w s with
    | (some err, s1) => some (some err, s1)
    | (none, s1) =>
      match CI.initPullRequest s1 with
      | none => none
      | some s2 =>
        match CI.initRemoteAndBranch w s2 with
        | (some err, s3) => some (some err, s3)
        | (none, s3) => some (none, CI.initRuleCtx w s3)

/-! ## Cluster preparation (lines 379 to 534, 799 to 826, 1077 to 1152) -/

/-- Go `strings.Split(s, sep)` for a separator of one character, on character lists. -/
def splitOnChar (sep : Char) : List Char → List (List Char)
  | [] => [[]]
  | c :: cs =>
    if c = sep then [] :: splitOnChar sep cs
    else
      match splitOnChar sep cs with
      | [] => [[c]]
      | piece :: pieces => (c :: piece) :: pieces

/-- Go `strings.Split(s, sep)` for a separator of one character. -/
def strSplit (s : String) (sep : Char) : List String :=
  (splitOnChar sep s.toList).map String.mk

/-- The variable `requiredBinaries` (line 52). -/
def requiredBinaries : List String := ["jq", "kubectl", "oc", "yq", "git"]

/-- The loop of `PreflightChecks` over `requiredBinaries` (lines 396 to 400). -/
def checkBinaries (w : World) : List String → State → Option String × State
  | [], s => (none, s)
  | binaryName :: rest, s =>
    let s1 := emit (Event.shRun "which" [binaryName]) s
    match w.shRun "which" [binaryName] with
    | some _ =>
      (some ("binary " ++ binaryName ++ " not found in PATH - please install it first"), s1)
    | none => checkBinaries w rest s1

/-- The function `PreflightChecks` of the magefile. -/
def PreflightChecks (w : World) (s : State) : Option String × State :=
  let requiredEnv := ["GITHUB_TOKEN", "QUAY_TOKEN", "DEFAULT_QUAY_ORG", "DEFAULT_QUAY_ORG_TOKEN"]
  let missingEnv := requiredEnv.filter (fun env => Getenv s.env env = "")
  if missingEnv.length ≠ 0 then
    (some ("required env vars containing secrets (" ++ ",".intercalate missingEnv ++
      ") not defined or empty"), s)
  else
    match checkBinaries w requiredBinaries s with
    | (some err, s1) => (some err, s1)
    | (none, s1) =>
      let goArgs := ["install", "-mod=mod", "github.com/onsi/ginkgo/v2/ginkgo"]
      (w.shRun "go" goArgs, emit (Event.shRun "go" goArgs) s1)

/-- The `switch` of lines 427 to 458 in `setRequiredEnvVars`: the state after it and the
values of `envVarPrefix`, `imageTagSuffix` and `testSuiteLabel`. -/
def setRequiredEnvVars.switch (s : State) : State × String × String × String :=
  if strContains s.jobName "application-service" then
    ({ s with requiresSprayProxyRegistering := true }, "HAS", "has-image", "konflux")
  else if strContains s.jobName "release-service" then
    (setenv "RELEASE_SERVICE_CATALOG_REVISION" "development" s,
      "RELEASE_SERVICE", "release-service-image", "release-service")
  else if strContains s.jobName "integration-service" then
    ({ s with requiresSprayProxyRegistering := true },
      "INTEGRATION_SERVICE", "integration-service-image", "integration-service")
  else if strContains s.jobName "build-service" then
    ({ s with requiresSprayProxyRegistering := true },
      "BUILD_SERVICE", "build-service-image", "build-service")
  else if strContains s.jobName "image-controller" then
    ({ s with requiresSprayProxyRegistering := true },
      "IMAGE_CONTROLLER", "image-controller-image", "image-controller")
  else if strContains s.jobName "multi-platform-controller" then
    ({ s with requiresMultiPlatformTests := true },
      "MULTI_PLATFORM_CONTROLLER", "multi-platform-controller", "multi-platform")
  else (s, "", "", "")

/-- Lines 424 to 473 of `setRequiredEnvVars`: a component repository job. -/
def setRequiredEnvVars.component (w : World) (s : State) : State :=
  let sp := strSplit (Getenv s.env "COMPONENT_IMAGE") '@'
  let r := setRequiredEnvVars.switch s
  let s1 := r.1
  let envVarPrefix := r.2.1
  let imageTagSuffix := r.2.2.1
  let testSuiteLabel := r.2.2.2
  let s2 := setenv ( envVarPrefix ++ "_IMAGE_REPO") (sp.headD "") s1
  let s3 := setenv ( envVarPrefix ++ "_IMAGE_TAG") ("redhat-appstudio-" ++ imageTagSuffix) s2
  let s4 := if strContains s3.jobName "rehearse" then s3 else
    setenv ( envVarPrefix ++ "_PR_SHA") s3.pr.CommitSHA
      (setenv ( envVarPrefix ++ "_PR_OWNER") s3.pr.RemoteName s3)
  let p := isPRPairingRequired w "infra-deployments" s4
  let s5 := if p.1 then
      setenv "INFRA_DEPLOYMENTS_BRANCH" p.2.pr.BranchName
        (setenv "INFRA_DEPLOYMENTS_ORG" p.2.pr.RemoteName p.2)
    else p.2
  setenv "E2E_TEST_SUITE_LABEL" testSuiteLabel s5

/-- Lines 476 to 485 of `setRequiredEnvVars`: an infra-deployments job. -/
def setRequiredEnvVars.infraDeployments (s : State) : State :=
  let s1 := { s with requiresMultiPlatformTests := true }
  let s2 := { s1 with requiresSprayProxyRegistering := true }
  let s3 := setenv "INFRA_DEPLOYMENTS_ORG" s2.pr.RemoteName s2
  let s4 := setenv "INFRA_DEPLOYMENTS_BRANCH" s3.pr.BranchName s3
  setenv "E2E_TEST_SUITE_LABEL"
    "e2e-demo,konflux,integration-service,ec,build-templates,multi-platform" s4

/-- Lines 493 to 503 of `setRequiredEnvVars`: pairing with a release-service pull request. -/
def setRequiredEnvVars.pairedRelease (w : World) (s : State) : State :=
  let p := isPRPairingRequired w "release-service" s
  if p.1 then
    let s1 := setenv "RELEASE_SERVICE_IMAGE_REPO"
      "quay.io/redhat-user-workloads/rhtap-release-2-tenant/release-service/release-service" p.2
    let pairedSha := w.GetPairedCommitSha "release-service" s1.rctx
    let s2 := emit (Event.external "repos.GetPairedCommitSha" ["release-service"]) s1
    let s3 := if pairedSha ≠ "" then
        setenv "RELEASE_SERVICE_IMAGE_TAG" ("on-pr-" ++ pairedSha) s2 else s2
    let s4 := setenv "RELEASE_SERVICE_PR_OWNER" s3.pr.RemoteName s3
    let s5 := setenv "RELEASE_SERVICE_PR_SHA" pairedSha s4
    setenv "E2E_TEST_SUITE_LABEL" "release-pipelines && !fbc-tests" s5
  else p.2

/-- Lines 487 to 510 of `setRequiredEnvVars`: a release-service-catalog job. -/
def setRequiredEnvVars.catalog (w : World) (s : State) : State :=
  let s1 := setenv "E2E_TEST_SUITE_LABEL" "release-pipelines" s
  let s2 := if strContains s1.jobName "rehearse" then s1 else
    let a := setenv "RELEASE_SERVICE_CATALOG_URL"
      ("https://github.com/" ++ s1.pr.RemoteName ++ "/" ++ s1.pr.RepoName) s1
    let b := setenv "RELEASE_SERVICE_CATALOG_REVISION" a.pr.CommitSHA a
    setRequiredEnvVars.pairedRelease w b
  let s3 := if Getenv s2.env "REL_IMAGE_CONTROLLER_QUAY_ORG" ≠ "" then
      setenv "IMAGE_CONTROLLER_QUAY_ORG" (Getenv s2.env "REL_IMAGE_CONTROLLER_QUAY_ORG") s2
    else s2
  if Getenv s3.env "REL_IMAGE_CONTROLLER_QUAY_TOKEN" ≠ "" then
    setenv "IMAGE_CONTROLLER_QUAY_TOKEN" (Getenv s3.env "REL_IMAGE_CONTROLLER_QUAY_TOKEN") s3
  else s3

/-- The function `setRequiredEnvVars` of the magefile. -/
def setRequiredEnvVars (w : World) (s : State) : Option String × State :=
  if strContains s.jobName "-load-test" then (none, s)
  else if strContains s.jobName "-periodic" then
    (none, { s with requiresMultiPlatformTests := true, requiresSprayProxyRegistering := true })
  else if s.openshiftJobSpec.Refs.Repo ≠ "e2e-tests" then
    if strHasSuffix s.jobName "-service-e2e" || strContains s.jobName "image-controller" then
      (none, setRequiredEnvVars.component w s)
    else if s.openshiftJobSpec.Refs.Repo = "infra-deployments" then
      (none, setRequiredEnvVars.infraDeployments s)
    else if strContains s.jobName "release-service-catalog" then
      (none, setRequiredEnvVars.catalog w s)
    else
      (none, { s with requiresMultiPlatformTests := true, requiresSprayProxyRegistering := true })
  else (none, s)

/-- The function `SetupCustomBundle` of the magefile. -/
def SetupCustomBundle (w : World) (s : State) : Option String × State :=
  let s1 := emit (Event.klog "Info" "setting up new custom bundle for testing...") s
  let s2 := emit (Event.external "build.CreateCustomBuildBundle" ["docker-build"]) s1
  match w.CreateCustomBuildBundle "docker-build" with
  | Except.error err => (some err, s2)
  | Except.ok customDockerBuildBundle =>
    let s3 := emit (Event.klog "Info"
      ("To use the custom docker bundle locally, run below cmd:\n\n " ++
        "export CUSTOM_DOCKER_BUILD_PIPELINE_BUNDLE=" ++ customDockerBuildBundle ++ "\n\n")) s2
    match SetenvError w.CUSTOM_DOCKER_BUILD_PIPELINE_BUNDLE_ENV customDockerBuildBundle with
    | some err => (some err, s3)
    | none => (none, setenv w.CUSTOM_DOCKER_BUILD_PIPELINE_BUNDLE_ENV customDockerBuildBundle s3)

/-- The variable `platforms` (line 67). -/
def platforms : List String := ["linux/arm64", "linux/s390x", "linux/ppc64le"]

/-- The loop of `SetupMultiPlatformTests` (lines 542 to 603).  The tekton bundle work of one
round is answered by `World.buildRemotePipelineBundle`; the round ends by exporting the
reference of the pushed bundle. -/
def setupPlatforms (w : World) : List String → State → Option String × State
  | [], s => (none, s)
  | platformType :: rest, s =>
    let s1 := emit (Event.external "tekton.BuildAndPushTektonBundle" [platformType]) s
    match w.buildRemotePipelineBundle platformType with
    | Except.error err => (some err, s1)
    | Except.ok newRemotePipeline =>
      let platform := (((strSplit platformType '/').drop 1).headD "").toUpper
      let key := w.CUSTOM_BUILDAH_REMOTE_PIPELINE_BUILD_BUNDLE_ENV ++ "_" ++ platform
      let s2 := emit (Event.klog "Info"
        ("SETTING ENV VAR " ++ key ++ " to value " ++ newRemotePipeline ++ "\n")) s1
      setupPlatforms w rest (setenv key newRemotePipeline s2)

/-- The function `SetupMultiPlatformTests` of the magefile. -/
def SetupMultiPlatformTests (w : World) (s : State) : Option String × State :=
  setupPlatforms w platforms (emit (Event.klog "Info"
    ("going to create new Tekton bundle remote-build for the purpose of testing " ++
      "multi-platform-controller PR")) s)

/-- The function `newSprayProxy` of the magefile: the error, or the configuration. -/
def newSprayProxy (w : World) (s : State) : Except String String :=
  if Getenv s.env "QE_SPRAYPROXY_HOST" = "" then
    Except.error "env var QE_SPRAYPROXY_HOST is not set"
  else if Getenv s.env "QE_SPRAYPROXY_TOKEN" = "" then
    Except.error "env var QE_SPRAYPROXY_TOKEN is not set"
  else
    w.NewSprayProxyConfig (Getenv s.env "QE_SPRAYPROXY_HOST") (Getenv s.env "QE_SPRAYPROXY_TOKEN")

/-- The function `printRegisteredPacServers` of the magefile. -/
def printRegisteredPacServers (w : World) (s : State) : Option String × State :=
  let s1 := emit (Event.external "sprayProxyConfig.GetServers" []) s
  match w.GetServers with
  | Except.error err =>
    (some ("failed to get registered PaC servers from SprayProxy: " ++ err), s1)
  | Except.ok servers =>
    (none, emit (Event.klog "Info" ("The PaC servers registered in Sprayproxy: " ++ servers)) s1)

/-- The function `registerPacServer` of the magefile. -/
def registerPacServer (w : World) (s : State) : Option String × State :=
  match newSprayProxy w s with
  | Except.error err =>
    (some ("failed to set up SprayProxy credentials: " ++ err), { s with sprayProxyConfig := none })
  | Except.ok config =>
    let s1 := { s with sprayProxyConfig := some config }
    let s2 := emit (Event.external "sprayproxy.GetPaCHost" []) s1
    match w.GetPaCHost with
    | Except.error err => (some ("failed to get PaC host: " ++ err), s2)
    | Except.ok pacHost =>
      let s3 := emit (Event.external "sprayProxyConfig.RegisterServer" [pacHost]) s2
      match w.RegisterServer pacHost with
      | some err =>
        (some ("error when registering PaC server " ++ pacHost ++ " to SprayProxy server " ++
          config ++ ": " ++ err), s3)
      | none =>
        let s4 := emit (Event.klog "Info" ("Registered PaC server: " ++ pacHost)) s3
        match printRegisteredPacServers w s4 with
        | (some err, s5) => (none, emit (Event.klog "Error" err) s5)
        | (none, s5) => (none, s5)

/-- The function `BootstrapCluster` of the magefile. -/
def BootstrapCluster (w : World) (s : State) : Option String × State :=
  let r := if Getenv s.env "CI" = "true" ∨ s.konfluxCI = "true" then setRequiredEnvVars w s
    else (none, s)
  match r with
  | (some err, s1) => (some ("error when setting up required env vars: " ++ err), s1)
  | (none, s1) =>
    let s2 := emit (Event.external "installation.NewAppStudioInstallController" []) s1
    match w.NewAppStudioInstallController with
    | some err => (some ("failed to initialize installation controller: " ++ err), s2)
    | none =>
      let s3 := emit (Event.external "ic.InstallAppStudioPreviewMode" []) s2
      match w.InstallAppStudioPreviewMode with
      | some err => (some err, s3)
      | none =>
        if Getenv s3.env "CI" = "true" ∨
            (s3.konfluxCI = "true" ∧ s3.requiresSprayProxyRegistering = true) then
          match registerPacServer w s3 with
          | (some err, s4) =>
            let s5 := setenv w.SKIP_PAC_TESTS_ENV "true" s4
            let alert := "failed to register SprayProxy: " ++ err
            let s6 := emit (Event.external "HandleErrorWithAlert" [alert]) s5
            match w.HandleErrorWithAlert alert with
            | some alertErr => (some alertErr, s6)
            | none => (none, s6)
          | (none, s4) => (none, s4)
        else (none, s3)

/-- Modelled from the spec: the helper `retry(f, attempts, delay)` of package `main`, whose
source is not at hand.  It calls `f` until it returns nil, at most `attempts` times, and
reports the last error when every attempt failed. -/
def retry (f : State → Option String × State) : Nat → Nat → Option String → State →
    Option String × State
  | attempts, 0, lastErr, s =>
    (some ("reached maximum number of attempts (" ++ toString attempts ++ "). error: " ++
      lastErr.getD "<nil>"), s)
  | attempts, remaining + 1, _, s =>
    match f s with
    | (none, s1) => (none, s1)
    | (some err, s1) => retry f attempts remaining (some err) s1

/-- Whether `CI.TestE2E` hands the repository to the rule engine (lines 319 to 321). -/
def hasCIRules (repoName : String) : Bool :=
  repoName = "e2e-tests" || repoName = "integration-service" ||
  repoName = "release-service" || repoName = "image-controller" ||
  repoName = "build-service" || repoName = "release-service-catalog"

/-- Lines 329 to 337 of `CI.TestE2E`: the cluster is bootstrapped, with one retry, unless
`SKIP_BOOTSTRAP` is `true`, in which case only the required variables are set. -/
def CI.TestE2E.bootstrap (w : World) (s : State) : Option String × State :=
  if Getenv s.env "SKIP_BOOTSTRAP" ≠ "true" then
    match retry (BootstrapCluster w) 2 2 none s with
    | (some err, s2) => (some ("error when bootstrapping cluster: " ++ err), s2)
    | (none, s2) => (none, s2)
  else
    match setRequiredEnvVars w s with
    | (some err, s2) => (some ("error when setting up required env vars: " ++ err), s2)
    | (none, s2) => (none, s2)

/-- Lines 339 to 343 of `CI.TestE2E`. -/
def CI.TestE2E.multiPlatform (w : World) (s : State) : Option String × State :=
  if s.requiresMultiPlatformTests then SetupMultiPlatformTests w s else (none, s)

/-- Lines 325 to 349 of `CI.TestE2E`: the path of the repositories without rules. -/
def CI.TestE2E.legacy (w : World) (s : State) : Option String × State :=
  match PreflightChecks w s with
  | (some err, s1) => (some ("error when running preflight checks: " ++ err), s1)
  | (none, s1) =>
    match CI.TestE2E.bootstrap w s1 with
    | (some err, s2) => (some err, s2)
    | (none, s2) =>
      match CI.TestE2E.multiPlatform w s2 with
      | (some err, s3) => (some err, s3)
      | (none, s3) =>
        match RunE2ETests w s3 with
        | (some err, s4) => (some ("error when running e2e tests: " ++ err), s4)
        | (none, s4) => (none, s4)

/-- The target `CI.TestE2E`.  The result `none` is the run-time panic of `CI.init`. -/
def CI.TestE2E (w : World) (s : State) : Option (Option String × State) :=
  match CI.init w s with
  | none => none
  | some (some err, s1) => some (some ("error when running ci init: " ++ err), s1)
  | some (none, s1) =>
    match SetupCustomBundle w s1 with
    | (some err, s2) => some (some err, s2)
    | (none, s2) =>
      if hasCIRules s2.pr.RepoName then
        some (w.RunRulesOfCategory "ci" s2.rctx, emit (Event.RunRulesOfCategory "ci" s2.rctx) s2)
      else some (CI.TestE2E.legacy w s2)

/-! ## Cleanup of the GitHub organisation (lines 190 to 250) -/

/-- The hexadecimal digit of a number below 16, in lower case. -/
def hexDigit (n : Nat) : Char :=
  "0123456789abcdef".toList.getD n '0'

/-- What Go `strconv.Quote` writes for one character: the double quote and the backslash are
escaped, the control characters of ASCII are written with their Go escape, and every other
character is kept.  Characters outside ASCII are kept too, as Go keeps the printable ones. -/
def quoteChar (c : Char) : String :=
  if c.toNat = 34 then "\\\""
  else if c.toNat = 92 then "\\\\"
  else if c.toNat = 7 then "\\a"
  else if c.toNat = 8 then "\\b"
  else if c.toNat = 12 then "\\f"
  else if c.toNat = 10 then "\\n"
  else if c.toNat = 13 then "\\r"
  else if c.toNat = 9 then "\\t"
  else if c.toNat = 11 then "\\v"
  else if c.toNat < 32 ∨ c.toNat = 127 then
    "\\x" ++ String.mk [hexDigit (c.toNat / 16), hexDigit (c.toNat % 16)]
  else String.mk [c]

/-- Go `strconv.Quote`: the string between double quotes, with its characters escaped. -/
def strconvQuote (str : String) : String :=
  "\"" ++ String.join (str.toList.map quoteChar) ++ "\""

/-- Go `strconv.ParseBool`; the error is that of `strconv.NumError`, which quotes the
input with `strconv.Quote`. -/
def ParseBool (str : String) : Except String Bool :=
  if str ∈ ["1", "t", "T", "TRUE", "true", "True"] then Except.ok true
  else if str ∈ ["0", "f", "F", "FALSE", "false", "False"] then Except.ok false
  else Except.error ("strconv.ParseBool: parsing " ++ strconvQuote str ++ ": invalid syntax")

/-- The constant `gitopsRepository` (line 48). -/
def gitopsRepository : String := "GitOps Repository"

/-- The variable `reposToDeleteDefaultRegexp` (line 60). -/
def reposToDeleteDefaultRegexp : String :=
  "jvm-build|e2e-dotnet|build-suite|e2e|pet-clinic-e2e|test-app|e2e-quayio|petclinic|test-app|integ-app|^dockerfile-|new-|^python|my-app|^test-|^multi-component"

/-- The largest Go `time.Duration`, in nanoseconds. -/
def maxDuration : Int := 2 ^ 63 - 1

/-- The smallest Go `time.Duration`, in nanoseconds. -/
def minDuration : Int := -(2 ^ 63)

/-- Go `t.Sub(u)` on instants given in nanoseconds: the difference, kept within the range of
`time.Duration`. -/
def timeSub (t u : Int) : Int :=
  if t - u > maxDuration then maxDuration
  else if t - u < minDuration then minDuration
  else t - u

/-- The Go zero `time.Time` (1 January of year 1, UTC) in nanoseconds since the Unix epoch. -/
def zeroTime : Int := -62135596800 * 1000000000

/-- The result of `time.ParseDuration("24h")`, in nanoseconds. -/
def dayDuration : Int := 24 * 60 * 60 * 1000000000

/-- Go `time.Since(t)`: one reading of the clock. -/
def timeSince (w : World) (t : Int) (s : State) : Int × State :=
  (timeSub (w.Now s.clock) t, { s with clock := s.clock + 1 })

/-- The getter `(*Repository).GetName`. -/
def Repository.GetName (r : Repository) : String := r.Name.getD ""

/-- The getter `(*Repository).GetDescription`. -/
def Repository.GetDescription (r : Repository) : String := r.Description.getD ""

/-- The getter `(*Repository).GetCreatedAt`, as an instant: the zero time when the field is
nil. -/
def Repository.GetCreatedAt (r : Repository) : Int := r.CreatedAt.getD zeroTime

/-- The loop of lines 220 to 229 of `Local.CleanupGithubOrg`: `reposToDelete` grows by the
repositories that pass the age test and the name or description test. -/
def selectReposToDelete (w : World) (r : Regexp) :
    List Repository → List Repository → State → List Repository × State
  | [], reposToDelete, s => (reposToDelete, s)
  | repo :: rest, reposToDelete, s =>
    let d := timeSince w repo.GetCreatedAt s
    if d.1 > dayDuration then
      if r repo.GetName = true ∨ repo.GetDescription = gitopsRepository then
        selectReposToDelete w r rest (reposToDelete ++ [repo]) d.2
      else selectReposToDelete w r rest reposToDelete d.2
    else selectReposToDelete w r rest reposToDelete d.2

/-- The loop of lines 236 to 245 of `Local.CleanupGithubOrg`. -/
def deleteRepos (w : World) (dryRun : Bool) : List Repository → State → State
  | [], s => s
  | repo :: rest, s =>
    if dryRun then
      deleteRepos w dryRun rest (emit (Event.klog "Info" ("\t" ++ repo.GetName)) s)
    else
      let s1 := emit (Event.DeleteRepository repo) s
      match w.DeleteRepository repo with
      | some err =>
        deleteRepos w dryRun rest
          (emit (Event.klog "Warning" ("error deleting repository: " ++ err ++ "\n")) s1)
      | none => deleteRepos w dryRun rest s1

/-- The target `Local.CleanupGithubOrg`. -/
def Local.CleanupGithubOrg (w : World) (s : State) : Option String × State :=
  let githubToken := Getenv s.env "GITHUB_TOKEN"
  if githubToken = "" then (some "env var GITHUB_TOKEN is not set", s)
  else
    match ParseBool (GetEnv s.env "DRY_RUN" "true") with
    | Except.error err => (some ("unable to parse DRY_RUN env var\n\t" ++ err), s)
    | Except.ok dryRun =>
      let githubOrgName := GetEnv s.env w.GITHUB_E2E_ORGANIZATION_ENV "redhat-appstudio-qe"
      let s1 := emit (Event.external "github.NewGithubClient" [githubToken, githubOrgName]) s
      match w.NewGithubClient githubToken githubOrgName with
      | some err => (some err, s1)
      | none =>
        let s2 := emit (Event.external "ghClient.GetAllRepositories" []) s1
        match w.GetAllRepositories with
        | Except.error err => (some err, s2)
        | Except.ok repos =>
          match w.regexpCompile (GetEnv s2.env "REPO_REGEX" reposToDeleteDefaultRegexp) with
          | Except.error err => (some ("unable to compile regex: " ++ err), s2)
          | Except.ok r =>
            let sel := selectReposToDelete w r repos [] s2
            let s3 := if dryRun then
                emit (Event.klog "Info"
                  "Dry run enabled. Listing repositories that would be deleted:") sel.2
              else sel.2
            let s4 := deleteRepos w dryRun sel.1 s3
            let s5 := if dryRun then
                emit (Event.klog "Info"
                  ("If you really want to delete these repositories, run " ++
                    "`DRY_RUN=false [REGEXP=<regexp>] mage local:cleanupGithubOrg`")) s4
              else s4
            (none, s5)

/-- The test that the documentation of `Local.CleanupGithubOrg` describes, at the instant
`now`: the repository was created more than 24 hours ago, and its name matches the regular
expression or its description is exactly `GitOps Repository`. -/
def shouldDelete (r : Regexp) (now : Int) (repo : Repository) : Bool :=
  decide (now - repo.GetCreatedAt > dayDuration) &&
    (r repo.GetName || decide (repo.GetDescription = gitopsRepository))

/-- The list `repos` filtered by `shouldDelete`, in the same order, the repository at
position `i` being tested at the reading number `k + i` of the clock. -/
def filterAt (w : World) (r : Regexp) : Nat → List Repository → List Repository
  | _, [] => []
  | k, repo :: rest =>
    if shouldDelete r (w.Now k) repo then repo :: filterAt w r (k + 1) rest
    else filterAt w r (k + 1) rest

/-! ## Cleanup of GitHub webhooks (lines 874 to 903) -/

/-- The variable `repositoriesWithWebhooks` (line 61). -/
def repositoriesWithWebhooks : List String :=
  ["devfile-sample-hello-world", "hacbs-test-project", "secret-lookup-sample-repo-two"]

/-- The getter `(*Hook).GetID`. -/
def Hook.GetID (wh : Hook) : Int := wh.ID.getD 0

/-- The getter `(*Hook).GetName`. -/
def Hook.GetName (wh : Hook) : String := wh.Name.getD ""

/-- The getter `(*Hook).GetCreatedAt`, as an instant: the zero time when the field is nil. -/
def Hook.GetCreatedAt (wh : Hook) : Int := wh.CreatedAt.getD zeroTime

/-- The loop of lines 892 to 900 of `CleanGitHubWebHooks` over the webhooks of one
repository. -/
def cleanRepoWebhooks (w : World) (githubOrg repo : String) :
    List Hook → State → Option String × State
  | [], s => (none, s)
  | wh :: rest, s =>
    let d := timeSince w wh.GetCreatedAt s
    if d.1 > dayDuration then
      let s1 := emit (Event.klog "Info" ("removing webhook: " ++ wh.GetName ++
        ", git_organization: " ++ githubOrg ++ ", git_repository: " ++ repo)) d.2
      let s2 := emit (Event.DeleteWebhook repo wh.GetID) s1
      match w.DeleteWebhook repo wh.GetID with
      | some _ =>
        (some ("failed to delete webhook: " ++ w.sprintNamePointer wh ++ ", repo: " ++ repo), s2)
      | none => cleanRepoWebhooks w githubOrg repo rest s2
    else cleanRepoWebhooks w githubOrg repo rest d.2

/-- The loop of lines 887 to 901 of `CleanGitHubWebHooks` over the repositories. -/
def cleanWebhooksOf (w : World) (githubOrg : String) :
    List String → State → Option String × State
  | [], s => (none, s)
  | repo :: rest, s =>
    let s1 := emit (Event.ListRepoWebhooks repo) s
    match w.ListRepoWebhooks repo with
    | Except.error err => (some err, s1)
    | Except.ok webhookList =>
      match cleanRepoWebhooks w githubOrg repo webhookList s1 with
      | (some err, s2) => (some err, s2)
      | (none, s2) => cleanWebhooksOf w githubOrg rest s2

/-- The function `CleanGitHubWebHooks` of the magefile. -/
def CleanGitHubWebHooks (w : World) (s : State) : Option String × State :=
  let token := GetEnv s.env w.GITHUB_TOKEN_ENV ""
  if token = "" then
    (some "empty GITHUB_TOKEN env. Please provide a valid github token", s)
  else
    let githubOrg := GetEnv s.env w.GITHUB_E2E_ORGANIZATION_ENV "redhat-appstudio-qe"
    let s1 := emit (Event.external "github.NewGithubClient" [token, githubOrg]) s
    match w.NewGithubClient token githubOrg with
    | some err => (some err, s1)
    | none => cleanWebhooksOf w githubOrg repositoriesWithWebhooks s1

/-- Whether the webhook was created more than 24 hours before the instant `now`. -/
def hookIsOld (now : Int) (wh : Hook) : Bool :=
  decide (now - wh.GetCreatedAt > dayDuration)

/-- The webhooks of a list that are older than 24 hours, in the same order, the webhook at
position `i` being tested at the reading number `k + i` of the clock. -/
def oldHooksAt (w : World) : Nat → List Hook → List Hook
  | _, [] => []
  | k, wh :: rest =>
    if hookIsOld (w.Now k) wh then wh :: oldHooksAt w (k + 1) rest
    else oldHooksAt w (k + 1) rest

/-- The calls of `DeleteWebhook` that a complete run of `CleanGitHubWebHooks` owes the
given repositories: one for each webhook older than 24 hours, repository after repository,
the clock being read once for each listed webhook from the reading number `k` on. -/
def expectedWebhookDeletes (w : World) : Nat → List String → List Event
  | _, [] => []
  | k, repo :: rest =>
    match w.ListRepoWebhooks repo with
    | Except.error _ => []
    | Except.ok hooks =>
      (oldHooksAt w k hooks).map (fun wh => Event.DeleteWebhook repo wh.GetID) ++
        expectedWebhookDeletes w (k + hooks.length) rest

/-- Whether the world answers a call that lists or deletes webhooks, or that unregisters a
server, with an error. -/
def World.fails (w : World) : Event → Bool
  | Event.ListRepoWebhooks repo =>
    match w.ListRepoWebhooks repo with
    | Except.error _ => true
    | Except.ok _ => false
  | Event.DeleteWebhook repo id => (w.DeleteWebhook repo id).isSome
  | Event.UnregisterServer server => (w.UnregisterServer server).isSome
  | _ => false

/-- Whether a call is `DeleteWebhook`. -/
def Event.isDeleteWebhook : Event → Bool
  | Event.DeleteWebhook _ _ => true
  | _ => false

/-! ## Upgrade tests (lines 1187 to 1260) -/

/-- The function `BootstrapClusterForUpgrade` of the magefile, without the controller it
returns. -/
def BootstrapClusterForUpgrade (w : World) (s : State) : Option String × State :=
  let s1 := setenv "INFRA_DEPLOYMENTS_ORG" "redhat-appstudio" s
  let s2 := setenv "INFRA_DEPLOYMENTS_BRANCH" "main" s1
  let s3 := emit (Event.external "installation.NewAppStudioInstallController" []) s2
  match w.NewAppStudioInstallController with
  | some err => (some ("failed to initialize installation controller: " ++ err), s3)
  | none =>
    (w.InstallAppStudioPreviewMode, emit (Event.external "ic.InstallAppStudioPreviewMode" []) s3)

/-- The function `UpgradeCluster` of the magefile. -/
def UpgradeCluster (w : World) (s : State) : Option String × State :=
  let branch := GetEnv s.env "UPGRADE_BRANCH" ""
  let forkOrganization := GetEnv s.env "UPGRADE_FORK_ORGANIZATION" "redhat-appstudio"
  (w.MergePRInRemote branch forkOrganization "./tmp/infra-deployments",
    emit (Event.external "MergePRInRemote"
      [branch, forkOrganization, "./tmp/infra-deployments"]) s)

/-- The function `CheckClusterAfterUpgrade` of the magefile. -/
def CheckClusterAfterUpgrade (w : World) (s : State) : Option String × State :=
  (w.CheckOperatorsReady, emit (Event.external "ic.CheckOperatorsReady" []) s)

/-- The function `CreateWorkload` of the magefile. -/
def CreateWorkload (w : World) (s : State) : Option String × State :=
  runTests w "upgrade-create" "upgrade-create-report.xml" s

/-- The function `VerifyWorkload` of the magefile. -/
def VerifyWorkload (w : World) (s : State) : Option String × State :=
  runTests w "upgrade-verify" "upgrade-verify-report.xml" s

/-- The function `CleanWorkload` of the magefile. -/
def CleanWorkload (w : World) (s : State) : Option String × State :=
  runTests w "upgrade-cleanup" "upgrade-verify-report.xml" s

/-- The function `UpgradeTestsWorkflow` of the magefile. -/
def UpgradeTestsWorkflow (w : World) (s : State) : Option String × State :=
  match BootstrapClusterForUpgrade w s with
  | (some err, s1) => (some err, emit (Event.klog "Error" err) s1)
  | (none, s1) =>
    match CheckClusterAfterUpgrade w s1 with
    | (some err, s2) => (some err, emit (Event.klog "Error" err) s2)
    | (none, s2) =>
      match UpgradeCluster w s2 with
      | (some err, s3) => (some err, emit (Event.klog "Error" err) s3)
      | (none, s3) =>
        match CheckClusterAfterUpgrade w s3 with
        | (some err, s4) => (some err, emit (Event.klog "Error" err) s4)
        | (none, s4) => (none, s4)

/-- The target `Local.TestUpgrade`. -/
def Local.TestUpgrade (w : World) (s : State) : Option String × State :=
  match PreflightChecks w s with
  | (some err, s1) =>
    (some err, emit (Event.klog "Error" ("error when running preflight checks: " ++ err)) s1)
  | (none, s1) =>
    match UpgradeTestsWorkflow w s1 with
    | (some err, s2) =>
      (some err, emit (Event.klog "Error" ("error when running upgrade tests: " ++ err)) s2)
    | (none, s2) => (none, s2)

/-- The values of the `--junit-report` argument in the calls of `ginkgo` of a trace. -/
def junitReports (evs : List Event) : List String :=
  evs.flatMap (fun e =>
    match e with
    | Event.shRun "ginkgo" args =>
      args.filter (fun arg => hasPrefixChars arg.toList "--junit-report=".toList)
    | _ => [])

/-- The values of the `--label-filter` argument in the calls of `ginkgo` of a trace. -/
def labelFilters (evs : List Event) : List String :=
  evs.flatMap (fun e =>
    match e with
    | Event.shRun "ginkgo" args =>
      args.filter (fun arg => hasPrefixChars arg.toList "--label-filter=".toList)
    | _ => [])

/-! ## Cleanup of the registered PaC servers (lines 1283 to 1318) -/

/-- Go `unicode.IsSpace`. -/
def isSpace (c : Char) : Bool :=
  c.toNat = 0x20 || (0x09 ≤ c.toNat && c.toNat ≤ 0x0D) || c.toNat = 0x85 || c.toNat = 0xA0 ||
  c.toNat = 0x1680 || (0x2000 ≤ c.toNat && c.toNat ≤ 0x200A) || c.toNat = 0x2028 ||
  c.toNat = 0x2029 || c.toNat = 0x202F || c.toNat = 0x205F || c.toNat = 0x3000

/-- Go `strings.TrimSpace`. -/
def trimSpace (s : String) : String :=
  String.mk ((s.toList.dropWhile isSpace).reverse.dropWhile isSpace).reverse

/-- The function `isValidPacHost` of the magefile. -/
def isValidPacHost (w : World) (server : String) (s : State) : Bool × State :=
  ((w.httpGet (trimSpace server)).isNone, emit (Event.httpGet (trimSpace server)) s)

/-- The loop of lines 1296 to 1305 of `CleanupRegisteredPacServers`; `baseURL` is
`sprayProxyConfig.BaseURL`. -/
def cleanupServers (w : World) (baseURL : String) : List String → State → Option String × State
  | [], s => (none, s)
  | server :: rest, s =>
    let v := isValidPacHost w server s
    if v.1 = false then
      let s1 := emit (Event.UnregisterServer (trimSpace server)) v.2
      match w.UnregisterServer (trimSpace server) with
      | some err =>
        (some ("error when unregistering PaC server " ++ server ++ " from SprayProxy server " ++
          baseURL ++ ": " ++ err), s1)
      | none =>
        cleanupServers w baseURL rest
          (emit (Event.klog "Info" ("Cleanup invalid PaC server: " ++ server)) s1)
    else cleanupServers w baseURL rest v.2

/-- The function `CleanupRegisteredPacServers` of the magefile. -/
def CleanupRegisteredPacServers (w : World) (s : State) : Option String × State :=
  match newSprayProxy w s with
  | Except.error err =>
    (some ("failed to initialize SprayProxy config: " ++ err), { s with sprayProxyConfig := none })
  | Except.ok config =>
    let s1 := { s with sprayProxyConfig := some config }
    let s2 := emit (Event.external "sprayProxyConfig.GetServers" []) s1
    match w.GetServers with
    | Except.error err =>
      (some ("failed to get registered PaC servers from SprayProxy: " ++ err), s2)
    | Except.ok servers =>
      let s3 := emit (Event.klog "Info"
        ("Before cleaningup Pac servers, the registered PaC servers: " ++ servers)) s2
      match cleanupServers w config (strSplit servers ',') s3 with
      | (some err, s4) => (some err, s4)
      | (none, s4) =>
        let s5 := emit (Event.klog "Info" "After cleaningup Pac servers...") s4
        match printRegisteredPacServers w s5 with
        | (some err, s6) => (none, emit (Event.klog "Error" err) s6)
        | (none, s6) => (none, s6)

/-- The entries of a server list that fail the check of `isValidPacHost`, trimmed, in list
order. -/
def invalidServers (w : World) (entries : List String) : List String :=
  (entries.filter (fun entry => (w.httpGet (trimSpace entry)).isSome)).map trimSpace

/-- The servers of a list up to and including the first one whose unregistration fails. -/
def untilFirstFailure (w : World) : List String → List String
  | [] => []
  | server :: rest =>
    if (w.UnregisterServer server).isSome then [server]
    else server :: untilFirstFailure w rest

/-- The server that a call asks SprayProxy to unregister, when the call is
`UnregisterServer`. -/
def Event.unregistered : Event → Option String
  | Event.UnregisterServer server => some server
  | _ => none

/-- The servers that the calls of a trace ask SprayProxy to unregister, in call order. -/
def unregisteredServers (evs : List Event) : List String :=
  evs.filterMap Event.unregistered

/-- The URLs that the calls of a trace check with `httpClient.Get`, in call order. -/
def checkedHosts (evs : List Event) : List String :=
  evs.filterMap (fun e =>
    match e with
    | Event.httpGet url => some url
    | _ => none)

/-! ## Reading the trace -/

/-- The repository that a call asks GitHub to delete, when the call is `DeleteRepository`. -/
def Event.deletedRepo : Event → Option Repository
  | Event.DeleteRepository repo => some repo
  | _ => none

/-- The repositories that the calls of a trace ask GitHub to delete, in call order. -/
def deletedRepos (evs : List Event) : List Repository :=
  evs.filterMap Event.deletedRepo

/-- The context handed to the rule engine by a call, when the call is one of the two entry
points of the engine. -/
def Event.engineCtx : Event → Option RuleCtx
  | Event.RunRules ctx _ _ => some ctx
  | Event.RunRulesOfCategory _ ctx => some ctx
  | _ => none

/-- The contexts handed to the rule engine by the calls of a trace, in call order. -/
def engineCtxs (evs : List Event) : List RuleCtx :=
  evs.filterMap Event.engineCtx

/-- The calls of a trace that enter the rule engine, in call order. -/
def engineCalls (evs : List Event) : List Event :=
  evs.filter (fun e => (Event.engineCtx e).isSome)

/-- The calls made between the state `s` and a later state `s'`. -/
def emitted (s s' : State) : List Event :=
  s'.trace.drop s.trace.length

/-- The calls that run rules or tests: the two entry points of the engine, the diff service
and the `ginkgo` binary. -/
def Event.isKey : Event → Bool
  | Event.RunRules _ _ _ => true
  | Event.RunRulesOfCategory _ _ => true
  | Event.GetChangedFiles _ => true
  | Event.shRun cmd _ => cmd = "ginkgo"
  | _ => false

/-- The error that the world answers to a call that runs rules or tests. -/
def World.answer (w : World) : Event → Option String
  | Event.GetChangedFiles repo => (w.GetChangedFiles repo).2
  | Event.RunRules ctx category catalog => w.RunRules ctx category catalog
  | Event.RunRulesOfCategory category ctx => w.RunRulesOfCategory category ctx
  | Event.shRun cmd args => w.shRun cmd args
  | _ => none

/-- Whether a call is the HTTP request of a pairing lookup. -/
def Event.isPairingLookup : Event → Bool
  | Event.sendHttpRequestAndParseResponse _ _ => true
  | _ => false

/-- Whether, in a trace, a pairing lookup comes before the first call of the rule engine (true
also when the engine is never called). -/
def pairedBeforeEngine : List Event → Bool
  | [] => true
  | e :: rest =>
    if Event.isPairingLookup e then true
    else if (Event.engineCtx e).isSome then false
    else pairedBeforeEngine rest

/-- The step from `s` to `s'` makes no call that runs rules or tests and leaves the rule
context, the pull-request metadata and the job variables as they were. -/
structure Quiet (s s' : State) : Prop where
  trace : ∃ evs, s'.trace = s.trace ++ evs ∧ ∀ e ∈ evs, Event.isKey e = false
  rctx : s'.rctx = s.rctx
  pr : s'.pr = s.pr
  artifactDir : s'.artifactDir = s.artifactDir
  jobName : s'.jobName = s.jobName
  konfluxCI : s'.konfluxCI = s.konfluxCI

/-- A world in which every collaborator succeeds: no changed files, no open pull requests, no
repositories, an engine that reports no error, and a fresh rule context equal to the Go zero
value. -/
def quietWorld : World :=
  { NewRuleCtx := RuleCtx.zero
    GetChangedFiles := fun _ => ([], none)
    RunRules := fun _ _ _ => none
    RunRulesOfCategory := fun _ _ => none
    sendHttpRequestAndParseResponse := fun _ _ => Except.ok []
    shRun := fun _ _ => none
    unmarshalKonfluxCISpec := fun _ spec => (spec, none)
    unmarshalOpenshiftJobSpec := fun _ spec => (spec, none)
    getRemoteAndBranchNameFromPRLink := fun _ => ("", "", none)
    CreateCustomBuildBundle := fun _ => Except.ok "bundle"
    NewGithubClient := fun _ _ => none
    GetAllRepositories := Except.ok []
    DeleteRepository := fun _ => none
    regexpCompile := fun _ => Except.ok (fun _ => false)
    Now := fun _ => 0
    NewAppStudioInstallController := none
    InstallAppStudioPreviewMode := none
    NewSprayProxyConfig := fun url _ => Except.ok url
    GetPaCHost := Except.ok "pac-host"
    RegisterServer := fun _ => none
    GetServers := Except.ok ""
    HandleErrorWithAlert := fun _ => none
    GetPairedCommitSha := fun _ _ => ""
    buildRemotePipelineBundle := fun _ => Except.ok "pipeline-bundle"
    CUSTOM_DOCKER_BUILD_PIPELINE_BUNDLE_ENV := "CUSTOM_DOCKER_BUILD_PIPELINE_BUNDLE"
    CUSTOM_BUILDAH_REMOTE_PIPELINE_BUILD_BUNDLE_ENV := "CUSTOM_BUILDAH_REMOTE_PIPELINE_BUILD_BUNDLE"
    SKIP_PAC_TESTS_ENV := "SKIP_PAC_TESTS"
    GITHUB_E2E_ORGANIZATION_ENV := "MY_GITHUB_ORG"
    GITHUB_TOKEN_ENV := "GITHUB_TOKEN"
    ListRepoWebhooks := fun _ => Except.ok []
    DeleteWebhook := fun _ _ => none
    sprintNamePointer := fun _ => "0xc000010000"
    CheckOperatorsReady := none
    MergePRInRemote := fun _ _ _ => none
    httpGet := fun _ => none
    UnregisterServer := fun _ => none }

/-- A repository named `e2e-demo`, created at instant 0. -/
def oldRepo : Repository :=
  { Name := some "e2e-demo", Description := none, CreatedAt := some 0 }

/-- A repository named `e2e-fresh`, created one hour before instant `2 * dayDuration`. -/
def freshRepo : Repository :=
  { Name := some "e2e-fresh", Description := none,
    CreatedAt := some (2 * dayDuration - 3600000000000) }

/-- A repository with the description `GitOps Repository`, created at instant 0. -/
def gitopsRepo : Repository :=
  { Name := some "gitops", Description := some "GitOps Repository", CreatedAt := some 0 }

/-- A repository named `production`, created at instant 0. -/
def keptRepo : Repository :=
  { Name := some "production", Description := some "service", CreatedAt := some 0 }

/-- A world for `Local.CleanupGithubOrg`: four repositories are fetched, the clock stands at
two days after instant 0, and the compiled expression matches the names that contain
`e2e`. -/
def cleanupWorld : World :=
  { quietWorld with
    GetAllRepositories := Except.ok [oldRepo, freshRepo, gitopsRepo, keptRepo]
    Now := fun _ => 2 * dayDuration
    regexpCompile := fun _ => Except.ok (fun name => strContains name "e2e") }

/-- A world in which the rule engine fails. -/
def failingWorld : World :=
  { quietWorld with
    RunRules := fun _ _ _ => some "engine failed"
    RunRulesOfCategory := fun _ _ => some "engine failed" }

/-- The job spec of a pull request of `e2e-tests` under Konflux CI. -/
def rulesSpec : KonfluxCISpec :=
  { KonfluxGitRefs :=
      { GitOrg := "konflux-ci", GitRepo := "e2e-tests", CommitSha := "abc",
        PullRequestNumber := 7, EventType := "pull_request" } }

/-- The job spec of a pull request of `infra-deployments` under OpenShift CI. -/
def pairedSpec : OpenshiftJobSpec :=
  { Refs :=
      { Organization := "redhat-appstudio", Repo := "infra-deployments",
        Pulls := [{ SHA := "abc", Number := 7 }] } }

/-- A world for a pull request of `e2e-tests` under Konflux CI. -/
def rulesWorld : World :=
  { quietWorld with
    unmarshalKonfluxCISpec := fun _ _ => (rulesSpec, none)
    getRemoteAndBranchNameFromPRLink := fun _ => ("dev", "feature", none) }

/-- The context that `CI.init` builds in `rulesWorld` under the environment of a presubmit job
named `pull-ci-e2e` with `KONFLUX_CI=true`. -/
def rulesCtx : RuleCtx :=
  { RuleCtx.zero with
    Parallel := true, OutputDir := ".", JUnitReport := "e2e-report.xml",
    JSONReport := "e2e-report.json", RepoName := "e2e-tests", JobName := "pull-ci-e2e",
    JobType := "presubmit", PrRemoteName := "dev", PrBranchName := "feature",
    PrCommitSha := "abc", PrNum := 7, TektonEventType := "pull_request" }

/-- A world for a pull request of `infra-deployments` under OpenShift CI, opened by `dev`
from the branch `feature`, while every companion repository has an open pull request of
`dev` from `feature`. -/
def pairedWorld : World :=
  { quietWorld with
    unmarshalOpenshiftJobSpec := fun _ _ => (pairedSpec, none)
    getRemoteAndBranchNameFromPRLink := fun _ => ("dev", "feature", none)
    sendHttpRequestAndParseResponse := fun _ _ =>
      Except.ok [{ Head := some { Ref := some "feature" }, User := some { Login := some "dev" } }] }

/-- The environment of the `infra-deployments` presubmit job of `pairedWorld`. -/
def pairedEnv : List (String × String) :=
  [("JOB_TYPE", "presubmit"), ("JOB_NAME", "pull-ci-infra-deployments-e2e"), ("CI", "true"),
    ("GITHUB_TOKEN", "token"), ("QUAY_TOKEN", "token"), ("DEFAULT_QUAY_ORG", "org"),
    ("DEFAULT_QUAY_ORG_TOKEN", "token")]

/-- The context that reaches the rule engine in the run of `CI.TestE2E` in `pairedWorld`. -/
def pairedCtx : RuleCtx :=
  { RuleCtx.zero with
    Parallel := true, OutputDir := ".", JUnitReport := "e2e-report.xml",
    JSONReport := "e2e-report.json", RepoName := "infra-deployments",
    JobName := "pull-ci-infra-deployments-e2e", JobType := "presubmit", PrRemoteName := "dev",
    PrBranchName := "feature", PrCommitSha := "abc", PrNum := 7 }

/-- The environment of a presubmit job named `pull-ci-e2e` under Konflux CI. -/
def ciEnv : List (String × String) :=
  [("JOB_TYPE", "presubmit"), ("JOB_NAME", "pull-ci-e2e"), ("KONFLUX_CI", "true")]

/-- The environment of a local run of the upgrade tests: the variables that `PreflightChecks`
requires. -/
def upgradeEnv : List (String × String) :=
  [("GITHUB_TOKEN", "token"), ("QUAY_TOKEN", "token"), ("DEFAULT_QUAY_ORG", "org"),
    ("DEFAULT_QUAY_ORG_TOKEN", "token")]

/-- The environment of a presubmit job of `release-service` under OpenShift CI. -/
def releaseJobEnv : List (String × String) :=
  [("CI", "true"), ("JOB_NAME", "pull-ci-konflux-ci-release-service-main-release-service-e2e"),
    ("JOB_TYPE", "presubmit"), ("QE_SPRAYPROXY_HOST", "https://sprayproxy"),
    ("QE_SPRAYPROXY_TOKEN", "token")]

/-- A webhook with the ID 1, created at instant 0. -/
def oldHook : Hook :=
  { ID := some 1, Name := some "web", CreatedAt := some 0 }

/-- A webhook with the ID 2, created one hour before instant `2 * dayDuration`. -/
def freshHook : Hook :=
  { ID := some 2, Name := some "web", CreatedAt := some (2 * dayDuration - 3600000000000) }

/-- A world for `CleanGitHubWebHooks`: the repository `hacbs-test-project` has an old and a
fresh webhook, the other repositories have none, and the clock stands at two days after
instant 0. -/
def webhookWorld : World :=
  { quietWorld with
    ListRepoWebhooks := fun repo =>
      if repo = "hacbs-test-project" then Except.ok [oldHook, freshHook] else Except.ok []
    Now := fun _ => 2 * dayDuration }

/-- A world for `CleanupRegisteredPacServers`: SprayProxy lists two servers, of which only
`https://up.example` answers. -/
def pacWorld : World :=
  { quietWorld with
    GetServers := Except.ok "https://up.example, https://down.example"
    httpGet := fun url => if url = "https://up.example" then none else some "no such host" }

/-- The environment that holds the credentials of SprayProxy. -/
def pacEnv : List (String × String) :=
  [("QE_SPRAYPROXY_HOST", "https://sprayproxy"), ("QE_SPRAYPROXY_TOKEN", "token")]

/-- The environment that holds the given variables and no other. -/
def envOf (vars : List (String × String)) : Env :=
  fun key => (vars.find? (fun kv => kv.1 = key)).map (fun kv => kv.2)

end Magefile

/-! ## The rule engine

The package `rulesengine` is not among the sources at hand.  What the specification says
about the selection of rules and the execution of the matched ones is modelled here. -/

namespace RulesEngine

open Magefile

/-- The outcome of one rule, as in the specification of `RuleResult`. -/
inductive Outcome where
  | Success
  | Failure
  | Skipped
  deriving DecidableEq, Repr

/-- Modelled from the spec: a `Rule` of the rule engine (section 3), with its condition, a
predicate over the context whose evaluation may raise (`none`), and its action, of which the
model keeps whether it succeeds. -/
structure Rule where
  name : String
  category : String
  catalogName : String
  condition : RuleCtx → Option Bool
  action : RuleCtx → Bool

/-- Modelled from the spec: a `RuleResult` (section 3). -/
structure RuleResult where
  ruleName : String
  matched : Bool
  ran : Bool
  outcome : Outcome
  duration : Nat
  deriving DecidableEq, Repr

/-- Modelled from the spec: what the selection pass of section 4.2 keeps of one rule of the
category: the rule matched, or its condition raised. -/
inductive Selected where
  | matched (r : Rule)
  | conditionFailed (r : Rule)

/-- The rule of an entry of the selection pass. -/
def Selected.rule : Selected → Rule
  | Selected.matched r => r
  | Selected.conditionFailed r => r

/-- Modelled from the spec: what the selection pass of section 4.2 does with one rule.  A
rule of another category is dropped; of the rules of the category, one whose condition holds
is matched, one whose condition raises is treated as non-matching and kept for a `Failure`
record, and one whose condition does not hold is dropped. -/
def selectOne (category : String) (ctx : RuleCtx) (r : Rule) : Option Selected :=
  if r.category = category then
    match r.condition ctx with
    | some true => some (Selected.matched r)
    | some false => none
    | none => some (Selected.conditionFailed r)
  else none

/-- Modelled from the spec: the selection pass of section 4.2, which visits the rules of the
catalog in declared order. -/
def selectionPass (catalog : List Rule) (category : String) (ctx : RuleCtx) : List Selected :=
  catalog.filterMap (selectOne category ctx)

/-- The matched rules of a selection pass, in the order of the pass. -/
def matchedRules : List Selected → List Rule
  | [] => []
  | Selected.matched r :: rest => r :: matchedRules rest
  | Selected.conditionFailed _ :: rest => matchedRules rest

/-- Modelled from the spec: the output of `select(catalog, category, ctx)` of section 4.2,
the ordered sequence of the matched rules, in catalog order. -/
def select (catalog : List Rule) (category : String) (ctx : RuleCtx) : List Rule :=
  matchedRules (selectionPass catalog category ctx)

/-- Modelled from the spec: the `RuleResult` recorded for a rule whose condition raised
(sections 4.2 and 7): the rule did not match, its action did not run, and the outcome is
`Failure`. -/
def conditionFailure (r : Rule) : RuleResult :=
  { ruleName := r.name, matched := false, ran := false, outcome := Outcome.Failure,
    duration := 0 }

/-- Modelled from the spec: the `RuleResult` recorded for one matched rule (section 4.3).
Under dry run the action is not invoked; `duration` is what the run measured. -/
def execute (ctx : RuleCtx) (r : Rule) (duration : Nat) : RuleResult :=
  if ctx.DryRun then
    { ruleName := r.name, matched := true, ran := false, outcome := Outcome.Skipped,
      duration := duration }
  else
    { ruleName := r.name, matched := true, ran := true,
      outcome := if r.action ctx then Outcome.Success else Outcome.Failure,
      duration := duration }

/-- Modelled from the spec: execution with `parallel = false` (section 4.3), the actions run
strictly in selection order; `durations k` is the measured duration of the k-th rule. -/
def runSequential (ctx : RuleCtx) (durations : Nat → Nat) : Nat → List Rule → List RuleResult
  | _, [] => []
  | k, r :: rest => execute ctx r (durations k) :: runSequential ctx durations (k + 1) rest

/-- Modelled from the spec: the collection of results under `parallel = true` (sections 5
and 9).  One slot is allocated in advance for every matched rule; `completions` lists the
indices of the rules in the order in which their actions complete, and each completion
writes its result into its own slot. -/
def collect (ctx : RuleCtx) (matched : List Rule) (durations : Nat → Nat) :
    List Nat → List (Option RuleResult) → List (Option RuleResult)
  | [], slots => slots
  | i :: rest, slots =>
    match matched.get? i with
    | none => collect ctx matched durations rest slots
    | some r => collect ctx matched durations rest (slots.set i (some (execute ctx r (durations i))))

/-- Modelled from the spec: execution with `parallel = true`; the results are read off the
slots once every dispatched action has completed. -/
def runParallel (ctx : RuleCtx) (matched : List Rule) (durations : Nat → Nat)
    (completions : List Nat) : List RuleResult :=
  (collect ctx matched durations completions (List.replicate matched.length none)).filterMap id

/-- Modelled from the spec: the entries of the `RunReport`, in the order of the selection
pass: the `Failure` record of a rule whose condition raised, and for the k-th matched rule
the k-th result of the execution. -/
def assemble : List Selected → List RuleResult → List RuleResult
  | [], _ => []
  | Selected.conditionFailed r :: rest, results => conditionFailure r :: assemble rest results
  | Selected.matched _ :: rest, result :: results => result :: assemble rest results
  | Selected.matched _ :: rest, [] => assemble rest []

/-- Modelled from the spec: the entries of the `RunReport` of one run of the engine over a
catalog, for a given completion order of the concurrently executed actions. -/
def runReport (catalog : List Rule) (category : String) (ctx : RuleCtx)
    (durations : Nat → Nat) (completions : List Nat) : List RuleResult :=
  assemble (selectionPass catalog category ctx)
    (if ctx.Parallel then runParallel ctx (select catalog category ctx) durations completions
     else runSequential ctx durations 0 (select catalog category ctx))

/-- The catalog of the scenario of section 8 of the specification, with one more rule of the
category `tests` whose action fails and one whose condition raises. -/
def demoCatalog : List Rule :=
  [ { name := "A", category := "tests", catalogName := "infra-deployments",
      condition := fun _ => some true, action := fun _ => true },
    { name := "B", category := "ci", catalogName := "infra-deployments",
      condition := fun _ => some true, action := fun _ => true },
    { name := "C", category := "tests", catalogName := "infra-deployments",
      condition := fun _ => some true, action := fun _ => false },
    { name := "D", category := "tests", catalogName := "infra-deployments",
      condition := fun _ => none, action := fun _ => true } ]

/-- A catalog with one rule, whose condition reads the `Parallel` flag of the context. -/
def flagCatalog : List Rule :=
  [ { name := "P", category := "tests", catalogName := "e2e-repo",
      condition := fun ctx => some ctx.Parallel, action := fun _ => true } ]

/-- The Go zero value of the context with `Parallel = true`. -/
def parallelCtx : RuleCtx := { RuleCtx.zero with Parallel := true }

end RulesEngine

/-! ## The suite of the missing ReleasePlan and ReleasePlanAdmission

An embedding of the polling function of
`tests/release/service/missing_release_plan_and_admission.go` (lines 67 to 74 and 78 to 84). -/

namespace ReleaseTests

open Magefile

/-- What the polling function reads of the fetched `Release`: the results of its methods
`HasReleaseFinished`, `IsValid` and `IsReleased` (package `release-service/api`), and the
messages of `Status.Conditions`, in order. -/
structure Release where
  HasReleaseFinished : Bool
  IsValid : Bool
  IsReleased : Bool
  ConditionMessages : List String
  deriving DecidableEq, Repr

/-- The function polled by `Eventually` in both specs, applied to the fetched Release.  The
result `none` is the run-time panic of `Conditions[0]` on an empty list; the right operand of
`&&` is evaluated only when the left one is true. -/
def releaseHasFailed (releaseCR : Release) : Option Bool :=
  if releaseCR.HasReleaseFinished then
    if !(releaseCR.IsValid && releaseCR.IsReleased) then
      match releaseCR.ConditionMessages with
      | [] => none
      | message :: _ => some (strContains message "Release validation failed")
    else some false
  else some false

end ReleaseTests


/-! # Theorems -/

namespace Magefile

@[simp] theorem emit_trace (e : Event) (s : State) : (emit e s).trace = s.trace ++ [e] := rfl

@[simp] theorem emit_rctx (e : Event) (s : State) : (emit e s).rctx = s.rctx := rfl

@[simp] theorem emit_pr (e : Event) (s : State) : (emit e s).pr = s.pr := rfl

@[simp] theorem emit_env (e : Event) (s : State) : (emit e s).env = s.env := rfl

@[simp] theorem emit_artifactDir (e : Event) (s : State) :
    (emit e s).artifactDir = s.artifactDir := rfl

@[simp] theorem emit_jobName (e : Event) (s : State) : (emit e s).jobName = s.jobName := rfl

@[simp] theorem emit_konfluxCI (e : Event) (s : State) :
    (emit e s).konfluxCI = s.konfluxCI := rfl

@[simp] theorem setenv_trace (k v : String) (s : State) : (setenv k v s).trace = s.trace := rfl

@[simp] theorem setenv_rctx (k v : String) (s : State) : (setenv k v s).rctx = s.rctx := rfl

@[simp] theorem setenv_pr (k v : String) (s : State) : (setenv k v s).pr = s.pr := rfl

@[simp] theorem setenv_artifactDir (k v : String) (s : State) :
    (setenv k v s).artifactDir = s.artifactDir := rfl

@[simp] theorem setenv_jobName (k v : String) (s : State) :
    (setenv k v s).jobName = s.jobName := rfl

@[simp] theorem setenv_konfluxCI (k v : String) (s : State) :
    (setenv k v s).konfluxCI = s.konfluxCI := rfl

theorem emitted_append (s s' : State) (evs : List Event) (h : s'.trace = s.trace ++ evs) :
    emitted s s' = evs := by
  simp [emitted, h]

/-! ## Pairing lookup -/

theorem anyPullMatches_iff (branchName remoteName : String) (pulls : List PullRequest) :
    anyPullMatches branchName remoteName pulls = true ↔
      ∃ pull ∈ pulls, pull.GetHeadRef = branchName ∧ pull.GetUserLogin = remoteName := by
  induction pulls with
  | nil => simp [anyPullMatches]
  | cons pull rest ih =>
    simp only [anyPullMatches]
    split
    · rename_i h
      simp [h]
    · rename_i h
      simp only [ih, List.mem_cons, exists_eq_or_imp]
      constructor
      · intro h2
        exact Or.inr h2
      · rintro (h2 | h2)
        · exact absurd h2 h
        · exact h2

/-- C4: `isPRPairingRequired(repo)` is true exactly when the request for the pull requests
of the companion repository succeeds and one of the returned pull requests has the head ref
`pr.BranchName` and the author login `pr.RemoteName`; it is false when the request fails and
when no returned pull request matches both fields. -/
theorem isPRPairingRequired_iff (w : World) (repo : String) (s : State) :
    ((isPRPairingRequired w repo s).1 = true ↔
      ∃ pulls, w.sendHttpRequestAndParseResponse (pairingUrl repo) "GET" = Except.ok pulls ∧
        ∃ pull ∈ pulls, pull.GetHeadRef = s.pr.BranchName ∧
          pull.GetUserLogin = s.pr.RemoteName) ∧
    ((∃ err, w.sendHttpRequestAndParseResponse (pairingUrl repo) "GET" = Except.error err) →
      (isPRPairingRequired w repo s).1 = false) ∧
    (∀ pulls, w.sendHttpRequestAndParseResponse (pairingUrl repo) "GET" = Except.ok pulls →
      (∀ pull ∈ pulls, ¬ (pull.GetHeadRef = s.pr.BranchName ∧
        pull.GetUserLogin = s.pr.RemoteName)) →
      (isPRPairingRequired w repo s).1 = false) := by
  cases hreq : w.sendHttpRequestAndParseResponse (pairingUrl repo) "GET" with
  | error err => simp [isPRPairingRequired, hreq]
  | ok pulls =>
    have hval : (isPRPairingRequired w repo s).1 =
        anyPullMatches s.pr.BranchName s.pr.RemoteName pulls := by
      simp [isPRPairingRequired, hreq]
    rw [hval]
    refine ⟨?_, ?_, ?_⟩
    · rw [anyPullMatches_iff]
      constructor
      · intro h
        exact ⟨pulls, rfl, h⟩
      · rintro ⟨pulls2, heq, h⟩
        cases heq
        exact h
    · rintro ⟨err, herr⟩
      cases herr
    · intro pulls2 heq hall
      cases heq
      cases hb : anyPullMatches s.pr.BranchName s.pr.RemoteName pulls with
      | false => rfl
      | true =>
        obtain ⟨pull, hmem, h1, h2⟩ := (anyPullMatches_iff _ _ _).1 hb
        exact absurd ⟨h1, h2⟩ (hall pull hmem)

/-! ## Preview and demo targets -/

theorem PreviewTestSelection_emitted (w : World) (s : State) :
    emitted s (Local.PreviewTestSelection w s).2 =
      match w.GetChangedFiles "e2e-tests" with
      | (_, some err) => [Event.GetChangedFiles "e2e-tests", Event.klog "Error" err]
      | (files, none) =>
        [Event.GetChangedFiles "e2e-tests",
          Event.RunRules { w.NewRuleCtx with DiffFiles := files, DryRun := true }
            "tests" "e2e-repo"] := by
  apply emitted_append
  unfold Local.PreviewTestSelection
  rcases h : w.GetChangedFiles "e2e-tests" with ⟨files, _ | err⟩
  · simp only []
    split <;> simp
  · simp

theorem RunRuleDemo_emitted (w : World) (s : State) :
    emitted s (Local.RunRuleDemo w s).2 =
      match w.GetChangedFiles "e2e-tests" with
      | (_, some err) => [Event.GetChangedFiles "e2e-tests", Event.klog "Error" err]
      | (files, none) =>
        [Event.GetChangedFiles "e2e-tests",
          Event.RunRulesOfCategory "demo"
            { w.NewRuleCtx with DiffFiles := files, DryRun := true }] := by
  apply emitted_append
  unfold Local.RunRuleDemo
  rcases h : w.GetChangedFiles "e2e-tests" with ⟨files, _ | err⟩
  · simp only []
    split <;> simp
  · simp

theorem RunInfraDeploymentsRuleDemo_emitted (w : World) (s : State) :
    emitted s (Local.RunInfraDeploymentsRuleDemo w s).2 =
      match w.GetChangedFiles "infra-deployments" with
      | (_, some _) => [Event.GetChangedFiles "infra-deployments"]
      | (files, none) =>
        [Event.GetChangedFiles "infra-deployments",
          Event.RunRules { w.NewRuleCtx with
            Parallel := true, OutputDir := s.artifactDir, RepoName := "infra-deployments",
            JobName := "", JobType := "", DryRun := true, DiffFiles := files }
            "tests" "infra-deployments"] := by
  apply emitted_append
  unfold Local.RunInfraDeploymentsRuleDemo
  rcases h : w.GetChangedFiles "infra-deployments" with ⟨files, _ | err⟩
  · simp
  · simp

/-- C1: each of the targets `Local.PreviewTestSelection`, `Local.RunRuleDemo` and
`Local.RunInfraDeploymentsRuleDemo` hands the rule engine only contexts with `DryRun = true`;
when the lookup of the changed files succeeds, the target calls the engine exactly once, with
such a context. -/
theorem preview_targets_DryRun (w : World) (s : State) :
    ((∀ ctx ∈ engineCtxs (emitted s (Local.PreviewTestSelection w s).2), ctx.DryRun = true) ∧
      ((w.GetChangedFiles "e2e-tests").2 = none →
        ∃ ctx, engineCtxs (emitted s (Local.PreviewTestSelection w s).2) = [ctx] ∧
          ctx.DryRun = true)) ∧
    ((∀ ctx ∈ engineCtxs (emitted s (Local.RunRuleDemo w s).2), ctx.DryRun = true) ∧
      ((w.GetChangedFiles "e2e-tests").2 = none →
        ∃ ctx, engineCtxs (emitted s (Local.RunRuleDemo w s).2) = [ctx] ∧
          ctx.DryRun = true)) ∧
    ((∀ ctx ∈ engineCtxs (emitted s (Local.RunInfraDeploymentsRuleDemo w s).2),
        ctx.DryRun = true) ∧
      ((w.GetChangedFiles "infra-deployments").2 = none →
        ∃ ctx, engineCtxs (emitted s (Local.RunInfraDeploymentsRuleDemo w s).2) = [ctx] ∧
          ctx.DryRun = true)) := by
  rw [PreviewTestSelection_emitted, RunRuleDemo_emitted, RunInfraDeploymentsRuleDemo_emitted]
  refine ⟨?_, ?_, ?_⟩
  · rcases h : w.GetChangedFiles "e2e-tests" with ⟨files, _ | err⟩ <;>
      simp [engineCtxs, Event.engineCtx]
  · rcases h : w.GetChangedFiles "e2e-tests" with ⟨files, _ | err⟩ <;>
      simp [engineCtxs, Event.engineCtx]
  · rcases h : w.GetChangedFiles "infra-deployments" with ⟨files, _ | err⟩ <;>
      simp [engineCtxs, Event.engineCtx]

/-! ## Steps that run no rules and no tests -/

theorem Quiet.refl (s : State) : Quiet s s :=
  ⟨⟨[], by simp, by simp⟩, rfl, rfl, rfl, rfl, rfl⟩

theorem Quiet.trans {a b c : State} (h1 : Quiet a b) (h2 : Quiet b c) : Quiet a c := by
  obtain ⟨⟨e1, ht1, hk1⟩, hr1, hp1, ha1, hj1, hc1⟩ := h1
  obtain ⟨⟨e2, ht2, hk2⟩, hr2, hp2, ha2, hj2, hc2⟩ := h2
  refine ⟨⟨e1 ++ e2, ?_, ?_⟩, hr2.trans hr1, hp2.trans hp1, ha2.trans ha1, hj2.trans hj1,
    hc2.trans hc1⟩
  · rw [ht2, ht1, List.append_assoc]
  · intro e he
    rcases List.mem_append.1 he with h | h
    · exact hk1 e h
    · exact hk2 e h

theorem Quiet.step_emit (e : Event) (he : Event.isKey e = false) (s : State) : Quiet s (emit e s) :=
  ⟨⟨[e], rfl, by simpa using he⟩, rfl, rfl, rfl, rfl, rfl⟩

theorem Quiet.step_setenv (k v : String) (s : State) : Quiet s (setenv k v s) :=
  ⟨⟨[], by simp, by simp⟩, rfl, rfl, rfl, rfl, rfl⟩

theorem isPRPairingRequired_quiet (w : World) (repo : String) (s : State) :
    Quiet s (isPRPairingRequired w repo s).2 := by
  unfold isPRPairingRequired
  simp only []
  split
  · exact (Quiet.step_emit _ (by rfl) s).trans (Quiet.step_emit _ (by rfl) _)
  · exact Quiet.step_emit _ (by rfl) s

theorem isPRPairingRequired_congr (w : World) (repo : String) (s s' : State)
    (h : s'.pr = s.pr) :
    (isPRPairingRequired w repo s').1 = (isPRPairingRequired w repo s).1 := by
  unfold isPRPairingRequired
  simp only []
  split <;> simp [h]

theorem engineCalls_quiet (evs : List Event) (h : ∀ e ∈ evs, Event.isKey e = false) :
    engineCalls evs = [] := by
  unfold engineCalls
  rw [List.filter_eq_nil_iff]
  intro e he
  have hk := h e he
  cases e <;> simp_all [Event.isKey, Event.engineCtx]

/-! ## The steps before the tests run no rules and no tests -/

theorem Quiet.of_eq {s s' : State} (ht : s'.trace = s.trace) (hr : s'.rctx = s.rctx)
    (hp : s'.pr = s.pr) (ha : s'.artifactDir = s.artifactDir) (hj : s'.jobName = s.jobName)
    (hk : s'.konfluxCI = s.konfluxCI) : Quiet s s' :=
  ⟨⟨[], by simp [ht], by simp⟩, hr, hp, ha, hj, hk⟩

theorem checkBinaries_quiet (w : World) (bins : List String) :
    ∀ s : State, Quiet s (checkBinaries w bins s).2 := by
  induction bins with
  | nil =>
    intro s
    exact Quiet.refl s
  | cons b rest ih =>
    intro s
    unfold checkBinaries
    simp only []
    split
    · exact Quiet.step_emit _ (by rfl) s
    · exact (Quiet.step_emit _ (by rfl) s).trans (ih _)

theorem PreflightChecks_quiet (w : World) (s : State) : Quiet s (PreflightChecks w s).2 := by
  unfold PreflightChecks
  simp only []
  split
  · exact Quiet.refl s
  · have h := checkBinaries_quiet w requiredBinaries s
    split
    · rename_i heq
      rw [heq] at h
      exact h
    · rename_i heq
      rw [heq] at h
      exact h.trans (Quiet.step_emit _ (by rfl) _)

theorem Quiet.after_setenv {s a : State} (k v : String) (h : Quiet s a) :
    Quiet s (setenv k v a) :=
  h.trans (Quiet.step_setenv k v a)

theorem Quiet.after_emit {s a : State} (e : Event) (he : Event.isKey e = false) (h : Quiet s a) :
    Quiet s (emit e a) :=
  h.trans (Quiet.step_emit e he a)

theorem Quiet.after_pairing {s a : State} (w : World) (repo : String) (h : Quiet s a) :
    Quiet s (isPRPairingRequired w repo a).2 :=
  h.trans (isPRPairingRequired_quiet w repo a)

theorem Quiet.ite {s a b : State} (c : Prop) [Decidable c] (ha : Quiet s a) (hb : Quiet s b) :
    Quiet s (if c then a else b) := by
  split
  · exact ha
  · exact hb

theorem switch_quiet (s : State) : Quiet s (setRequiredEnvVars.switch s).1 := by
  unfold setRequiredEnvVars.switch
  split
  · exact Quiet.of_eq rfl rfl rfl rfl rfl rfl
  · split
    · exact Quiet.step_setenv _ _ s
    · split
      · exact Quiet.of_eq rfl rfl rfl rfl rfl rfl
      · split
        · exact Quiet.of_eq rfl rfl rfl rfl rfl rfl
        · split
          · exact Quiet.of_eq rfl rfl rfl rfl rfl rfl
          · split
            · exact Quiet.of_eq rfl rfl rfl rfl rfl rfl
            · exact Quiet.refl s

theorem component_quiet (w : World) (s : State) :
    Quiet s (setRequiredEnvVars.component w s) := by
  unfold setRequiredEnvVars.component
  simp only []
  repeat' first
    | exact switch_quiet s
    | apply Quiet.after_setenv
    | apply Quiet.ite
    | apply Quiet.after_pairing

theorem infraDeployments_quiet (s : State) :
    Quiet s (setRequiredEnvVars.infraDeployments s) := by
  unfold setRequiredEnvVars.infraDeployments
  simp only []
  repeat' first
    | apply Quiet.after_setenv
    | exact Quiet.of_eq rfl rfl rfl rfl rfl rfl

theorem pairedRelease_quiet (w : World) (s : State) :
    Quiet s (setRequiredEnvVars.pairedRelease w s) := by
  unfold setRequiredEnvVars.pairedRelease
  simp only []
  repeat' first
    | exact Quiet.refl s
    | apply Quiet.after_setenv
    | apply Quiet.ite
    | apply Quiet.after_pairing
    | apply Quiet.after_emit _ (by rfl)

theorem Quiet.after_pairedRelease {s a : State} (w : World) (h : Quiet s a) :
    Quiet s (setRequiredEnvVars.pairedRelease w a) :=
  h.trans (pairedRelease_quiet w a)

theorem catalog_quiet (w : World) (s : State) : Quiet s (setRequiredEnvVars.catalog w s) := by
  unfold setRequiredEnvVars.catalog
  simp only []
  repeat' first
    | exact Quiet.refl s
    | apply Quiet.after_pairedRelease
    | apply Quiet.after_setenv
    | apply Quiet.ite

theorem setRequiredEnvVars_quiet (w : World) (s : State) :
    Quiet s (setRequiredEnvVars w s).2 := by
  unfold setRequiredEnvVars
  split
  · exact Quiet.refl s
  · split
    · exact Quiet.of_eq rfl rfl rfl rfl rfl rfl
    · split
      · split
        · exact component_quiet w s
        · split
          · exact infraDeployments_quiet s
          · split
            · exact catalog_quiet w s
            · exact Quiet.of_eq rfl rfl rfl rfl rfl rfl
      · exact Quiet.refl s

theorem setRequiredEnvVars_nil (w : World) (s : State) : (setRequiredEnvVars w s).1 = none := by
  unfold setRequiredEnvVars
  repeat' split
  all_goals rfl

theorem SetupCustomBundle_quiet (w : World) (s : State) :
    Quiet s (SetupCustomBundle w s).2 := by
  unfold SetupCustomBundle
  simp only []
  split
  · exact (Quiet.step_emit _ (by rfl) s).trans (Quiet.step_emit _ (by rfl) _)
  · split
    · exact ((Quiet.step_emit _ (by rfl) s).trans (Quiet.step_emit _ (by rfl) _)).trans
        (Quiet.step_emit _ (by rfl) _)
    · exact (((Quiet.step_emit _ (by rfl) s).trans (Quiet.step_emit _ (by rfl) _)).trans
        (Quiet.step_emit _ (by rfl) _)).trans (Quiet.step_setenv _ _ _)

theorem setupPlatforms_quiet (w : World) (ps : List String) :
    ∀ s : State, Quiet s (setupPlatforms w ps s).2 := by
  induction ps with
  | nil =>
    intro s
    exact Quiet.refl s
  | cons p rest ih =>
    intro s
    unfold setupPlatforms
    simp only []
    split
    · exact Quiet.step_emit _ (by rfl) s
    · exact (((Quiet.step_emit _ (by rfl) s).trans (Quiet.step_emit _ (by rfl) _)).trans
        (Quiet.step_setenv _ _ _)).trans (ih _)

theorem SetupMultiPlatformTests_quiet (w : World) (s : State) :
    Quiet s (SetupMultiPlatformTests w s).2 := by
  unfold SetupMultiPlatformTests
  exact (Quiet.step_emit _ (by rfl) s).trans (setupPlatforms_quiet w platforms _)

theorem printRegisteredPacServers_quiet (w : World) (s : State) :
    Quiet s (printRegisteredPacServers w s).2 := by
  unfold printRegisteredPacServers
  simp only []
  split
  · exact Quiet.step_emit _ (by rfl) s
  · exact (Quiet.step_emit _ (by rfl) s).trans (Quiet.step_emit _ (by rfl) _)

theorem Quiet.after_print {s a : State} (w : World) (h : Quiet s a) :
    Quiet s (printRegisteredPacServers w a).2 :=
  h.trans (printRegisteredPacServers_quiet w a)

theorem registerPacServer_quiet (w : World) (s : State) :
    Quiet s (registerPacServer w s).2 := by
  unfold registerPacServer
  split
  · exact Quiet.of_eq rfl rfl rfl rfl rfl rfl
  · simp only []
    split
    · repeat' first
        | apply Quiet.after_emit _ (by rfl)
        | exact Quiet.of_eq rfl rfl rfl rfl rfl rfl
    · split
      · repeat' first
          | apply Quiet.after_emit _ (by rfl)
          | exact Quiet.of_eq rfl rfl rfl rfl rfl rfl
      · split
        · rename_i heq
          apply Quiet.after_emit _ (by rfl)
          have h5 : _ = (printRegisteredPacServers w _).2 := (congrArg Prod.snd heq).symm
          simp only [] at h5
          rw [h5]
          apply Quiet.after_print
          repeat' first
            | apply Quiet.after_emit _ (by rfl)
            | exact Quiet.of_eq rfl rfl rfl rfl rfl rfl
        · rename_i heq
          have h5 : _ = (printRegisteredPacServers w _).2 := (congrArg Prod.snd heq).symm
          simp only [] at h5
          rw [h5]
          apply Quiet.after_print
          repeat' first
            | apply Quiet.after_emit _ (by rfl)
            | exact Quiet.of_eq rfl rfl rfl rfl rfl rfl

theorem Quiet.after_register {s a : State} (w : World) (h : Quiet s a) :
    Quiet s (registerPacServer w a).2 :=
  h.trans (registerPacServer_quiet w a)

theorem BootstrapCluster_quiet (w : World) (s : State) :
    Quiet s (BootstrapCluster w s).2 := by
  unfold BootstrapCluster
  have h0 : Quiet s (if Getenv s.env "CI" = "true" ∨ s.konfluxCI = "true" then
      setRequiredEnvVars w s else (none, s)).2 := by
    split
    · exact setRequiredEnvVars_quiet w s
    · exact Quiet.refl s
  simp only []
  split
  · rename_i heq
    rw [heq] at h0
    exact h0
  · rename_i s1 heq
    rw [heq] at h0
    simp only [] at h0
    split
    · exact Quiet.after_emit _ (by rfl) h0
    · split
      · exact Quiet.after_emit _ (by rfl) (Quiet.after_emit _ (by rfl) h0)
      · split
        · split
          · rename_i heq2
            have h5 : _ = (registerPacServer w _).2 := (congrArg Prod.snd heq2).symm
            simp only [] at h5
            have h6 : Quiet s (emit (Event.external "ic.InstallAppStudioPreviewMode" [])
                (emit (Event.external "installation.NewAppStudioInstallController" []) s1)) :=
              Quiet.after_emit _ (by rfl) (Quiet.after_emit _ (by rfl) h0)
            split
            · apply Quiet.after_emit _ (by rfl)
              apply Quiet.after_setenv
              rw [h5]
              exact Quiet.after_register w h6
            · apply Quiet.after_emit _ (by rfl)
              apply Quiet.after_setenv
              rw [h5]
              exact Quiet.after_register w h6
          · rename_i heq2
            have h5 : _ = (registerPacServer w _).2 := (congrArg Prod.snd heq2).symm
            simp only [] at h5
            rw [h5]
            exact Quiet.after_register w
              (Quiet.after_emit _ (by rfl) (Quiet.after_emit _ (by rfl) h0))
        · exact Quiet.after_emit _ (by rfl) (Quiet.after_emit _ (by rfl) h0)

theorem retry_quiet (f : State → Option String × State) (hf : ∀ s, Quiet s (f s).2)
    (attempts : Nat) :
    ∀ (remaining : Nat) (lastErr : Option String) (s : State),
      Quiet s (retry f attempts remaining lastErr s).2 := by
  intro remaining
  induction remaining with
  | zero =>
    intro lastErr s
    unfold retry
    exact Quiet.refl s
  | succ n ih =>
    intro lastErr s
    unfold retry
    have h := hf s
    split
    · rename_i heq
      rw [heq] at h
      exact h
    · rename_i heq
      rw [heq] at h
      exact h.trans (ih _ _)

/-! ## Dispatch of `RunE2ETests` -/

@[simp] theorem lookup_trace (w : World) (s : State) :
    (RunE2ETests.lookup w s).trace = s.trace ++ [Event.GetChangedFiles s.rctx.RepoName] := rfl

@[simp] theorem lookup_rctx (w : World) (s : State) :
    (RunE2ETests.lookup w s).rctx =
      { s.rctx with DiffFiles := (w.GetChangedFiles s.rctx.RepoName).1 } := rfl

@[simp] theorem lookup_pr (w : World) (s : State) : (RunE2ETests.lookup w s).pr = s.pr := rfl

@[simp] theorem lookup_env (w : World) (s : State) : (RunE2ETests.lookup w s).env = s.env := rfl

@[simp] theorem lookup_artifactDir (w : World) (s : State) :
    (RunE2ETests.lookup w s).artifactDir = s.artifactDir := rfl

@[simp] theorem setIsPaired_trace (b : Bool) (s : State) :
    (setIsPaired b s).trace = s.trace := rfl

@[simp] theorem setIsPaired_rctx (b : Bool) (s : State) :
    (setIsPaired b s).rctx = { s.rctx with IsPaired := b } := rfl

@[simp] theorem setIsPaired_pr (b : Bool) (s : State) : (setIsPaired b s).pr = s.pr := rfl

theorem ginkgoArgs_congr (s s' : State) (label report : String)
    (h1 : s'.env = s.env) (h2 : s'.artifactDir = s.artifactDir) :
    ginkgoArgs s' label report = ginkgoArgs s label report := by
  unfold ginkgoArgs
  rw [h1, h2]

/-- The run of `RunE2ETests` on the `release-service-catalog` branch. -/
theorem RunE2ETests_catalog (w : World) (s : State)
    (hfiles : (w.GetChangedFiles s.rctx.RepoName).2 = none)
    (hrepo : s.rctx.RepoName = "release-service-catalog") :
    RunE2ETests w s =
      (w.RunRules { s.rctx with
          DiffFiles := (w.GetChangedFiles s.rctx.RepoName).1,
          IsPaired := (isPRPairingRequired w "release-service" s).1 }
          "tests" "release-service-catalog",
        emit (Event.RunRules { s.rctx with
          DiffFiles := (w.GetChangedFiles s.rctx.RepoName).1,
          IsPaired := (isPRPairingRequired w "release-service" s).1 }
          "tests" "release-service-catalog")
          (setIsPaired (isPRPairingRequired w "release-service" s).1
            (isPRPairingRequired w "release-service" (RunE2ETests.lookup w s)).2)) := by
  obtain ⟨-, hr, -, -, -, -⟩ :=
    isPRPairingRequired_quiet w "release-service" (RunE2ETests.lookup w s)
  have hc := isPRPairingRequired_congr w "release-service" s (RunE2ETests.lookup w s) rfl
  unfold RunE2ETests
  simp only [hfiles]
  simp only [lookup_rctx, hrepo, if_true, setIsPaired_rctx, hr, hc]

/-- The run of `RunE2ETests` on the `infra-deployments` branch. -/
theorem RunE2ETests_infra (w : World) (s : State)
    (hfiles : (w.GetChangedFiles s.rctx.RepoName).2 = none)
    (hrepo : s.rctx.RepoName = "infra-deployments") :
    RunE2ETests w s =
      (w.RunRules { s.rctx with DiffFiles := (w.GetChangedFiles s.rctx.RepoName).1 }
          "tests" "infra-deployments",
        emit (Event.RunRules { s.rctx with
          DiffFiles := (w.GetChangedFiles s.rctx.RepoName).1 } "tests" "infra-deployments")
          (RunE2ETests.lookup w s)) := by
  have hne : ¬ (s.rctx.RepoName = "release-service-catalog") := by
    rw [hrepo]
    decide
  unfold RunE2ETests
  simp only [hfiles]
  simp only [lookup_rctx]
  rw [if_neg hne, if_pos hrepo]

/-- The calls of `RunE2ETests` on the `infra-deployments` branch. -/
theorem RunE2ETests_infra_emitted (w : World) (s : State)
    (hfiles : (w.GetChangedFiles s.rctx.RepoName).2 = none)
    (hrepo : s.rctx.RepoName = "infra-deployments") :
    emitted s (RunE2ETests w s).2 =
      [Event.GetChangedFiles s.rctx.RepoName,
        Event.RunRules { s.rctx with DiffFiles := (w.GetChangedFiles s.rctx.RepoName).1 }
          "tests" "infra-deployments"] := by
  rw [RunE2ETests_infra w s hfiles hrepo]
  apply emitted_append
  simp

/-- The run of `RunE2ETests` for a repository without a catalog of its own. -/
theorem RunE2ETests_default (w : World) (s : State)
    (hfiles : (w.GetChangedFiles s.rctx.RepoName).2 = none)
    (h1 : s.rctx.RepoName ≠ "release-service-catalog")
    (h2 : s.rctx.RepoName ≠ "infra-deployments") :
    RunE2ETests w s =
      runTests w (GetEnv s.env "E2E_TEST_SUITE_LABEL" defaultLabelFilter) "e2e-report.xml"
        (RunE2ETests.lookup w s) := by
  unfold RunE2ETests
  simp only [hfiles]
  simp only [lookup_rctx, h1, h2, if_false, lookup_env]

/-- C5: after a successful lookup of the changed files, `RunE2ETests` dispatches on
`rctx.RepoName`.  For `release-service-catalog` it sets `rctx.IsPaired` to
`isPRPairingRequired("release-service")` and returns the result of
`RunRules(rctx, "tests", "release-service-catalog")`; for `infra-deployments` it returns the
result of `RunRules(rctx, "tests", "infra-deployments")`; for any other name it makes no call
to the engine and returns the result of `runTests(label, "e2e-report.xml")`, where `label`
is the value of `E2E_TEST_SUITE_LABEL` or else the default filter. -/
theorem RunE2ETests_dispatch (w : World) (s : State)
    (hfiles : (w.GetChangedFiles s.rctx.RepoName).2 = none) :
    (s.rctx.RepoName = "release-service-catalog" →
      (RunE2ETests w s).1 =
        w.RunRules { s.rctx with
          DiffFiles := (w.GetChangedFiles s.rctx.RepoName).1,
          IsPaired := (isPRPairingRequired w "release-service" s).1 }
          "tests" "release-service-catalog" ∧
      engineCalls (emitted s (RunE2ETests w s).2) =
        [Event.RunRules { s.rctx with
          DiffFiles := (w.GetChangedFiles s.rctx.RepoName).1,
          IsPaired := (isPRPairingRequired w "release-service" s).1 }
          "tests" "release-service-catalog"]) ∧
    (s.rctx.RepoName = "infra-deployments" →
      (RunE2ETests w s).1 =
        w.RunRules { s.rctx with DiffFiles := (w.GetChangedFiles s.rctx.RepoName).1 }
          "tests" "infra-deployments" ∧
      emitted s (RunE2ETests w s).2 =
        [Event.GetChangedFiles s.rctx.RepoName,
          Event.RunRules { s.rctx with DiffFiles := (w.GetChangedFiles s.rctx.RepoName).1 }
            "tests" "infra-deployments"]) ∧
    (s.rctx.RepoName ≠ "release-service-catalog" → s.rctx.RepoName ≠ "infra-deployments" →
      (RunE2ETests w s).1 =
        (runTests w (GetEnv s.env "E2E_TEST_SUITE_LABEL" defaultLabelFilter) "e2e-report.xml"
          s).1 ∧
      emitted s (RunE2ETests w s).2 =
        [Event.GetChangedFiles s.rctx.RepoName,
          Event.shRun "ginkgo"
            (ginkgoArgs s (GetEnv s.env "E2E_TEST_SUITE_LABEL" defaultLabelFilter)
              "e2e-report.xml")] ∧
      engineCalls (emitted s (RunE2ETests w s).2) = []) ∧
    (∀ v, s.env "E2E_TEST_SUITE_LABEL" = some v → v ≠ "" →
      GetEnv s.env "E2E_TEST_SUITE_LABEL" defaultLabelFilter = v) ∧
    (s.env "E2E_TEST_SUITE_LABEL" = none →
      GetEnv s.env "E2E_TEST_SUITE_LABEL" defaultLabelFilter = defaultLabelFilter) := by
  refine ⟨?_, ?_, ?_, ?_, ?_⟩
  · intro hrepo
    obtain ⟨⟨evs, htr, hkey⟩, -, -, -, -, -⟩ :=
      isPRPairingRequired_quiet w "release-service" (RunE2ETests.lookup w s)
    have hrun := RunE2ETests_catalog w s hfiles hrepo
    rw [hrun]
    refine ⟨rfl, ?_⟩
    rw [emitted_append s _ ([Event.GetChangedFiles s.rctx.RepoName] ++ evs ++
      [Event.RunRules { s.rctx with
          DiffFiles := (w.GetChangedFiles s.rctx.RepoName).1,
          IsPaired := (isPRPairingRequired w "release-service" s).1 }
          "tests" "release-service-catalog"])]
    · unfold engineCalls
      rw [List.filter_append, List.filter_append]
      have h1 := engineCalls_quiet evs hkey
      unfold engineCalls at h1
      rw [h1]
      simp [Event.engineCtx]
    · simp only [emit_trace, setIsPaired_trace, htr, lookup_trace, List.append_assoc]
  · intro hrepo
    refine ⟨?_, RunE2ETests_infra_emitted w s hfiles hrepo⟩
    rw [RunE2ETests_infra w s hfiles hrepo]
  · intro h1 h2
    have hrun := RunE2ETests_default w s hfiles h1 h2
    have hargs := ginkgoArgs_congr s (RunE2ETests.lookup w s)
      (GetEnv s.env "E2E_TEST_SUITE_LABEL" defaultLabelFilter) "e2e-report.xml" rfl rfl
    have hem : emitted s (RunE2ETests w s).2 =
        [Event.GetChangedFiles s.rctx.RepoName,
          Event.shRun "ginkgo"
            (ginkgoArgs s (GetEnv s.env "E2E_TEST_SUITE_LABEL" defaultLabelFilter)
              "e2e-report.xml")] := by
      rw [hrun]
      apply emitted_append
      simp only [runTests, emit_trace, lookup_trace, hargs, List.append_assoc]
      rfl
    refine ⟨?_, hem, ?_⟩
    · rw [hrun]
      simp only [runTests, hargs]
    · rw [hem]
      simp [engineCalls, Event.engineCtx]
  · intro v hv hne
    simp [GetEnv, Getenv, hv, hne]
  · intro hv
    simp [GetEnv, Getenv, hv]

/-! ## Job metadata -/

theorem parseJobSpec_frame (w : World) (s : State) :
    (CI.parseJobSpec w s).2.artifactDir = s.artifactDir ∧
    (CI.parseJobSpec w s).2.jobName = s.jobName ∧
    (CI.parseJobSpec w s).2.jobType = s.jobType ∧
    (CI.parseJobSpec w s).2.konfluxCI = s.konfluxCI ∧
    (CI.parseJobSpec w s).2.pr = s.pr ∧
    (CI.parseJobSpec w s).2.rctx = s.rctx ∧
    (CI.parseJobSpec w s).2.trace = s.trace := by
  unfold CI.parseJobSpec
  split
  · simp only []
    split <;> simp
  · simp only []
    split <;> simp

theorem initPullRequest_spec (s s2 : State) (h : CI.initPullRequest s = some s2) :
    s2.artifactDir = s.artifactDir ∧ s2.jobName = s.jobName ∧ s2.jobType = s.jobType ∧
    s2.konfluxCI = s.konfluxCI ∧ s2.konfluxCiSpec = s.konfluxCiSpec ∧
    s2.openshiftJobSpec = s.openshiftJobSpec ∧ s2.trace = s.trace ∧
    (s.konfluxCI = "true" →
      s2.pr.RepoName = s.konfluxCiSpec.KonfluxGitRefs.GitRepo ∧
      s2.pr.CommitSHA = s.konfluxCiSpec.KonfluxGitRefs.CommitSha ∧
      s2.pr.Number = s.konfluxCiSpec.KonfluxGitRefs.PullRequestNumber) ∧
    (s.konfluxCI ≠ "true" →
      s2.pr.RepoName = s.openshiftJobSpec.Refs.Repo ∧
      ∃ pull rest, s.openshiftJobSpec.Refs.Pulls = pull :: rest ∧
        s2.pr.CommitSHA = pull.SHA ∧ s2.pr.Number = pull.Number) := by
  unfold CI.initPullRequest at h
  split at h
  · rename_i hk
    simp only [Option.some.injEq] at h
    subst h
    simp [hk]
  · rename_i hk
    split at h
    · simp at h
    · rename_i pull rest hp
      simp only [Option.some.injEq] at h
      subst h
      simp [hk, hp]

theorem initRemoteAndBranch_frame (w : World) (s : State) :
    (CI.initRemoteAndBranch w s).2.artifactDir = s.artifactDir ∧
    (CI.initRemoteAndBranch w s).2.jobName = s.jobName ∧
    (CI.initRemoteAndBranch w s).2.jobType = s.jobType ∧
    (CI.initRemoteAndBranch w s).2.konfluxCI = s.konfluxCI ∧
    (CI.initRemoteAndBranch w s).2.konfluxCiSpec = s.konfluxCiSpec ∧
    (CI.initRemoteAndBranch w s).2.openshiftJobSpec = s.openshiftJobSpec ∧
    (CI.initRemoteAndBranch w s).2.pr.RepoName = s.pr.RepoName ∧
    (CI.initRemoteAndBranch w s).2.pr.CommitSHA = s.pr.CommitSHA ∧
    (CI.initRemoteAndBranch w s).2.pr.Number = s.pr.Number ∧
    ∃ evs, (CI.initRemoteAndBranch w s).2.trace = s.trace ++ evs ∧
      ∀ e ∈ evs, Event.isKey e = false := by
  unfold CI.initRemoteAndBranch
  split
  · refine ⟨rfl, rfl, rfl, rfl, rfl, rfl, rfl, rfl, rfl, ?_⟩
    exact ⟨[_], rfl, by simp [Event.isKey]⟩
  · split
    · exact ⟨rfl, rfl, rfl, rfl, rfl, rfl, rfl, rfl, rfl, [], by simp, by simp⟩
    · exact ⟨rfl, rfl, rfl, rfl, rfl, rfl, rfl, rfl, rfl, [], by simp, by simp⟩

theorem initRuleCtx_rctx (w : World) (s : State) :
    (CI.initRuleCtx w s).rctx =
      { w.NewRuleCtx with
        Parallel := true, OutputDir := s.artifactDir, JUnitReport := "e2e-report.xml",
        JSONReport := "e2e-report.json", RepoName := s.pr.RepoName, JobName := s.jobName,
        JobType := s.jobType, PrRemoteName := s.pr.RemoteName, PrBranchName := s.pr.BranchName,
        PrCommitSha := s.pr.CommitSHA, PrNum := s.pr.Number,
        TektonEventType := if s.konfluxCI = "true" then
          s.konfluxCiSpec.KonfluxGitRefs.EventType else w.NewRuleCtx.TektonEventType } := by
  unfold CI.initRuleCtx
  simp only []
  split <;> rfl

/-- The shape of a run of `CI.init` that returns nil for a job that is neither periodic nor a
rehearsal. -/
theorem CI_init_ok (w : World) (s s' : State)
    (hjob : ¬ (s.jobType = "periodic" ∨ strContains s.jobName "rehearse" = true))
    (hinit : CI.init w s = some (none, s')) :
    ∃ s2 s3, CI.initPullRequest (CI.parseJobSpec w s).2 = some s2 ∧
      s3 = (CI.initRemoteAndBranch w s2).2 ∧ s' = CI.initRuleCtx w s3 := by
  unfold CI.init at hinit
  rw [if_neg hjob] at hinit
  rcases hparse : CI.parseJobSpec w s with ⟨_ | err, s1⟩
  · rw [hparse] at hinit
    simp only [] at hinit
    rcases hpull : CI.initPullRequest s1 with _ | s2
    · rw [hpull] at hinit
      simp at hinit
    · rw [hpull] at hinit
      simp only [] at hinit
      rcases hremote : CI.initRemoteAndBranch w s2 with ⟨_ | err, s3⟩
      · rw [hremote] at hinit
        simp only [Option.some.injEq, Prod.mk.injEq, true_and] at hinit
        exact ⟨s2, s3, rfl, by rw [hremote], hinit.symm⟩
      · rw [hremote] at hinit
        simp at hinit
  · rw [hparse] at hinit
    simp at hinit

/-- C7: after `CI.init` returns nil for a job that is neither periodic nor a rehearsal, the
rule context has `Parallel = true`, `OutputDir` equal to the variable `artifactDir` (the
value of `ARTIFACT_DIR` read when the process starts), the two report names, and the
repository, pull-request and job fields equal to the parsed pull-request metadata and the job
name and type; `TektonEventType` is the event type of the job spec when `KONFLUX_CI` is
`"true"` and the value of the fresh context otherwise. -/
theorem CI_init_fills_rctx (w : World) (s s' : State)
    (hjob : ¬ (s.jobType = "periodic" ∨ strContains s.jobName "rehearse" = true))
    (hinit : CI.init w s = some (none, s')) :
    s'.rctx.Parallel = true ∧ s'.rctx.OutputDir = s.artifactDir ∧
    s'.rctx.JUnitReport = "e2e-report.xml" ∧ s'.rctx.JSONReport = "e2e-report.json" ∧
    s'.rctx.RepoName = s'.pr.RepoName ∧ s'.rctx.PrRemoteName = s'.pr.RemoteName ∧
    s'.rctx.PrBranchName = s'.pr.BranchName ∧ s'.rctx.PrCommitSha = s'.pr.CommitSHA ∧
    s'.rctx.PrNum = s'.pr.Number ∧ s'.rctx.JobName = s.jobName ∧ s'.rctx.JobType = s.jobType ∧
    (s.konfluxCI = "true" →
      s'.rctx.TektonEventType = s'.konfluxCiSpec.KonfluxGitRefs.EventType ∧
      s'.pr.RepoName = s'.konfluxCiSpec.KonfluxGitRefs.GitRepo ∧
      s'.pr.CommitSHA = s'.konfluxCiSpec.KonfluxGitRefs.CommitSha ∧
      s'.pr.Number = s'.konfluxCiSpec.KonfluxGitRefs.PullRequestNumber) ∧
    (s.konfluxCI ≠ "true" →
      s'.rctx.TektonEventType = w.NewRuleCtx.TektonEventType ∧
      s'.pr.RepoName = s'.openshiftJobSpec.Refs.Repo ∧
      ∃ pull rest, s'.openshiftJobSpec.Refs.Pulls = pull :: rest ∧
        s'.pr.CommitSHA = pull.SHA ∧ s'.pr.Number = pull.Number) ∧
    (∀ env : Env, (State.start env).artifactDir = GetEnv env "ARTIFACT_DIR" ".") := by
  obtain ⟨s2, s3, hpull, hs3, hs'⟩ := CI_init_ok w s s' hjob hinit
  obtain ⟨ha, hn, ht, hk, -, -, -⟩ := parseJobSpec_frame w s
  obtain ⟨h2a, h2n, h2t, h2k, h2c, h2o, -, h2y, h2z⟩ := initPullRequest_spec _ _ hpull
  obtain ⟨h3a, h3n, h3t, h3k, h3c, h3o, h3r, h3s, h3m, -⟩ := initRemoteAndBranch_frame w s2
  rw [← hs3] at h3a h3n h3t h3k h3c h3o h3r h3s h3m
  have hrctx := initRuleCtx_rctx w s3
  have hpr : s'.pr = s3.pr := by rw [hs']; rfl
  have hkc : s'.konfluxCiSpec = s3.konfluxCiSpec := by rw [hs']; rfl
  have hoc : s'.openshiftJobSpec = s3.openshiftJobSpec := by rw [hs']; rfl
  rw [← hs'] at hrctx
  refine ⟨?_, ?_, ?_, ?_, ?_, ?_, ?_, ?_, ?_, ?_, ?_, ?_, ?_, ?_⟩
  · rw [hrctx]
  · rw [hrctx]
    simp only []
    rw [h3a, h2a, ha]
  · rw [hrctx]
  · rw [hrctx]
  · rw [hrctx, hpr]
  · rw [hrctx, hpr]
  · rw [hrctx, hpr]
  · rw [hrctx, hpr]
  · rw [hrctx, hpr]
  · rw [hrctx]
    simp only []
    rw [h3n, h2n, hn]
  · rw [hrctx]
    simp only []
    rw [h3t, h2t, ht]
  · intro hk0
    have hk3 : s3.konfluxCI = "true" := by rw [h3k, h2k, hk, hk0]
    have hk1 : (CI.parseJobSpec w s).2.konfluxCI = "true" := by rw [hk, hk0]
    obtain ⟨hy1, hy2, hy3⟩ := h2y hk1
    rw [hrctx, hpr, hkc]
    refine ⟨?_, ?_, ?_, ?_⟩
    · simp only [hk3, if_true]
    · rw [h3r, hy1, h3c, h2c]
    · rw [h3s, hy2, h3c, h2c]
    · rw [h3m, hy3, h3c, h2c]
  · intro hk0
    have hk3 : s3.konfluxCI ≠ "true" := by rw [h3k, h2k, hk]; exact hk0
    have hk1 : (CI.parseJobSpec w s).2.konfluxCI ≠ "true" := by rw [hk]; exact hk0
    obtain ⟨hz1, pull, rest, hz2, hz3, hz4⟩ := h2z hk1
    rw [hrctx, hpr, hoc]
    refine ⟨?_, ?_, pull, rest, ?_, ?_, ?_⟩
    · simp only [if_neg hk3]
    · rw [h3r, hz1, h3o, h2o]
    · rw [h3o, h2o, hz2]
    · rw [h3s, hz3]
    · rw [h3m, hz4]
  · intro env
    rfl

/-! ## The shape of a run of `CI.TestE2E` -/

theorem Quiet.emitted_quiet {s s' : State} (h : Quiet s s') :
    ∀ e ∈ emitted s s', Event.isKey e = false := by
  obtain ⟨⟨evs, ht, hk⟩, -, -, -, -, -⟩ := h
  rw [emitted_append s s' evs ht]
  exact hk

theorem emitted_trans {a b c : State} (e1 e2 : List Event) (h1 : b.trace = a.trace ++ e1)
    (h2 : c.trace = b.trace ++ e2) : emitted a c = emitted a b ++ emitted b c := by
  rw [emitted_append a b e1 h1, emitted_append b c e2 h2,
    emitted_append a c (e1 ++ e2) (by rw [h2, h1, List.append_assoc])]

/-- The calls of `RunE2ETests`: each call that runs rules or tests and is answered with an
error makes `RunE2ETests` return that error, a call of the engine is answered with what
`RunE2ETests` returns, and `RunRulesOfCategory` is not called. -/
theorem RunE2ETests_answers (w : World) (s : State) :
    ∃ evs, (RunE2ETests w s).2.trace = s.trace ++ evs ∧
      (∀ ev ∈ evs, Event.isKey ev = true → ∀ e, w.answer ev = some e →
        (RunE2ETests w s).1 = some e) ∧
      (∀ ev ∈ evs, ∀ cat ctx, ev ≠ Event.RunRulesOfCategory cat ctx) ∧
      (∀ ev ∈ evs, (Event.engineCtx ev).isSome = true → (RunE2ETests w s).1 = w.answer ev) := by
  rcases hfiles : (w.GetChangedFiles s.rctx.RepoName).2 with _ | err
  · by_cases h1 : s.rctx.RepoName = "release-service-catalog"
    · have hres : (RunE2ETests w s).1 =
          w.RunRules { s.rctx with
            DiffFiles := (w.GetChangedFiles s.rctx.RepoName).1,
            IsPaired := (isPRPairingRequired w "release-service" s).1 }
            "tests" "release-service-catalog" := by
        rw [RunE2ETests_catalog w s hfiles h1]
      obtain ⟨⟨pevs, htr, hkey⟩, hr, -, -, -, -⟩ :=
        isPRPairingRequired_quiet w "release-service" (RunE2ETests.lookup w s)
      have hc := isPRPairingRequired_congr w "release-service" s (RunE2ETests.lookup w s) rfl
      refine ⟨[Event.GetChangedFiles s.rctx.RepoName] ++ pevs ++
        [Event.RunRules { s.rctx with
          DiffFiles := (w.GetChangedFiles s.rctx.RepoName).1,
          IsPaired := (isPRPairingRequired w "release-service" s).1 }
          "tests" "release-service-catalog"], ?_, ?_, ?_, ?_⟩
      · unfold RunE2ETests
        simp only [hfiles]
        simp only [lookup_rctx]
        rw [if_pos h1]
        simp only [emit_trace, setIsPaired_trace, setIsPaired_rctx, htr, lookup_trace, hr, hc,
          lookup_rctx, List.append_assoc]
      · intro ev hev hk e he
        simp only [List.mem_append, List.mem_singleton] at hev
        rcases hev with (hev | hev) | hev
        · subst hev
          simp only [World.answer, hfiles] at he
          cases he
        · rw [hkey ev hev] at hk
          cases hk
        · subst hev
          rw [hres]
          exact he
      · intro ev hev cat ctx
        simp only [List.mem_append, List.mem_singleton] at hev
        rcases hev with (hev | hev) | hev
        · subst hev
          simp
        · intro heq
          have := hkey ev hev
          rw [heq] at this
          cases this
        · subst hev
          simp
      · intro ev hev hk
        simp only [List.mem_append, List.mem_singleton] at hev
        rcases hev with (hev | hev) | hev
        · subst hev
          simp [Event.engineCtx] at hk
        · have h2 := hkey ev hev
          cases ev <;> simp_all [Event.isKey, Event.engineCtx]
        · subst hev
          rw [hres]
          rfl
    · by_cases h2 : s.rctx.RepoName = "infra-deployments"
      · have hres : (RunE2ETests w s).1 =
            w.RunRules { s.rctx with DiffFiles := (w.GetChangedFiles s.rctx.RepoName).1 }
              "tests" "infra-deployments" := by
          rw [RunE2ETests_infra w s hfiles h2]
        refine ⟨[Event.GetChangedFiles s.rctx.RepoName,
          Event.RunRules { s.rctx with DiffFiles := (w.GetChangedFiles s.rctx.RepoName).1 }
            "tests" "infra-deployments"], ?_, ?_, ?_, ?_⟩
        · unfold RunE2ETests
          simp only [hfiles]
          simp only [lookup_rctx]
          rw [if_neg h1, if_pos h2]
          simp
        · intro ev hev hk e he
          simp only [List.mem_cons, List.mem_singleton, List.not_mem_nil, or_false] at hev
          rcases hev with hev | hev
          · subst hev
            simp only [World.answer, hfiles] at he
            cases he
          · subst hev
            rw [hres]
            exact he
        · intro ev hev cat ctx
          simp only [List.mem_cons, List.mem_singleton, List.not_mem_nil, or_false] at hev
          rcases hev with hev | hev <;> subst hev <;> simp
        · intro ev hev hk
          simp only [List.mem_cons, List.mem_singleton, List.not_mem_nil, or_false] at hev
          rcases hev with hev | hev
          · subst hev
            simp [Event.engineCtx] at hk
          · subst hev
            rw [hres]
            rfl
      · have hres : (RunE2ETests w s).1 =
            w.shRun "ginkgo"
              (ginkgoArgs s (GetEnv s.env "E2E_TEST_SUITE_LABEL" defaultLabelFilter)
                "e2e-report.xml") := by
          rw [RunE2ETests_default w s hfiles h1 h2]
          simp only [runTests, ginkgoArgs_congr s (RunE2ETests.lookup w s)
            (GetEnv s.env "E2E_TEST_SUITE_LABEL" defaultLabelFilter) "e2e-report.xml" rfl rfl]
        refine ⟨[Event.GetChangedFiles s.rctx.RepoName,
          Event.shRun "ginkgo"
            (ginkgoArgs s (GetEnv s.env "E2E_TEST_SUITE_LABEL" defaultLabelFilter)
              "e2e-report.xml")], ?_, ?_, ?_, ?_⟩
        · have hargs := ginkgoArgs_congr s (RunE2ETests.lookup w s)
            (GetEnv s.env "E2E_TEST_SUITE_LABEL" defaultLabelFilter) "e2e-report.xml" rfl rfl
          unfold RunE2ETests
          simp only [hfiles]
          simp only [lookup_rctx]
          rw [if_neg h1, if_neg h2]
          simp only [runTests, emit_trace, lookup_trace, lookup_env, hargs, List.append_assoc]
          rfl
        · intro ev hev hk e he
          simp only [List.mem_cons, List.mem_singleton, List.not_mem_nil, or_false] at hev
          rcases hev with hev | hev
          · subst hev
            simp only [World.answer, hfiles] at he
            cases he
          · subst hev
            rw [hres]
            exact he
        · intro ev hev cat ctx
          simp only [List.mem_cons, List.mem_singleton, List.not_mem_nil, or_false] at hev
          rcases hev with hev | hev <;> subst hev <;> simp
        · intro ev hev hk
          simp only [List.mem_cons, List.mem_singleton, List.not_mem_nil, or_false] at hev
          rcases hev with hev | hev <;> subst hev <;> simp [Event.engineCtx] at hk
  · have hrun : RunE2ETests w s = (some err, RunE2ETests.lookup w s) := by
      unfold RunE2ETests
      simp only [hfiles]
    refine ⟨[Event.GetChangedFiles s.rctx.RepoName], ?_, ?_, ?_, ?_⟩
    · rw [hrun]
      rfl
    · intro ev hev hk e he
      simp only [List.mem_singleton] at hev
      subst hev
      simp only [World.answer, hfiles, Option.some.injEq] at he
      rw [hrun, he]
    · intro ev hev cat ctx
      simp only [List.mem_singleton] at hev
      subst hev
      simp
    · intro ev hev hk
      simp only [List.mem_singleton] at hev
      subst hev
      simp [Event.engineCtx] at hk

theorem bootstrap_quiet (w : World) (s : State) : Quiet s (CI.TestE2E.bootstrap w s).2 := by
  unfold CI.TestE2E.bootstrap
  split
  · have hq := retry_quiet (BootstrapCluster w) (BootstrapCluster_quiet w) 2 2 none s
    split
    · rename_i heq
      rw [heq] at hq
      exact hq
    · rename_i heq
      rw [heq] at hq
      exact hq
  · have hq := setRequiredEnvVars_quiet w s
    split
    · rename_i heq
      rw [heq] at hq
      exact hq
    · rename_i heq
      rw [heq] at hq
      exact hq

theorem multiPlatform_quiet (w : World) (s : State) :
    Quiet s (CI.TestE2E.multiPlatform w s).2 := by
  unfold CI.TestE2E.multiPlatform
  split
  · exact SetupMultiPlatformTests_quiet w s
  · exact Quiet.refl s

/-- The path of `CI.TestE2E` for the repositories without rules: either a step before the
tests fails, and no rules and no tests were run, or `RunE2ETests` is run and its error, if
any, is wrapped. -/
theorem legacy_cases (w : World) (s : State) :
    ((CI.TestE2E.legacy w s).1 ≠ none ∧ Quiet s (CI.TestE2E.legacy w s).2) ∨
    ∃ s3, Quiet s s3 ∧ (CI.TestE2E.legacy w s).2 = (RunE2ETests w s3).2 ∧
      (CI.TestE2E.legacy w s).1 =
        (RunE2ETests w s3).1.map (fun err => "error when running e2e tests: " ++ err) := by
  unfold CI.TestE2E.legacy
  have h1 := PreflightChecks_quiet w s
  rcases hpre : PreflightChecks w s with ⟨_ | err, s1⟩
  · rw [hpre] at h1
    simp only [] at h1 ⊢
    have h2 := bootstrap_quiet w s1
    rcases hboot : CI.TestE2E.bootstrap w s1 with ⟨_ | err, s2⟩
    · rw [hboot] at h2
      simp only [] at h2 ⊢
      have h3 := multiPlatform_quiet w s2
      rcases hmulti : CI.TestE2E.multiPlatform w s2 with ⟨_ | err, s3⟩
      · rw [hmulti] at h3
        simp only [] at h3 ⊢
        right
        refine ⟨s3, (h1.trans h2).trans h3, ?_, ?_⟩
        · split <;> rename_i heq4 <;> rw [heq4]
        · split <;> rename_i heq4 <;> rw [heq4] <;> rfl
      · rw [hmulti] at h3
        left
        exact ⟨by simp, (h1.trans h2).trans h3⟩
    · rw [hboot] at h2
      left
      exact ⟨by simp, h1.trans h2⟩
  · rw [hpre] at h1
    left
    exact ⟨by simp, h1⟩

/-- The calls of `CI.init` run no rules and no tests; when it returns nil, either it left the
state as it was (periodic and rehearsal jobs) or it filled a fresh rule context, whose
repository name is that of the pull-request metadata. -/
theorem CI_init_cases (w : World) (s s1 : State) (r : Option String)
    (h : CI.init w s = some (r, s1)) :
    (∃ evs, s1.trace = s.trace ++ evs ∧ ∀ e ∈ evs, Event.isKey e = false) ∧
    (r = none → s1 = s ∨
      (s1.rctx.RepoName = s1.pr.RepoName ∧ s1.rctx.IsPaired = w.NewRuleCtx.IsPaired)) := by
  by_cases hjob : s.jobType = "periodic" ∨ strContains s.jobName "rehearse" = true
  · unfold CI.init at h
    rw [if_pos hjob] at h
    simp only [Option.some.injEq, Prod.mk.injEq] at h
    obtain ⟨rfl, rfl⟩ := h
    exact ⟨⟨[], by simp, by simp⟩, fun _ => Or.inl rfl⟩
  · have hp := parseJobSpec_frame w s
    rcases r with _ | err
    · obtain ⟨s2, s3, hpull, hs3, hs'⟩ := CI_init_ok w s s1 hjob h
      obtain ⟨-, -, -, -, -, -, htr2, -, -⟩ := initPullRequest_spec _ _ hpull
      obtain ⟨-, -, -, -, -, -, -, -, -, evs, htr3, hk⟩ := initRemoteAndBranch_frame w s2
      refine ⟨⟨evs, ?_, hk⟩, fun _ => Or.inr ?_⟩
      · rw [hs', ← htr2.trans hp.2.2.2.2.2.2, ← htr3, ← hs3]
        rfl
      · rw [hs', initRuleCtx_rctx]
        exact ⟨rfl, rfl⟩
    · refine ⟨?_, fun hr => by cases hr⟩
      unfold CI.init at h
      rw [if_neg hjob] at h
      rcases hparse : CI.parseJobSpec w s with ⟨_ | e1, t1⟩
      · rw [hparse] at h hp
        simp only [] at h hp
        rcases hpull : CI.initPullRequest t1 with _ | t2
        · rw [hpull] at h
          simp at h
        · rw [hpull] at h
          simp only [] at h
          obtain ⟨-, -, -, -, -, -, htr2, -, -⟩ := initPullRequest_spec _ _ hpull
          obtain ⟨-, -, -, -, -, -, -, -, -, evs, htr3, hk⟩ := initRemoteAndBranch_frame w t2
          rcases hremote : CI.initRemoteAndBranch w t2 with ⟨_ | e3, t3⟩
          · rw [hremote] at h
            simp at h
          · rw [hremote] at h htr3
            simp only [Option.some.injEq, Prod.mk.injEq] at h
            obtain ⟨-, rfl⟩ := h
            exact ⟨evs, by rw [htr3, htr2, hp.2.2.2.2.2.2], hk⟩
      · rw [hparse] at h hp
        simp only [Option.some.injEq, Prod.mk.injEq] at h
        obtain ⟨-, rfl⟩ := h
        exact ⟨[], by simpa using hp.2.2.2.2.2.2, by simp⟩

/-- The three ways in which `CI.TestE2E` ends: a failure of `CI.init` or of
`SetupCustomBundle`, the rule engine, or the path of the repositories without rules. -/
theorem CI_TestE2E_cases (w : World) (s s' : State) (r : Option String)
    (h : CI.TestE2E w s = some (r, s')) :
    ∃ s2 evs, s2.trace = s.trace ++ evs ∧ (∀ e ∈ evs, Event.isKey e = false) ∧
      ((r ≠ none ∧ s' = s2) ∨
       ((s2.rctx = s.rctx ∧ s2.pr = s.pr) ∨
          (s2.rctx.RepoName = s2.pr.RepoName ∧ s2.rctx.IsPaired = w.NewRuleCtx.IsPaired)) ∧
        ((hasCIRules s2.pr.RepoName = true ∧ r = w.RunRulesOfCategory "ci" s2.rctx ∧
            s' = emit (Event.RunRulesOfCategory "ci" s2.rctx) s2) ∨
         (hasCIRules s2.pr.RepoName = false ∧ (r, s') = CI.TestE2E.legacy w s2))) := by
  unfold CI.TestE2E at h
  rcases hinit : CI.init w s with _ | ⟨_ | err, s1⟩
  · rw [hinit] at h
    simp at h
  · rw [hinit] at h
    simp only [] at h
    obtain ⟨⟨evs1, htr1, hk1⟩, hinv⟩ := CI_init_cases w s s1 none hinit
    obtain ⟨⟨evs2, htr2, hk2⟩, hr2, hp2, -, -, -⟩ := SetupCustomBundle_quiet w s1
    have hkeys : ∀ e ∈ evs1 ++ evs2, Event.isKey e = false := by
      intro e he
      rcases List.mem_append.1 he with h1 | h1
      · exact hk1 e h1
      · exact hk2 e h1
    rcases hbundle : SetupCustomBundle w s1 with ⟨_ | err, s2⟩
    · rw [hbundle] at h htr2 hr2 hp2
      simp only [] at h htr2 hr2 hp2
      refine ⟨s2, evs1 ++ evs2, by rw [htr2, htr1, List.append_assoc], hkeys, Or.inr ⟨?_, ?_⟩⟩
      · rcases hinv rfl with h0 | ⟨h0, h1⟩
        · left
          rw [hr2, hp2, h0]
          exact ⟨rfl, rfl⟩
        · right
          rw [hr2, hp2]
          exact ⟨h0, h1⟩
      · by_cases hrules : hasCIRules s2.pr.RepoName = true
        · rw [if_pos hrules] at h
          simp only [Option.some.injEq, Prod.mk.injEq] at h
          exact Or.inl ⟨hrules, h.1.symm, h.2.symm⟩
        · rw [if_neg hrules] at h
          simp only [Option.some.injEq] at h
          exact Or.inr ⟨by simpa using hrules, h.symm⟩
    · rw [hbundle] at h htr2
      simp only [Option.some.injEq, Prod.mk.injEq] at h htr2
      obtain ⟨rfl, rfl⟩ := h
      exact ⟨s2, evs1 ++ evs2, by rw [htr2, htr1, List.append_assoc], hkeys,
        Or.inl ⟨by simp, rfl⟩⟩
  · rw [hinit] at h
    simp only [Option.some.injEq, Prod.mk.injEq] at h
    obtain ⟨rfl, rfl⟩ := h
    obtain ⟨⟨evs1, htr1, hk1⟩, -⟩ := CI_init_cases w s s1 (some err) hinit
    exact ⟨s1, evs1, htr1, hk1, Or.inl ⟨by simp, rfl⟩⟩

/-- The calls of a run of `CI.TestE2E`: calls that run no rules and no tests, followed by
nothing, by the one call of `RunRulesOfCategory` of the rules path, or by the calls of
`RunE2ETests` on the path of the repositories without rules. -/
theorem CI_TestE2E_emitted (w : World) (s s' : State) (r : Option String)
    (h : CI.TestE2E w s = some (r, s')) :
    ∃ quiet tail, emitted s s' = quiet ++ tail ∧ (∀ e ∈ quiet, Event.isKey e = false) ∧
      (tail = [] ∨
       (∃ s2 : State, tail = [Event.RunRulesOfCategory "ci" s2.rctx] ∧
          hasCIRules s2.pr.RepoName = true ∧ r = w.RunRulesOfCategory "ci" s2.rctx ∧
          ((s2.rctx = s.rctx ∧ s2.pr = s.pr) ∨
            (s2.rctx.RepoName = s2.pr.RepoName ∧
              s2.rctx.IsPaired = w.NewRuleCtx.IsPaired))) ∨
       ((∀ ev ∈ tail, Event.isKey ev = true → ∀ e, w.answer ev = some e →
            r = some ("error when running e2e tests: " ++ e)) ∧
          (∀ ev ∈ tail, ∀ cat ctx, ev ≠ Event.RunRulesOfCategory cat ctx))) := by
  obtain ⟨s2, evs, htr, hk, hcase⟩ := CI_TestE2E_cases w s s' r h
  rcases hcase with ⟨-, rfl⟩ | ⟨hinv, hrules | hlegacy⟩
  · exact ⟨evs, [], by rw [emitted_append s _ evs htr]; simp, hk, Or.inl rfl⟩
  · obtain ⟨hci, hr, rfl⟩ := hrules
    refine ⟨evs, [Event.RunRulesOfCategory "ci" s2.rctx], ?_, hk,
      Or.inr (Or.inl ⟨s2, rfl, hci, hr, hinv⟩)⟩
    apply emitted_append
    rw [emit_trace, htr, List.append_assoc]
  · obtain ⟨-, hleg⟩ := hlegacy
    have hr : r = (CI.TestE2E.legacy w s2).1 := congrArg Prod.fst hleg
    have hs : s' = (CI.TestE2E.legacy w s2).2 := congrArg Prod.snd hleg
    rcases legacy_cases w s2 with ⟨-, hq⟩ | ⟨s3, hq, hst, hres⟩
    · obtain ⟨⟨qevs, hqtr, hqk⟩, -, -, -, -, -⟩ := hq
      refine ⟨evs ++ qevs, [], ?_, ?_, Or.inl rfl⟩
      · rw [List.append_nil]
        apply emitted_append
        rw [hs, hqtr, htr, List.append_assoc]
      · intro e he
        rcases List.mem_append.1 he with h1 | h1
        · exact hk e h1
        · exact hqk e h1
    · obtain ⟨⟨qevs, hqtr, hqk⟩, -, -, -, -, -⟩ := hq
      obtain ⟨revs, hrtr, hans, hnocat, -⟩ := RunE2ETests_answers w s3
      refine ⟨evs ++ qevs, revs, ?_, ?_, Or.inr (Or.inr ⟨?_, hnocat⟩)⟩
      · apply emitted_append
        rw [hs, hst, hrtr, hqtr, htr]
        simp only [List.append_assoc]
      · intro e he
        rcases List.mem_append.1 he with h1 | h1
        · exact hk e h1
        · exact hqk e h1
      · intro ev hev hkey e he
        rw [hr, hres, hans ev hev hkey e he]
        rfl

/-- C6: an error returned by the rule engine reaches the caller of the mage target.
`Local.PreviewTestSelection`, `Local.RunRuleDemo`, `Local.RunInfraDeploymentsRuleDemo`,
`RunE2ETests` and the rules path of `CI.TestE2E` return what the engine returns, error or
nil; on the path of `CI.TestE2E` for the repositories without rules, every error that a call
of `RunE2ETests` is answered with, the error of the engine included, is returned wrapped in
`error when running e2e tests`. -/
theorem engine_error_is_returned (w : World) (s : State) :
    ((w.GetChangedFiles "e2e-tests").2 = none →
      (Local.PreviewTestSelection w s).1 =
        w.RunRules { w.NewRuleCtx with
          DiffFiles := (w.GetChangedFiles "e2e-tests").1, DryRun := true }
          "tests" "e2e-repo") ∧
    ((w.GetChangedFiles "e2e-tests").2 = none →
      (Local.RunRuleDemo w s).1 =
        w.RunRulesOfCategory "demo" { w.NewRuleCtx with
          DiffFiles := (w.GetChangedFiles "e2e-tests").1, DryRun := true }) ∧
    ((w.GetChangedFiles "infra-deployments").2 = none →
      (Local.RunInfraDeploymentsRuleDemo w s).1 =
        w.RunRules { w.NewRuleCtx with
          Parallel := true, OutputDir := s.artifactDir, RepoName := "infra-deployments",
          JobName := "", JobType := "", DryRun := true,
          DiffFiles := (w.GetChangedFiles "infra-deployments").1 }
          "tests" "infra-deployments") ∧
    (∀ ev ∈ emitted s (RunE2ETests w s).2, (Event.engineCtx ev).isSome = true →
      (RunE2ETests w s).1 = w.answer ev) ∧
    (∀ r s', CI.TestE2E w s = some (r, s') →
      (∀ cat ctx, Event.RunRulesOfCategory cat ctx ∈ emitted s s' →
        r = w.RunRulesOfCategory cat ctx) ∧
      (∀ ev ∈ emitted s s', Event.isKey ev = true →
        (∀ cat ctx, ev ≠ Event.RunRulesOfCategory cat ctx) →
        ∀ e, w.answer ev = some e → r = some ("error when running e2e tests: " ++ e))) := by
  refine ⟨?_, ?_, ?_, ?_, ?_⟩
  · intro hfiles
    unfold Local.PreviewTestSelection
    rcases hget : w.GetChangedFiles "e2e-tests" with ⟨files, _ | err⟩
    · simp only []
      split <;> rename_i heq <;> rw [heq]
    · rw [hget] at hfiles
      cases hfiles
  · intro hfiles
    unfold Local.RunRuleDemo
    rcases hget : w.GetChangedFiles "e2e-tests" with ⟨files, _ | err⟩
    · simp only []
      split <;> rename_i heq <;> rw [heq]
    · rw [hget] at hfiles
      cases hfiles
  · intro hfiles
    unfold Local.RunInfraDeploymentsRuleDemo
    rcases hget : w.GetChangedFiles "infra-deployments" with ⟨files, _ | err⟩
    · rfl
    · rw [hget] at hfiles
      cases hfiles
  · obtain ⟨revs, hrtr, -, -, heng⟩ := RunE2ETests_answers w s
    rw [emitted_append s _ revs hrtr]
    exact heng
  · intro r s' h
    obtain ⟨quiet, tail, hem, hq, hcase⟩ := CI_TestE2E_emitted w s s' r h
    rw [hem]
    refine ⟨?_, ?_⟩
    · intro cat ctx hmem
      rcases List.mem_append.1 hmem with h1 | h1
      · have := hq _ h1
        cases this
      · rcases hcase with rfl | ⟨s2, rfl, -, hr, -⟩ | ⟨-, hno⟩
        · cases h1
        · simp only [List.mem_singleton, Event.RunRulesOfCategory.injEq] at h1
          obtain ⟨rfl, rfl⟩ := h1
          exact hr
        · exact absurd rfl (hno _ h1 cat ctx)
    · intro ev hmem hkey hnocat e he
      rcases List.mem_append.1 hmem with h1 | h1
      · rw [hq _ h1] at hkey
        cases hkey
      · rcases hcase with rfl | ⟨s2, rfl, -, -, -⟩ | ⟨hans, -⟩
        · cases h1
        · simp only [List.mem_singleton] at h1
          exact absurd h1 (hnocat _ _)
        · exact hans ev h1 hkey e he

/-! ## Cleanup of the GitHub organisation -/

theorem timeSub_gt_day (now t : Int) : timeSub now t > dayDuration ↔ now - t > dayDuration := by
  unfold timeSub
  have h1 : maxDuration = 9223372036854775807 := by norm_num [maxDuration]
  have h2 : minDuration = -9223372036854775808 := by norm_num [minDuration]
  have h3 : dayDuration = 86400000000000 := by norm_num [dayDuration]
  rw [h1, h2, h3]
  split_ifs <;> omega

theorem selectReposToDelete_eq (w : World) (r : Regexp) (repos : List Repository) :
    ∀ (acc : List Repository) (s : State),
      selectReposToDelete w r repos acc s =
        (acc ++ filterAt w r s.clock repos, { s with clock := s.clock + repos.length }) := by
  induction repos with
  | nil =>
    intro acc s
    simp [selectReposToDelete, filterAt]
  | cons repo rest ih =>
    intro acc s
    have hage : (timeSince w repo.GetCreatedAt s).1 > dayDuration ↔
        w.Now s.clock - repo.GetCreatedAt > dayDuration := timeSub_gt_day _ _
    have hclock : (timeSince w repo.GetCreatedAt s).2 = { s with clock := s.clock + 1 } := rfl
    unfold selectReposToDelete filterAt
    simp only [hclock]
    by_cases h1 : w.Now s.clock - repo.GetCreatedAt > dayDuration
    · rw [if_pos (hage.2 h1)]
      by_cases h2 : r repo.GetName = true ∨ repo.GetDescription = gitopsRepository
      · have hs : shouldDelete r (w.Now s.clock) repo = true := by
          simpa [shouldDelete, h1] using h2
        rw [if_pos h2, if_pos hs, ih]
        simp [Nat.add_assoc, Nat.add_comm 1]
      · have hs : ¬ shouldDelete r (w.Now s.clock) repo = true := by
          simpa [shouldDelete, h1] using h2
        rw [if_neg h2, if_neg hs, ih]
        simp [Nat.add_assoc, Nat.add_comm 1]
    · rw [if_neg (fun h => h1 (hage.1 h))]
      have hs : ¬ shouldDelete r (w.Now s.clock) repo = true := by
        simp [shouldDelete, h1]
      rw [if_neg hs, ih]
      simp [Nat.add_assoc, Nat.add_comm 1]

theorem filterAt_const (w : World) (r : Regexp) (now : Int) (h : ∀ k, w.Now k = now)
    (repos : List Repository) :
    ∀ k, filterAt w r k repos = repos.filter (shouldDelete r now) := by
  induction repos with
  | nil =>
    intro k
    rfl
  | cons repo rest ih =>
    intro k
    unfold filterAt
    rw [h k, ih (k + 1), List.filter_cons]

theorem filterAt_sublist (w : World) (r : Regexp) (repos : List Repository) :
    ∀ k, List.Sublist (filterAt w r k repos) repos := by
  induction repos with
  | nil =>
    intro k
    exact List.Sublist.slnil
  | cons repo rest ih =>
    intro k
    unfold filterAt
    split
    · exact (ih (k + 1)).cons₂ repo
    · exact (ih (k + 1)).cons repo

theorem deleteRepos_deleted (w : World) (dryRun : Bool) (repos : List Repository) :
    ∀ s : State, deletedRepos (deleteRepos w dryRun repos s).trace =
      deletedRepos s.trace ++ (if dryRun then [] else repos) := by
  induction repos with
  | nil =>
    intro s
    cases dryRun <;> simp [deleteRepos]
  | cons repo rest ih =>
    intro s
    unfold deleteRepos
    cases dryRun
    · simp only [Bool.false_eq_true, if_false]
      split
      · rw [ih]
        simp [deletedRepos, Event.deletedRepo, List.filterMap_append]
      · rw [ih]
        simp [deletedRepos, Event.deletedRepo, List.filterMap_append]
    · simp only [if_true]
      rw [ih]
      simp [deletedRepos, Event.deletedRepo, List.filterMap_append]

theorem deleteRepos_dryRun_trace (w : World) (repos : List Repository) :
    ∀ s : State, (deleteRepos w true repos s).trace =
      s.trace ++ repos.map (fun repo => Event.klog "Info" ("\t" ++ repo.GetName)) := by
  induction repos with
  | nil =>
    intro s
    simp [deleteRepos]
  | cons repo rest ih =>
    intro s
    unfold deleteRepos
    simp only [if_true]
    rw [ih]
    simp

theorem deleteRepos_trace_ext (w : World) (dryRun : Bool) (repos : List Repository) :
    ∀ s : State, ∃ evs, (deleteRepos w dryRun repos s).trace = s.trace ++ evs := by
  induction repos with
  | nil =>
    intro s
    exact ⟨[], by simp [deleteRepos]⟩
  | cons repo rest ih =>
    intro s
    unfold deleteRepos
    split
    · obtain ⟨evs, h⟩ := ih (emit (Event.klog "Info" ("\t" ++ repo.GetName)) s)
      exact ⟨Event.klog "Info" ("\t" ++ repo.GetName) :: evs, by rw [h]; simp⟩
    · simp only []
      split
      · rename_i err _
        obtain ⟨evs, h⟩ := ih (emit (Event.klog "Warning"
          ("error deleting repository: " ++ err ++ "\n")) (emit (Event.DeleteRepository repo) s))
        exact ⟨Event.DeleteRepository repo :: Event.klog "Warning"
          ("error deleting repository: " ++ err ++ "\n") :: evs, by rw [h]; simp⟩
      · obtain ⟨evs, h⟩ := ih (emit (Event.DeleteRepository repo) s)
        exact ⟨Event.DeleteRepository repo :: evs, by rw [h]; simp⟩

/-- The run of `Local.CleanupGithubOrg` once the token is set, `DRY_RUN` parses, the client is
created, the repositories are fetched and the expression compiles. -/
theorem CleanupGithubOrg_run (w : World) (s : State) (dryRun : Bool)
    (repos : List Repository) (r : Regexp)
    (htoken : Getenv s.env "GITHUB_TOKEN" ≠ "")
    (hdry : ParseBool (GetEnv s.env "DRY_RUN" "true") = Except.ok dryRun)
    (hclient : w.NewGithubClient (Getenv s.env "GITHUB_TOKEN")
      (GetEnv s.env w.GITHUB_E2E_ORGANIZATION_ENV "redhat-appstudio-qe") = none)
    (hrepos : w.GetAllRepositories = Except.ok repos)
    (hregex : w.regexpCompile (GetEnv s.env "REPO_REGEX" reposToDeleteDefaultRegexp) =
      Except.ok r) :
    Local.CleanupGithubOrg w s =
      (none,
        (fun s4 : State => if dryRun = true then
            emit (Event.klog "Info"
              ("If you really want to delete these repositories, run " ++
                "`DRY_RUN=false [REGEXP=<regexp>] mage local:cleanupGithubOrg`")) s4
          else s4)
        (deleteRepos w dryRun (filterAt w r s.clock repos)
          ((fun s3 : State => if dryRun = true then
              emit (Event.klog "Info"
                "Dry run enabled. Listing repositories that would be deleted:") s3
            else s3)
            { emit (Event.external "ghClient.GetAllRepositories" [])
                (emit (Event.external "github.NewGithubClient"
                  [Getenv s.env "GITHUB_TOKEN",
                    GetEnv s.env w.GITHUB_E2E_ORGANIZATION_ENV "redhat-appstudio-qe"]) s) with
              clock := s.clock + repos.length }))) := by
  unfold Local.CleanupGithubOrg
  simp only [if_neg htoken, hdry, hclient, hrepos, emit_env, hregex, selectReposToDelete_eq,
    List.nil_append]
  rfl

/-- C10: `Local.CleanupGithubOrg` selects a fetched repository for deletion exactly when the
repository was created more than 24 hours before the instant at which it is examined and its
name matches the expression of `REPO_REGEX` (by default `reposToDeleteDefaultRegexp`) or its
description is exactly `GitOps Repository`.  The selected list is the fetched list filtered
by that test, in the same order; it is the list that is deleted when dry run is off and
listed when dry run is on. -/
theorem CleanupGithubOrg_selects (w : World) (s : State) (dryRun : Bool)
    (repos : List Repository) (r : Regexp)
    (htoken : Getenv s.env "GITHUB_TOKEN" ≠ "")
    (hdry : ParseBool (GetEnv s.env "DRY_RUN" "true") = Except.ok dryRun)
    (hclient : w.NewGithubClient (Getenv s.env "GITHUB_TOKEN")
      (GetEnv s.env w.GITHUB_E2E_ORGANIZATION_ENV "redhat-appstudio-qe") = none)
    (hrepos : w.GetAllRepositories = Except.ok repos)
    (hregex : w.regexpCompile (GetEnv s.env "REPO_REGEX" reposToDeleteDefaultRegexp) =
      Except.ok r) :
    (∀ (acc : List Repository) (s0 : State),
      (selectReposToDelete w r repos acc s0).1 = acc ++ filterAt w r s0.clock repos) ∧
    List.Sublist (filterAt w r s.clock repos) repos ∧
    (∀ now, (∀ k, w.Now k = now) →
      filterAt w r s.clock repos = repos.filter (shouldDelete r now)) ∧
    (Local.CleanupGithubOrg w s).1 = none ∧
    (dryRun = false →
      deletedRepos (emitted s (Local.CleanupGithubOrg w s).2) = filterAt w r s.clock repos) ∧
    (dryRun = true →
      emitted s (Local.CleanupGithubOrg w s).2 =
        [Event.external "github.NewGithubClient"
            [Getenv s.env "GITHUB_TOKEN",
              GetEnv s.env w.GITHUB_E2E_ORGANIZATION_ENV "redhat-appstudio-qe"],
          Event.external "ghClient.GetAllRepositories" [],
          Event.klog "Info" "Dry run enabled. Listing repositories that would be deleted:"] ++
        (filterAt w r s.clock repos).map (fun repo => Event.klog "Info" ("\t" ++ repo.GetName))
        ++ [Event.klog "Info"
              ("If you really want to delete these repositories, run " ++
                "`DRY_RUN=false [REGEXP=<regexp>] mage local:cleanupGithubOrg`")]) := by
  have hrun := CleanupGithubOrg_run w s dryRun repos r htoken hdry hclient hrepos hregex
  refine ⟨?_, filterAt_sublist w r repos s.clock, ?_, ?_, ?_, ?_⟩
  · intro acc s0
    rw [selectReposToDelete_eq]
  · intro now hnow
    exact filterAt_const w r now hnow repos s.clock
  · rw [hrun]
  · intro hd
    subst hd
    rw [hrun]
    simp only [Bool.false_eq_true, if_false]
    obtain ⟨evs, hevs⟩ := deleteRepos_trace_ext w false (filterAt w r s.clock repos)
      { emit (Event.external "ghClient.GetAllRepositories" [])
          (emit (Event.external "github.NewGithubClient"
            [Getenv s.env "GITHUB_TOKEN",
              GetEnv s.env w.GITHUB_E2E_ORGANIZATION_ENV "redhat-appstudio-qe"]) s) with
        clock := s.clock + repos.length }
    have hdel := deleteRepos_deleted w false (filterAt w r s.clock repos)
      { emit (Event.external "ghClient.GetAllRepositories" [])
          (emit (Event.external "github.NewGithubClient"
            [Getenv s.env "GITHUB_TOKEN",
              GetEnv s.env w.GITHUB_E2E_ORGANIZATION_ENV "redhat-appstudio-qe"]) s) with
        clock := s.clock + repos.length }
    rw [hevs] at hdel
    simp only [deletedRepos, List.filterMap_append, Bool.false_eq_true, if_false] at hdel
    have hdel2 := List.append_cancel_left hdel
    rw [emitted_append s _ ([Event.external "github.NewGithubClient"
        [Getenv s.env "GITHUB_TOKEN",
          GetEnv s.env w.GITHUB_E2E_ORGANIZATION_ENV "redhat-appstudio-qe"],
      Event.external "ghClient.GetAllRepositories" []] ++ evs)]
    · simp only [deletedRepos, List.filterMap_append, hdel2]
      simp [Event.deletedRepo]
    · rw [hevs]
      simp [emit]
  · intro hd
    subst hd
    rw [hrun]
    apply emitted_append
    simp only [if_true, emit_trace, deleteRepos_dryRun_trace]
    simp [emit]

/-- C10, at a concrete input: of the four fetched repositories, the old one whose name
matches and the old one described as `GitOps Repository` are deleted, in that order. -/
theorem CleanupGithubOrg_selects_witness :
    deletedRepos (emitted (State.start (envOf [("GITHUB_TOKEN", "token"), ("DRY_RUN", "false")]))
      (Local.CleanupGithubOrg cleanupWorld
        (State.start (envOf [("GITHUB_TOKEN", "token"), ("DRY_RUN", "false")]))).2) =
      [oldRepo, gitopsRepo] :=
  ((CleanupGithubOrg_selects cleanupWorld
    (State.start (envOf [("GITHUB_TOKEN", "token"), ("DRY_RUN", "false")])) false
    [oldRepo, freshRepo, gitopsRepo, keptRepo] (fun name => strContains name "e2e")
    (by decide) rfl rfl rfl rfl).2.2.2.2.1 rfl).trans (by decide)

/-- C9: with `GITHUB_TOKEN` set and `DRY_RUN` not set, `Local.CleanupGithubOrg` runs with dry
run enabled: of the fetched repositories, two are selected, none is deleted, and their names
are only listed. -/
theorem CleanupGithubOrg_DRY_RUN_unset :
    envOf [("GITHUB_TOKEN", "token")] "DRY_RUN" = none ∧
    ParseBool (GetEnv (envOf [("GITHUB_TOKEN", "token")]) "DRY_RUN" "true") = Except.ok true ∧
    (Local.CleanupGithubOrg cleanupWorld (State.start (envOf [("GITHUB_TOKEN", "token")]))).1 =
      none ∧
    deletedRepos (Local.CleanupGithubOrg cleanupWorld
      (State.start (envOf [("GITHUB_TOKEN", "token")]))).2.trace = [] ∧
    (Local.CleanupGithubOrg cleanupWorld
      (State.start (envOf [("GITHUB_TOKEN", "token")]))).2.trace =
      [Event.external "github.NewGithubClient" ["token", "redhat-appstudio-qe"],
        Event.external "ghClient.GetAllRepositories" [],
        Event.klog "Info" "Dry run enabled. Listing repositories that would be deleted:",
        Event.klog "Info" "\te2e-demo",
        Event.klog "Info" "\tgitops",
        Event.klog "Info"
          ("If you really want to delete these repositories, run " ++
            "`DRY_RUN=false [REGEXP=<regexp>] mage local:cleanupGithubOrg`")] := by
  refine ⟨by decide, rfl, ?_, ?_, ?_⟩
  · decide
  · decide
  · decide

/-! ## The repository name and the pairing flag at the calls of the engine -/

theorem hasCIRules_ne_empty (repoName : String) (h : hasCIRules repoName = true) :
    repoName ≠ "" := by
  intro he
  subst he
  revert h
  decide

/-- C2, as the code has it: every call of `RunRulesOfCategory` made by `CI.TestE2E` has the
category `ci` and a context whose repository name is one of the six repositories with rules,
hence not empty; the call made by `Local.RunRuleDemo` has the category `demo` and passes the
repository name of the fresh context, which the target never assigns. -/
theorem RunRulesOfCategory_RepoName (w : World) (s : State)
    (hinv : s.rctx.RepoName = s.pr.RepoName) :
    (∀ r s', CI.TestE2E w s = some (r, s') →
      ∀ cat ctx, Event.RunRulesOfCategory cat ctx ∈ emitted s s' →
        cat = "ci" ∧ hasCIRules ctx.RepoName = true ∧ ctx.RepoName ≠ "") ∧
    (∀ cat ctx, Event.RunRulesOfCategory cat ctx ∈ emitted s (Local.RunRuleDemo w s).2 →
      cat = "demo" ∧ ctx.RepoName = w.NewRuleCtx.RepoName) := by
  refine ⟨?_, ?_⟩
  · intro r s' h cat ctx hmem
    obtain ⟨quiet, tail, hem, hq, hcase⟩ := CI_TestE2E_emitted w s s' r h
    rw [hem] at hmem
    rcases List.mem_append.1 hmem with h1 | h1
    · have := hq _ h1
      cases this
    · rcases hcase with rfl | ⟨s2, rfl, hci, -, hinv2⟩ | ⟨-, hno⟩
      · cases h1
      · simp only [List.mem_singleton, Event.RunRulesOfCategory.injEq] at h1
        obtain ⟨rfl, rfl⟩ := h1
        have hname : s2.rctx.RepoName = s2.pr.RepoName := by
          rcases hinv2 with ⟨h2, h3⟩ | ⟨h2, -⟩
          · rw [h2, h3]
            exact hinv
          · exact h2
        rw [hname]
        exact ⟨rfl, hci, hasCIRules_ne_empty _ hci⟩
      · exact absurd rfl (hno _ h1 cat ctx)
  · intro cat ctx hmem
    rw [RunRuleDemo_emitted] at hmem
    rcases hget : w.GetChangedFiles "e2e-tests" with ⟨files, _ | err⟩
    · rw [hget] at hmem
      simp only [List.mem_cons, reduceCtorEq, Event.RunRulesOfCategory.injEq, List.mem_singleton,
        List.not_mem_nil, or_false, false_or] at hmem
      obtain ⟨rfl, rfl⟩ := hmem
      exact ⟨rfl, rfl⟩
    · rw [hget] at hmem
      simp at hmem

/-- C2, at a concrete input: under Konflux CI, for a pull request of `e2e-tests`, the engine is
called with the category `ci` and the repository name `e2e-tests`. -/
theorem RunRulesOfCategory_RepoName_witness :
    "ci" = "ci" ∧ hasCIRules rulesCtx.RepoName = true ∧ rulesCtx.RepoName ≠ "" :=
  (RunRulesOfCategory_RepoName rulesWorld (State.start (envOf ciEnv)) rfl).1 none _ rfl
    "ci" rulesCtx (by decide)

/-- C2 fails for `Local.RunRuleDemo`: with a fresh context equal to the Go zero value, the
target calls `RunRulesOfCategory("demo", rctx)` with an empty `rctx.RepoName`. -/
theorem RunRuleDemo_empty_RepoName :
    emitted (State.start (envOf [])) (Local.RunRuleDemo quietWorld (State.start (envOf []))).2 =
      [Event.GetChangedFiles "e2e-tests",
        Event.RunRulesOfCategory "demo" { RuleCtx.zero with DryRun := true }] ∧
    ({ RuleCtx.zero with DryRun := true } : RuleCtx).RepoName = "" := by
  decide

theorem isPRPairingRequired_trace (w : World) (repo : String) (s : State) :
    ∃ rest, (isPRPairingRequired w repo s).2.trace =
      s.trace ++ Event.sendHttpRequestAndParseResponse (pairingUrl repo) "GET" :: rest := by
  unfold isPRPairingRequired
  simp only []
  split
  · rename_i err _
    exact ⟨[Event.klog "Info" ("cannot determine " ++ repo ++ " Github branches for author " ++
      s.pr.RemoteName ++ ": " ++ err ++ ". will stick with the redhat-appstudio/" ++ repo ++
      " main branch for running tests")], by simp⟩
  · exact ⟨[], by simp⟩

theorem pairedBeforeEngine_append_lookup (pre rest : List Event) (url method : String)
    (h : ∀ e ∈ pre, (Event.engineCtx e).isSome = false) :
    pairedBeforeEngine (pre ++ Event.sendHttpRequestAndParseResponse url method :: rest) =
      true := by
  induction pre with
  | nil => simp [pairedBeforeEngine, Event.isPairingLookup]
  | cons e pre ih =>
    have he := h e (List.mem_cons_self _ _)
    have ht := ih (fun x hx => h x (List.mem_cons_of_mem _ hx))
    simp only [List.cons_append, pairedBeforeEngine, he]
    split
    · rfl
    · simpa using ht

theorem initRemoteAndBranch_lookup (w : World) (s : State) :
    ∃ evs, (CI.initRemoteAndBranch w s).2.trace = s.trace ++ evs ∧
      ∀ e ∈ evs, Event.isPairingLookup e = false := by
  unfold CI.initRemoteAndBranch
  split
  · exact ⟨[Event.external "getRemoteAndBranchNameFromPRLink"
      ["https://api.github.com/repos/" ++ s.pr.Organization ++ "/" ++ s.pr.RepoName ++
        "/pulls/" ++ toString s.pr.Number]], rfl, by simp [Event.isPairingLookup]⟩
  · split
    · exact ⟨[], by simp, by simp⟩
    · exact ⟨[], by simp, by simp⟩

theorem SetupCustomBundle_lookup (w : World) (s : State) :
    ∃ evs, (SetupCustomBundle w s).2.trace = s.trace ++ evs ∧
      ∀ e ∈ evs, Event.isPairingLookup e = false := by
  unfold SetupCustomBundle
  simp only []
  rcases w.CreateCustomBuildBundle "docker-build" with err | bundle
  · exact ⟨[Event.klog "Info" "setting up new custom bundle for testing...",
      Event.external "build.CreateCustomBuildBundle" ["docker-build"]], by simp,
      by simp [Event.isPairingLookup]⟩
  · simp only []
    rcases SetenvError w.CUSTOM_DOCKER_BUILD_PIPELINE_BUNDLE_ENV bundle with _ | err
    · exact ⟨[Event.klog "Info" "setting up new custom bundle for testing...",
        Event.external "build.CreateCustomBuildBundle" ["docker-build"],
        Event.klog "Info"
          ("To use the custom docker bundle locally, run below cmd:\n\n " ++
            "export CUSTOM_DOCKER_BUILD_PIPELINE_BUNDLE=" ++ bundle ++ "\n\n")], by simp,
        by simp [Event.isPairingLookup]⟩
    · exact ⟨[Event.klog "Info" "setting up new custom bundle for testing...",
        Event.external "build.CreateCustomBuildBundle" ["docker-build"],
        Event.klog "Info"
          ("To use the custom docker bundle locally, run below cmd:\n\n " ++
            "export CUSTOM_DOCKER_BUILD_PIPELINE_BUNDLE=" ++ bundle ++ "\n\n")], by simp,
        by simp [Event.isPairingLookup]⟩

/-- The calls of `CI.init` when it returns nil: none of them is a pairing lookup. -/
theorem CI_init_lookup (w : World) (s s1 : State) (h : CI.init w s = some (none, s1)) :
    ∃ evs, s1.trace = s.trace ++ evs ∧ ∀ e ∈ evs, Event.isPairingLookup e = false := by
  by_cases hjob : s.jobType = "periodic" ∨ strContains s.jobName "rehearse" = true
  · unfold CI.init at h
    rw [if_pos hjob] at h
    simp only [Option.some.injEq, Prod.mk.injEq, true_and] at h
    subst h
    exact ⟨[], by simp, by simp⟩
  · obtain ⟨s2, s3, hpull, hs3, hs1⟩ := CI_init_ok w s s1 hjob h
    obtain ⟨-, -, -, -, -, -, htr2, -, -⟩ := initPullRequest_spec _ _ hpull
    obtain ⟨evs, htr3, hk⟩ := initRemoteAndBranch_lookup w s2
    refine ⟨evs, ?_, hk⟩
    rw [hs1, ← htr2.trans (parseJobSpec_frame w s).2.2.2.2.2.2, ← htr3, ← hs3]
    rfl

/-- On the path of `CI.TestE2E` for the repositories without rules, `RunRulesOfCategory` is
not called. -/
theorem legacy_no_category (w : World) (s : State) :
    ∀ e ∈ emitted s (CI.TestE2E.legacy w s).2,
      ∀ cat ctx, e ≠ Event.RunRulesOfCategory cat ctx := by
  intro e he cat ctx heq
  subst heq
  have hkey : Event.isKey (Event.RunRulesOfCategory cat ctx) = true := rfl
  rcases legacy_cases w s with ⟨-, hq⟩ | ⟨s3, hq, hst, -⟩
  · obtain ⟨⟨evs, htr, hk⟩, -, -, -, -, -⟩ := hq
    rw [emitted_append s _ evs htr] at he
    rw [hk _ he] at hkey
    cases hkey
  · obtain ⟨⟨evs, htr, hk⟩, -, -, -, -, -⟩ := hq
    obtain ⟨revs, hrtr, -, hnocat, -⟩ := RunE2ETests_answers w s3
    have hall : emitted s (CI.TestE2E.legacy w s).2 = evs ++ revs := by
      apply emitted_append
      rw [hst, hrtr, htr, List.append_assoc]
    rw [hall] at he
    rcases List.mem_append.1 he with h | h
    · rw [hk _ h] at hkey
      cases hkey
    · exact hnocat _ h cat ctx rfl

/-- A run of `CI.TestE2E` that calls `RunRulesOfCategory` is a run of the rules path: `CI.init`
and `SetupCustomBundle` returned nil, and the call is the last one, with the category `ci` and
the rule context as it then was. -/
theorem CI_TestE2E_rules_call (w : World) (s s' : State) (r : Option String)
    (h : CI.TestE2E w s = some (r, s')) (cat : String) (ctx : RuleCtx)
    (hmem : Event.RunRulesOfCategory cat ctx ∈ emitted s s') :
    ∃ s1 s2 : State, CI.init w s = some (none, s1) ∧ SetupCustomBundle w s1 = (none, s2) ∧
      ctx = s2.rctx ∧ s' = emit (Event.RunRulesOfCategory "ci" s2.rctx) s2 := by
  have hkey : Event.isKey (Event.RunRulesOfCategory cat ctx) = true := rfl
  unfold CI.TestE2E at h
  rcases hinit : CI.init w s with _ | ⟨_ | err, s1⟩
  · rw [hinit] at h
    simp at h
  · rw [hinit] at h
    simp only [] at h
    obtain ⟨⟨evs1, htr1, hk1⟩, -⟩ := CI_init_cases w s s1 none hinit
    obtain ⟨⟨evs2, htr2, hk2⟩, -, -, -, -, -⟩ := SetupCustomBundle_quiet w s1
    rcases hbundle : SetupCustomBundle w s1 with ⟨_ | err, s2⟩
    · rw [hbundle] at h htr2
      simp only [] at h htr2
      by_cases hrules : hasCIRules s2.pr.RepoName = true
      · rw [if_pos hrules] at h
        simp only [Option.some.injEq, Prod.mk.injEq] at h
        obtain ⟨-, hs'⟩ := h
        refine ⟨s1, s2, rfl, hbundle, ?_, hs'.symm⟩
        have hem : emitted s s' = evs1 ++ evs2 ++ [Event.RunRulesOfCategory "ci" s2.rctx] := by
          apply emitted_append
          rw [← hs', emit_trace, htr2, htr1]
          simp only [List.append_assoc]
        rw [hem] at hmem
        simp only [List.mem_append, List.mem_singleton] at hmem
        rcases hmem with (hm | hm) | hm
        · rw [hk1 _ hm] at hkey
          cases hkey
        · rw [hk2 _ hm] at hkey
          cases hkey
        · simp only [Event.RunRulesOfCategory.injEq] at hm
          exact hm.2
      · rw [if_neg hrules] at h
        simp only [Option.some.injEq] at h
        have hs' : s' = (CI.TestE2E.legacy w s2).2 := (congrArg Prod.snd h).symm
        have hsplit : emitted s s' = evs1 ++ evs2 ++ emitted s2 (CI.TestE2E.legacy w s2).2 := by
          rcases legacy_cases w s2 with ⟨-, hq⟩ | ⟨s3, hq, hst, -⟩
          · obtain ⟨⟨qevs, hqtr, -⟩, -, -, -, -, -⟩ := hq
            rw [emitted_append s2 _ qevs hqtr]
            apply emitted_append
            rw [hs', hqtr, htr2, htr1]
            simp only [List.append_assoc]
          · obtain ⟨⟨qevs, hqtr, -⟩, -, -, -, -, -⟩ := hq
            obtain ⟨revs, hrtr, -⟩ := RunE2ETests_answers w s3
            rw [emitted_append s2 _ (qevs ++ revs) (by rw [hst, hrtr, hqtr, List.append_assoc])]
            apply emitted_append
            rw [hs', hst, hrtr, hqtr, htr2, htr1]
            simp only [List.append_assoc]
        rw [hsplit] at hmem
        simp only [List.mem_append] at hmem
        rcases hmem with (hm | hm) | hm
        · rw [hk1 _ hm] at hkey
          cases hkey
        · rw [hk2 _ hm] at hkey
          cases hkey
        · exact absurd rfl (legacy_no_category w s2 _ hm cat ctx)
    · rw [hbundle] at h htr2
      simp only [Option.some.injEq, Prod.mk.injEq] at h htr2
      obtain ⟨-, hs'⟩ := h
      have hem : emitted s s' = evs1 ++ evs2 := by
        apply emitted_append
        rw [← hs', htr2, htr1, List.append_assoc]
      rw [hem] at hmem
      rcases List.mem_append.1 hmem with hm | hm
      · rw [hk1 _ hm] at hkey
        cases hkey
      · rw [hk2 _ hm] at hkey
        cases hkey
  · rw [hinit] at h
    simp only [Option.some.injEq, Prod.mk.injEq] at h
    obtain ⟨-, hs'⟩ := h
    obtain ⟨⟨evs1, htr1, hk1⟩, -⟩ := CI_init_cases w s s1 (some err) hinit
    have hem : emitted s s' = evs1 := by
      apply emitted_append
      rw [← hs', htr1]
    rw [hem] at hmem
    rw [hk1 _ hmem] at hkey
    cases hkey

/-- C3, as the code has it: of the calls of the rule engine, only the one of the
`release-service-catalog` branch of `RunE2ETests` is preceded by a pairing lookup and gets
its result, `isPRPairingRequired("release-service")`, in `IsPaired`.  The `infra-deployments`
branch passes `IsPaired` as the context had it, the three preview and demo targets pass the
`IsPaired` of the fresh context and make no pairing lookup, and the rules path of `CI.TestE2E`
makes no pairing lookup and passes the `IsPaired` of the fresh context for a job that is
neither periodic nor a rehearsal, and of the context as it was for a periodic or rehearsal
job. -/
theorem IsPaired_at_engine_calls (w : World) (s : State) :
    ((w.GetChangedFiles s.rctx.RepoName).2 = none →
      s.rctx.RepoName = "release-service-catalog" →
      engineCtxs (emitted s (RunE2ETests w s).2) =
        [{ s.rctx with
          DiffFiles := (w.GetChangedFiles s.rctx.RepoName).1,
          IsPaired := (isPRPairingRequired w "release-service" s).1 }] ∧
      pairedBeforeEngine (emitted s (RunE2ETests w s).2) = true) ∧
    ((w.GetChangedFiles s.rctx.RepoName).2 = none →
      s.rctx.RepoName = "infra-deployments" →
      engineCtxs (emitted s (RunE2ETests w s).2) =
        [{ s.rctx with DiffFiles := (w.GetChangedFiles s.rctx.RepoName).1 }] ∧
      pairedBeforeEngine (emitted s (RunE2ETests w s).2) = false) ∧
    (∀ ctx ∈ engineCtxs (emitted s (Local.PreviewTestSelection w s).2),
      ctx.IsPaired = w.NewRuleCtx.IsPaired) ∧
    (∀ ctx ∈ engineCtxs (emitted s (Local.RunRuleDemo w s).2),
      ctx.IsPaired = w.NewRuleCtx.IsPaired) ∧
    (∀ ctx ∈ engineCtxs (emitted s (Local.RunInfraDeploymentsRuleDemo w s).2),
      ctx.IsPaired = w.NewRuleCtx.IsPaired) ∧
    (∀ e, e ∈ emitted s (Local.PreviewTestSelection w s).2 ∨
        e ∈ emitted s (Local.RunRuleDemo w s).2 ∨
        e ∈ emitted s (Local.RunInfraDeploymentsRuleDemo w s).2 →
      Event.isPairingLookup e = false) ∧
    (∀ r s', CI.TestE2E w s = some (r, s') →
      ∀ cat ctx, Event.RunRulesOfCategory cat ctx ∈ emitted s s' →
        (s.jobType = "periodic" ∨ strContains s.jobName "rehearse" = true →
          ctx.IsPaired = s.rctx.IsPaired) ∧
        (¬ (s.jobType = "periodic" ∨ strContains s.jobName "rehearse" = true) →
          ctx.IsPaired = w.NewRuleCtx.IsPaired) ∧
        ∀ e ∈ emitted s s', Event.isPairingLookup e = false) := by
  refine ⟨?_, ?_, ?_, ?_, ?_, ?_, ?_⟩
  · intro hfiles hrepo
    obtain ⟨⟨pevs, htr, hkey⟩, hr, -, -, -, -⟩ :=
      isPRPairingRequired_quiet w "release-service" (RunE2ETests.lookup w s)
    obtain ⟨rest, htr2⟩ := isPRPairingRequired_trace w "release-service" (RunE2ETests.lookup w s)
    have hc := isPRPairingRequired_congr w "release-service" s (RunE2ETests.lookup w s) rfl
    have hpevs : pevs =
        Event.sendHttpRequestAndParseResponse (pairingUrl "release-service") "GET" :: rest :=
      List.append_cancel_left (htr.symm.trans htr2)
    have hem : emitted s (RunE2ETests w s).2 =
        [Event.GetChangedFiles s.rctx.RepoName] ++
          Event.sendHttpRequestAndParseResponse (pairingUrl "release-service") "GET" ::
            (rest ++ [Event.RunRules { s.rctx with
              DiffFiles := (w.GetChangedFiles s.rctx.RepoName).1,
              IsPaired := (isPRPairingRequired w "release-service" s).1 }
              "tests" "release-service-catalog"]) := by
      apply emitted_append
      unfold RunE2ETests
      simp only [hfiles]
      simp only [lookup_rctx]
      rw [if_pos hrepo]
      simp only [emit_trace, setIsPaired_trace, setIsPaired_rctx, htr2, lookup_trace, hr, hc,
        lookup_rctx, List.append_assoc, List.cons_append, List.nil_append]
    have hrest : engineCtxs rest = [] := by
      have h1 : ∀ e ∈ rest, Event.isKey e = false := fun e he =>
        hkey e (by rw [hpevs]; exact List.mem_cons_of_mem _ he)
      unfold engineCtxs
      rw [List.filterMap_eq_nil_iff]
      intro e he
      have := h1 e he
      cases e <;> simp_all [Event.isKey, Event.engineCtx]
    refine ⟨?_, ?_⟩
    · rw [hem]
      unfold engineCtxs at hrest ⊢
      simp only [List.filterMap_append, List.filterMap_cons, hrest]
      simp [Event.engineCtx]
    · rw [hem]
      apply pairedBeforeEngine_append_lookup
      intro e he
      simp only [List.mem_singleton] at he
      subst he
      rfl
  · intro hfiles hrepo
    have hem := RunE2ETests_infra_emitted w s hfiles hrepo
    rw [hem]
    refine ⟨?_, ?_⟩
    · simp [engineCtxs, Event.engineCtx]
    · simp [pairedBeforeEngine, Event.isPairingLookup, Event.engineCtx]
  · rw [PreviewTestSelection_emitted]
    rcases h : w.GetChangedFiles "e2e-tests" with ⟨files, _ | err⟩ <;>
      simp [engineCtxs, Event.engineCtx]
  · rw [RunRuleDemo_emitted]
    rcases h : w.GetChangedFiles "e2e-tests" with ⟨files, _ | err⟩ <;>
      simp [engineCtxs, Event.engineCtx]
  · rw [RunInfraDeploymentsRuleDemo_emitted]
    rcases h : w.GetChangedFiles "infra-deployments" with ⟨files, _ | err⟩ <;>
      simp [engineCtxs, Event.engineCtx]
  · intro e he
    rcases he with he | he | he
    · rw [PreviewTestSelection_emitted] at he
      rcases h : w.GetChangedFiles "e2e-tests" with ⟨files, _ | err⟩
      · rw [h] at he
        simp only [List.mem_cons, List.mem_singleton, List.not_mem_nil, or_false] at he
        rcases he with rfl | rfl <;> rfl
      · rw [h] at he
        simp only [List.mem_cons, List.mem_singleton, List.not_mem_nil, or_false] at he
        rcases he with rfl | rfl <;> rfl
    · rw [RunRuleDemo_emitted] at he
      rcases h : w.GetChangedFiles "e2e-tests" with ⟨files, _ | err⟩
      · rw [h] at he
        simp only [List.mem_cons, List.mem_singleton, List.not_mem_nil, or_false] at he
        rcases he with rfl | rfl <;> rfl
      · rw [h] at he
        simp only [List.mem_cons, List.mem_singleton, List.not_mem_nil, or_false] at he
        rcases he with rfl | rfl <;> rfl
    · rw [RunInfraDeploymentsRuleDemo_emitted] at he
      rcases h : w.GetChangedFiles "infra-deployments" with ⟨files, _ | err⟩
      · rw [h] at he
        simp only [List.mem_cons, List.mem_singleton, List.not_mem_nil, or_false] at he
        rcases he with rfl | rfl <;> rfl
      · rw [h] at he
        simp only [List.mem_singleton] at he
        subst he
        rfl
  · intro r s' h cat ctx hmem
    obtain ⟨s1, s2, hinit, hbundle, hctx, hs'⟩ := CI_TestE2E_rules_call w s s' r h cat ctx hmem
    have hq := SetupCustomBundle_quiet w s1
    rw [hbundle] at hq
    refine ⟨?_, ?_, ?_⟩
    · intro hjob
      have hs1 : s1 = s := by
        unfold CI.init at hinit
        rw [if_pos hjob] at hinit
        simp only [Option.some.injEq, Prod.mk.injEq, true_and] at hinit
        exact hinit.symm
      rw [hctx, hq.rctx, hs1]
    · intro hjob
      obtain ⟨s3, s4, -, -, hfill⟩ := CI_init_ok w s s1 hjob hinit
      rw [hctx, hq.rctx, hfill, initRuleCtx_rctx]
    · obtain ⟨evs1, htr1, hl1⟩ := CI_init_lookup w s s1 hinit
      obtain ⟨evs2, htr2, hl2⟩ := SetupCustomBundle_lookup w s1
      rw [hbundle] at htr2
      have hem : emitted s s' = evs1 ++ evs2 ++ [Event.RunRulesOfCategory "ci" s2.rctx] := by
        apply emitted_append
        rw [hs', emit_trace, htr2, htr1]
        simp only [List.append_assoc]
      rw [hem]
      intro e he
      simp only [List.mem_append, List.mem_singleton] at he
      rcases he with (he | he) | he
      · exact hl1 e he
      · exact hl2 e he
      · subst he
        rfl

/-- C3, at a concrete input: on the `release-service-catalog` branch the engine receives the
result of the pairing lookup, here true. -/
theorem IsPaired_at_engine_calls_witness :
    engineCtxs (emitted
      { State.start (envOf []) with
        pr := { PullRequestMetadata.zero with BranchName := "feature", RemoteName := "dev" }
        rctx := { RuleCtx.zero with RepoName := "release-service-catalog" } }
      (RunE2ETests pairedWorld
        { State.start (envOf []) with
          pr := { PullRequestMetadata.zero with BranchName := "feature", RemoteName := "dev" }
          rctx := { RuleCtx.zero with RepoName := "release-service-catalog" } }).2) =
      [{ RuleCtx.zero with RepoName := "release-service-catalog", IsPaired := true }] :=
  ((IsPaired_at_engine_calls pairedWorld
    { State.start (envOf []) with
      pr := { PullRequestMetadata.zero with BranchName := "feature", RemoteName := "dev" }
      rctx := { RuleCtx.zero with RepoName := "release-service-catalog" } }).1 rfl rfl).1.trans
    (by decide)

/-- C3 fails on the path of `CI.TestE2E` for `infra-deployments`: the run reaches the rule
engine without any pairing lookup and hands it `IsPaired = false`, although a pairing lookup
for the companion repository answers true. -/
theorem IsPaired_not_assigned :
    (CI.TestE2E pairedWorld (State.start (envOf pairedEnv))).map
      (fun p => engineCtxs p.2.trace) = some [pairedCtx] ∧
    pairedCtx.IsPaired = false ∧
    (CI.TestE2E pairedWorld (State.start (envOf pairedEnv))).map
      (fun p => pairedBeforeEngine p.2.trace) = some false ∧
    (CI.TestE2E pairedWorld (State.start (envOf pairedEnv))).map
      (fun p => (isPRPairingRequired pairedWorld "infra-deployments" p.2).1) = some true := by
  decide

/-! ## Concrete runs -/

/-- C1, at a concrete input: `Local.PreviewTestSelection` calls the engine once, with
`DryRun = true`. -/
theorem preview_targets_DryRun_witness :
    ∃ ctx, engineCtxs (emitted (State.start (envOf []))
      (Local.PreviewTestSelection quietWorld (State.start (envOf []))).2) = [ctx] ∧
      ctx.DryRun = true :=
  (preview_targets_DryRun quietWorld (State.start (envOf []))).1.2 rfl

/-- C5, at a concrete input: for `release-service-catalog`, `RunE2ETests` returns what the
engine returns, here nil. -/
theorem RunE2ETests_dispatch_witness :
    (RunE2ETests quietWorld
      { State.start (envOf []) with
        rctx := { RuleCtx.zero with RepoName := "release-service-catalog" } }).1 = none :=
  ((RunE2ETests_dispatch quietWorld
    { State.start (envOf []) with
      rctx := { RuleCtx.zero with RepoName := "release-service-catalog" } } rfl).1 rfl).1.trans
    rfl

/-- C6, at a concrete input: the error of the engine is the error of
`Local.PreviewTestSelection`. -/
theorem engine_error_is_returned_witness :
    (Local.PreviewTestSelection failingWorld (State.start (envOf []))).1 =
      some "engine failed" :=
  ((engine_error_is_returned failingWorld (State.start (envOf []))).1 rfl).trans rfl

/-- C7, at a concrete input: a presubmit job under Konflux CI. -/
theorem CI_init_fills_rctx_witness :
    ∃ s', CI.init rulesWorld (State.start (envOf ciEnv)) = some (none, s') ∧
      s'.rctx.Parallel = true ∧ s'.rctx.OutputDir = "." ∧
      s'.rctx.JUnitReport = "e2e-report.xml" :=
  ⟨_, rfl,
    (CI_init_fills_rctx rulesWorld (State.start (envOf ciEnv)) _ (by decide) rfl).1,
    (CI_init_fills_rctx rulesWorld (State.start (envOf ciEnv)) _ (by decide) rfl).2.1,
    (CI_init_fills_rctx rulesWorld (State.start (envOf ciEnv)) _ (by decide) rfl).2.2.1⟩

/-! ## Dry run of the cleanup of the GitHub organisation -/

theorem deletedRepos_append (a b : List Event) :
    deletedRepos (a ++ b) = deletedRepos a ++ deletedRepos b := by
  simp [deletedRepos, List.filterMap_append]

theorem deleteRepos_dryRun_deleted (w : World) (repos : List Repository) (s : State) :
    deletedRepos (deleteRepos w true repos s).trace = deletedRepos s.trace := by
  have h := deleteRepos_deleted w true repos s
  simpa using h

/-- C11: when `DRY_RUN` parses to true, `Local.CleanupGithubOrg` never calls
`DeleteRepository`, whatever repositories are fetched and whatever the expression is: every
call it makes creates the client, fetches the repositories or writes a log line, so the
repositories of the organisation are left as they were and the selected names are only
logged. -/
theorem CleanupGithubOrg_dryRun (w : World) (s : State)
    (hdry : ParseBool (GetEnv s.env "DRY_RUN" "true") = Except.ok true) :
    deletedRepos (emitted s (Local.CleanupGithubOrg w s).2) = [] ∧
    (∀ ev ∈ emitted s (Local.CleanupGithubOrg w s).2,
      (∃ level msg, ev = Event.klog level msg) ∨
      (∃ args, ev = Event.external "github.NewGithubClient" args) ∨
      ev = Event.external "ghClient.GetAllRepositories" []) ∧
    (∀ repos r, Getenv s.env "GITHUB_TOKEN" ≠ "" →
      w.NewGithubClient (Getenv s.env "GITHUB_TOKEN")
        (GetEnv s.env w.GITHUB_E2E_ORGANIZATION_ENV "redhat-appstudio-qe") = none →
      w.GetAllRepositories = Except.ok repos →
      w.regexpCompile (GetEnv s.env "REPO_REGEX" reposToDeleteDefaultRegexp) = Except.ok r →
      (Local.CleanupGithubOrg w s).1 = none ∧
      (emitted s (Local.CleanupGithubOrg w s).2).filterMap
          (fun ev => match ev with
            | Event.klog "Info" msg => some msg
            | _ => none) =
        ["Dry run enabled. Listing repositories that would be deleted:"] ++
          (filterAt w r s.clock repos).map (fun repo => "\t" ++ repo.GetName) ++
          ["If you really want to delete these repositories, run " ++
            "`DRY_RUN=false [REGEXP=<regexp>] mage local:cleanupGithubOrg`"]) := by
  have hshape : ∃ evs, (Local.CleanupGithubOrg w s).2.trace = s.trace ++ evs ∧
      ∀ ev ∈ evs, (∃ level msg, ev = Event.klog level msg) ∨
        (∃ args, ev = Event.external "github.NewGithubClient" args) ∨
        ev = Event.external "ghClient.GetAllRepositories" [] := by
    by_cases htoken : Getenv s.env "GITHUB_TOKEN" = ""
    · refine ⟨[], ?_, by simp⟩
      unfold Local.CleanupGithubOrg
      simp only [htoken, if_true, List.append_nil]
    · rcases hclient : w.NewGithubClient (Getenv s.env "GITHUB_TOKEN")
          (GetEnv s.env w.GITHUB_E2E_ORGANIZATION_ENV "redhat-appstudio-qe") with _ | err
      · rcases hrepos : w.GetAllRepositories with err | repos
        · refine ⟨[Event.external "github.NewGithubClient" [Getenv s.env "GITHUB_TOKEN",
            GetEnv s.env w.GITHUB_E2E_ORGANIZATION_ENV "redhat-appstudio-qe"],
            Event.external "ghClient.GetAllRepositories" []], ?_, ?_⟩
          · unfold Local.CleanupGithubOrg
            simp only [if_neg htoken, hdry, hclient, hrepos, emit_trace, List.append_assoc]
            rfl
          · intro ev hev
            simp only [List.mem_cons, List.mem_singleton, List.not_mem_nil, or_false] at hev
            rcases hev with rfl | rfl
            · exact Or.inr (Or.inl ⟨_, rfl⟩)
            · exact Or.inr (Or.inr rfl)
        · rcases hregex : w.regexpCompile
              (GetEnv s.env "REPO_REGEX" reposToDeleteDefaultRegexp) with err | r
          · refine ⟨[Event.external "github.NewGithubClient" [Getenv s.env "GITHUB_TOKEN",
              GetEnv s.env w.GITHUB_E2E_ORGANIZATION_ENV "redhat-appstudio-qe"],
              Event.external "ghClient.GetAllRepositories" []], ?_, ?_⟩
            · unfold Local.CleanupGithubOrg
              simp only [if_neg htoken, hdry, hclient, hrepos, emit_env, hregex, emit_trace,
                List.append_assoc]
              rfl
            · intro ev hev
              simp only [List.mem_cons, List.mem_singleton, List.not_mem_nil, or_false] at hev
              rcases hev with rfl | rfl
              · exact Or.inr (Or.inl ⟨_, rfl⟩)
              · exact Or.inr (Or.inr rfl)
          · have hrun := CleanupGithubOrg_run w s true repos r htoken hdry hclient hrepos hregex
            refine ⟨[Event.external "github.NewGithubClient" [Getenv s.env "GITHUB_TOKEN",
                GetEnv s.env w.GITHUB_E2E_ORGANIZATION_ENV "redhat-appstudio-qe"],
                Event.external "ghClient.GetAllRepositories" [],
                Event.klog "Info"
                  "Dry run enabled. Listing repositories that would be deleted:"] ++
              (filterAt w r s.clock repos).map
                (fun repo => Event.klog "Info" ("\t" ++ repo.GetName)) ++
              [Event.klog "Info" ("If you really want to delete these repositories, run " ++
                "`DRY_RUN=false [REGEXP=<regexp>] mage local:cleanupGithubOrg`")], ?_, ?_⟩
            · rw [hrun]
              simp only [if_true, emit_trace, deleteRepos_dryRun_trace]
              simp [emit]
            · intro ev hev
              simp only [List.mem_append, List.mem_cons, List.mem_singleton, List.not_mem_nil,
                or_false, List.mem_map] at hev
              rcases hev with ((rfl | rfl | rfl) | ⟨repo, -, rfl⟩) | rfl
              · exact Or.inr (Or.inl ⟨_, rfl⟩)
              · exact Or.inr (Or.inr rfl)
              · exact Or.inl ⟨_, _, rfl⟩
              · exact Or.inl ⟨_, _, rfl⟩
              · exact Or.inl ⟨_, _, rfl⟩
      · refine ⟨[Event.external "github.NewGithubClient" [Getenv s.env "GITHUB_TOKEN",
          GetEnv s.env w.GITHUB_E2E_ORGANIZATION_ENV "redhat-appstudio-qe"]], ?_, ?_⟩
        · unfold Local.CleanupGithubOrg
          simp only [if_neg htoken, hdry, hclient, emit_trace]
        · intro ev hev
          simp only [List.mem_singleton] at hev
          subst hev
          exact Or.inr (Or.inl ⟨_, rfl⟩)
  obtain ⟨evs, htr, hall⟩ := hshape
  rw [emitted_append s _ evs htr]
  refine ⟨?_, hall, ?_⟩
  · unfold deletedRepos
    rw [List.filterMap_eq_nil_iff]
    intro ev hev
    rcases hall ev hev with ⟨_, _, rfl⟩ | ⟨_, rfl⟩ | rfl <;> rfl
  · intro repos r htoken hclient hrepos hregex
    have hrun := CleanupGithubOrg_run w s true repos r htoken hdry hclient hrepos hregex
    have hevs : evs = [Event.external "github.NewGithubClient" [Getenv s.env "GITHUB_TOKEN",
          GetEnv s.env w.GITHUB_E2E_ORGANIZATION_ENV "redhat-appstudio-qe"],
          Event.external "ghClient.GetAllRepositories" [],
          Event.klog "Info" "Dry run enabled. Listing repositories that would be deleted:"] ++
        (filterAt w r s.clock repos).map
          (fun repo => Event.klog "Info" ("\t" ++ repo.GetName)) ++
        [Event.klog "Info" ("If you really want to delete these repositories, run " ++
          "`DRY_RUN=false [REGEXP=<regexp>] mage local:cleanupGithubOrg`")] := by
      refine List.append_cancel_left (?_ : s.trace ++ evs = s.trace ++ _)
      rw [← htr, hrun]
      simp only [if_true, emit_trace, deleteRepos_dryRun_trace]
      simp [emit]
    refine ⟨by rw [hrun], ?_⟩
    rw [hevs]
    simp only [List.filterMap_append, List.filterMap_map, Function.comp_def,
      List.filterMap_cons, List.filterMap_nil, List.nil_append]
    congr 1
    congr 1
    exact congrFun (List.filterMap_eq_map (fun repo : Repository => "\t" ++ repo.GetName)) _

/-- C11, at a concrete input: with `DRY_RUN=1` no repository of `cleanupWorld` is deleted,
although three of them are selected. -/
theorem CleanupGithubOrg_dryRun_witness :
    deletedRepos (emitted (State.start (envOf [("GITHUB_TOKEN", "token"), ("DRY_RUN", "1")]))
      (Local.CleanupGithubOrg cleanupWorld
        (State.start (envOf [("GITHUB_TOKEN", "token"), ("DRY_RUN", "1")]))).2) = [] :=
  (CleanupGithubOrg_dryRun cleanupWorld
    (State.start (envOf [("GITHUB_TOKEN", "token"), ("DRY_RUN", "1")])) rfl).1

/-! ## The two paths of `CI.TestE2E` -/

theorem hasCIRules_iff (repoName : String) :
    hasCIRules repoName = true ↔
      repoName ∈ ["e2e-tests", "integration-service", "release-service", "image-controller",
        "build-service", "release-service-catalog"] := by
  simp [hasCIRules, or_assoc]

/-- C17: after `ci.init` and `SetupCustomBundle` succeed, `CI.TestE2E` takes the rules path
exactly when `pr.RepoName` is one of `e2e-tests`, `integration-service`, `release-service`,
`image-controller`, `build-service` and `release-service-catalog`.  On the rules path it
returns the result of `RunRulesOfCategory("ci", rctx)` and makes no other call after
`SetupCustomBundle`; for every other repository name it follows the path of the repositories
without rules and never calls `RunRulesOfCategory`. -/
theorem CI_TestE2E_paths (w : World) (s s1 s2 : State)
    (hinit : CI.init w s = some (none, s1))
    (hbundle : SetupCustomBundle w s1 = (none, s2)) :
    s2.pr = s1.pr ∧
    (hasCIRules s2.pr.RepoName = true ↔
      s2.pr.RepoName ∈ ["e2e-tests", "integration-service", "release-service",
        "image-controller", "build-service", "release-service-catalog"]) ∧
    (hasCIRules s2.pr.RepoName = true →
      CI.TestE2E w s =
        some (w.RunRulesOfCategory "ci" s2.rctx,
          emit (Event.RunRulesOfCategory "ci" s2.rctx) s2) ∧
      emitted s2 (emit (Event.RunRulesOfCategory "ci" s2.rctx) s2) =
        [Event.RunRulesOfCategory "ci" s2.rctx]) ∧
    (hasCIRules s2.pr.RepoName = false →
      CI.TestE2E w s = some (CI.TestE2E.legacy w s2) ∧
      ∀ cat ctx, Event.RunRulesOfCategory cat ctx ∉ emitted s (CI.TestE2E.legacy w s2).2) := by
  have hq := SetupCustomBundle_quiet w s1
  rw [hbundle] at hq
  refine ⟨hq.pr, hasCIRules_iff _, ?_, ?_⟩
  · intro hrules
    refine ⟨?_, ?_⟩
    · unfold CI.TestE2E
      rw [hinit]
      simp only [hbundle, hrules, if_true]
    · apply emitted_append
      rfl
  · intro hrules
    have hrun : CI.TestE2E w s = some (CI.TestE2E.legacy w s2) := by
      unfold CI.TestE2E
      rw [hinit]
      simp only [hbundle, hrules, Bool.false_eq_true, if_false]
    refine ⟨hrun, ?_⟩
    intro cat ctx hmem
    obtain ⟨quiet, tail, hem, hquiet, hcase⟩ :=
      CI_TestE2E_emitted w s (CI.TestE2E.legacy w s2).2 (CI.TestE2E.legacy w s2).1 hrun
    rw [hem] at hmem
    rcases List.mem_append.1 hmem with h1 | h1
    · have := hquiet _ h1
      cases this
    · rcases hcase with rfl | ⟨t2, rfl, hci, -, -⟩ | ⟨-, hno⟩
      · cases h1
      · -- the rules path is excluded: the calls so far would end with the call of the engine
        obtain ⟨t2', evs, htr, hk, hcases⟩ :=
          CI_TestE2E_cases w s (CI.TestE2E.legacy w s2).2 (CI.TestE2E.legacy w s2).1 hrun
        exact absurd hci (by
          intro hci
          have hlegacy := legacy_cases w s2
          obtain ⟨⟨e1, ht1, hk1⟩, -⟩ := CI_init_cases w s s1 none hinit
          obtain ⟨⟨e2, ht2, hk2⟩, -, -, -, -, -⟩ := hq
          have hkey : Event.isKey (Event.RunRulesOfCategory "ci" t2.rctx) = true := rfl
          rcases hlegacy with ⟨-, hqq⟩ | ⟨s3, hq3, hst, -⟩
          · obtain ⟨⟨e3, ht3, hk3⟩, -, -, -, -, -⟩ := hqq
            have hall : emitted s (CI.TestE2E.legacy w s2).2 = e1 ++ e2 ++ e3 := by
              apply emitted_append
              rw [ht3, ht2, ht1]
              simp only [List.append_assoc]
            rw [hall] at hem
            have hin : Event.RunRulesOfCategory "ci" t2.rctx ∈ e1 ++ e2 ++ e3 := by
              rw [hem]
              simp
            simp only [List.mem_append] at hin
            rcases hin with (h | h) | h
            · rw [hk1 _ h] at hkey
              cases hkey
            · rw [hk2 _ h] at hkey
              cases hkey
            · rw [hk3 _ h] at hkey
              cases hkey
          · obtain ⟨⟨e3, ht3, hk3⟩, -, -, -, -, -⟩ := hq3
            obtain ⟨revs, hrtr, -, hnocat, -⟩ := RunE2ETests_answers w s3
            have hall : emitted s (CI.TestE2E.legacy w s2).2 = e1 ++ e2 ++ e3 ++ revs := by
              apply emitted_append
              rw [hst, hrtr, ht3, ht2, ht1]
              simp only [List.append_assoc]
            rw [hall] at hem
            have hin : Event.RunRulesOfCategory "ci" t2.rctx ∈ e1 ++ e2 ++ e3 ++ revs := by
              rw [hem]
              simp
            simp only [List.mem_append] at hin
            rcases hin with ((h | h) | h) | h
            · rw [hk1 _ h] at hkey
              cases hkey
            · rw [hk2 _ h] at hkey
              cases hkey
            · rw [hk3 _ h] at hkey
              cases hkey
            · exact hnocat _ h _ _ rfl)
      · exact absurd rfl (hno _ h1 cat ctx)

/-- C17, at a concrete input: the pull request of `e2e-tests` under Konflux CI takes the rules
path, and `CI.TestE2E` returns what the engine returns, here nil. -/
theorem CI_TestE2E_paths_witness :
    ∃ s2 : State, s2.pr.RepoName = "e2e-tests" ∧
      CI.TestE2E rulesWorld (State.start (envOf ciEnv)) =
        some (rulesWorld.RunRulesOfCategory "ci" s2.rctx,
          emit (Event.RunRulesOfCategory "ci" s2.rctx) s2) :=
  ⟨_, rfl,
    ((CI_TestE2E_paths rulesWorld (State.start (envOf ciEnv)) _ _ rfl rfl).2.2.1 rfl).1⟩

/-! ## Upgrade tests and registration in SprayProxy -/

/-- C13 fails on the code: in a run of `Local.TestUpgrade` in which every step succeeds, the
calls after the preflight checks are bootstrap, operator check, upgrade, operator check.  The
test binary is never run, so neither the workload is created (`upgrade-create`) nor verified
(`upgrade-verify`), which `CreateWorkload` and `VerifyWorkload` would do. -/
theorem TestUpgrade_skips_workload :
    (Local.TestUpgrade quietWorld (State.start (envOf upgradeEnv))).1 = none ∧
    (Local.TestUpgrade quietWorld (State.start (envOf upgradeEnv))).2.trace =
      [Event.shRun "which" ["jq"], Event.shRun "which" ["kubectl"], Event.shRun "which" ["oc"],
        Event.shRun "which" ["yq"], Event.shRun "which" ["git"],
        Event.shRun "go" ["install", "-mod=mod", "github.com/onsi/ginkgo/v2/ginkgo"],
        Event.external "installation.NewAppStudioInstallController" [],
        Event.external "ic.InstallAppStudioPreviewMode" [],
        Event.external "ic.CheckOperatorsReady" [],
        Event.external "MergePRInRemote" ["", "redhat-appstudio", "./tmp/infra-deployments"],
        Event.external "ic.CheckOperatorsReady" []] ∧
    labelFilters (Local.TestUpgrade quietWorld (State.start (envOf upgradeEnv))).2.trace = [] ∧
    labelFilters (CreateWorkload quietWorld (State.start (envOf upgradeEnv))).2.trace =
      ["--label-filter=upgrade-create"] ∧
    labelFilters (VerifyWorkload quietWorld (State.start (envOf upgradeEnv))).2.trace =
      ["--label-filter=upgrade-verify"] := by
  decide

/-- C14 fails on the code: for a presubmit job of `release-service` with `CI=true`,
`requiresSprayProxyRegistering` is false after `setRequiredEnvVars` and stays false, and
`BootstrapCluster` registers the PaC server in SprayProxy all the same. -/
theorem BootstrapCluster_registers_without_flag :
    (setRequiredEnvVars quietWorld
      (State.start (envOf releaseJobEnv))).2.requiresSprayProxyRegistering = false ∧
    (BootstrapCluster quietWorld
      (State.start (envOf releaseJobEnv))).2.requiresSprayProxyRegistering = false ∧
    (BootstrapCluster quietWorld (State.start (envOf releaseJobEnv))).1 = none ∧
    Event.external "sprayProxyConfig.RegisterServer" ["pac-host"] ∈
      (BootstrapCluster quietWorld (State.start (envOf releaseJobEnv))).2.trace := by
  decide

/-- C18 fails on the code: `CleanWorkload` passes ginkgo the report name of `VerifyWorkload`,
`upgrade-verify-report.xml`, with the label `upgrade-cleanup`. -/
theorem CleanWorkload_reuses_report :
    junitReports (CreateWorkload quietWorld (State.start (envOf []))).2.trace =
      ["--junit-report=upgrade-create-report.xml"] ∧
    junitReports (VerifyWorkload quietWorld (State.start (envOf []))).2.trace =
      ["--junit-report=upgrade-verify-report.xml"] ∧
    junitReports (CleanWorkload quietWorld (State.start (envOf []))).2.trace =
      ["--junit-report=upgrade-verify-report.xml"] ∧
    labelFilters (CleanWorkload quietWorld (State.start (envOf []))).2.trace =
      ["--label-filter=upgrade-cleanup"] := by
  decide

/-! ## Cleanup of GitHub webhooks -/

@[simp] theorem emit_clock (e : Event) (s : State) : (emit e s).clock = s.clock := rfl

theorem oldHooksAt_const (w : World) (now : Int) (h : ∀ k, w.Now k = now) (hooks : List Hook) :
    ∀ k, oldHooksAt w k hooks = hooks.filter (hookIsOld now) := by
  induction hooks with
  | nil =>
    intro k
    rfl
  | cons wh rest ih =>
    intro k
    unfold oldHooksAt
    rw [h k, ih (k + 1), List.filter_cons]

/-- The calls of the inner loop of `CleanGitHubWebHooks`, over the webhooks of one
repository. -/
theorem cleanRepoWebhooks_calls (w : World) (githubOrg repo : String) (hooks : List Hook) :
    ∀ s : State, ∃ evs,
      (cleanRepoWebhooks w githubOrg repo hooks s).2.trace = s.trace ++ evs ∧
      ((cleanRepoWebhooks w githubOrg repo hooks s).1 = none →
        evs.filter Event.isDeleteWebhook =
          (oldHooksAt w s.clock hooks).map (fun wh => Event.DeleteWebhook repo wh.GetID) ∧
        (cleanRepoWebhooks w githubOrg repo hooks s).2.clock = s.clock + hooks.length ∧
        ∀ e ∈ evs, w.fails e = false) ∧
      ((cleanRepoWebhooks w githubOrg repo hooks s).1 ≠ none →
        ∃ pre id, evs = pre ++ [Event.DeleteWebhook repo id] ∧
          (w.DeleteWebhook repo id).isSome = true ∧ ∀ e ∈ pre, w.fails e = false) := by
  induction hooks with
  | nil =>
    intro s
    exact ⟨[], by simp [cleanRepoWebhooks], by simp [cleanRepoWebhooks, oldHooksAt],
      by simp [cleanRepoWebhooks]⟩
  | cons wh rest ih =>
    intro s
    have hage : (timeSince w wh.GetCreatedAt s).1 > dayDuration ↔
        hookIsOld (w.Now s.clock) wh = true := by
      rw [hookIsOld, decide_eq_true_iff]
      exact timeSub_gt_day _ _
    have hstate : (timeSince w wh.GetCreatedAt s).2 = { s with clock := s.clock + 1 } := rfl
    by_cases hold : hookIsOld (w.Now s.clock) wh = true
    · rcases hdel : w.DeleteWebhook repo wh.GetID with _ | derr
      · obtain ⟨evs, htr, hnone, hsome⟩ := ih
          (emit (Event.DeleteWebhook repo wh.GetID)
            (emit (Event.klog "Info" ("removing webhook: " ++ wh.GetName ++
              ", git_organization: " ++ githubOrg ++ ", git_repository: " ++ repo))
              { s with clock := s.clock + 1 }))
        have hrun : cleanRepoWebhooks w githubOrg repo (wh :: rest) s =
            cleanRepoWebhooks w githubOrg repo rest
              (emit (Event.DeleteWebhook repo wh.GetID)
                (emit (Event.klog "Info" ("removing webhook: " ++ wh.GetName ++
                  ", git_organization: " ++ githubOrg ++ ", git_repository: " ++ repo))
                  { s with clock := s.clock + 1 })) := by
          rw [cleanRepoWebhooks]
          simp only [if_pos (hage.2 hold), hstate, hdel]
        rw [hrun]
        refine ⟨Event.klog "Info" ("removing webhook: " ++ wh.GetName ++
            ", git_organization: " ++ githubOrg ++ ", git_repository: " ++ repo) ::
          Event.DeleteWebhook repo wh.GetID :: evs, ?_, ?_, ?_⟩
        · rw [htr]
          simp only [emit_trace, List.append_assoc]
          rfl
        · intro h
          obtain ⟨hdels, hclock, hok⟩ := hnone h
          refine ⟨?_, ?_, ?_⟩
          · rw [oldHooksAt, if_pos hold]
            simp only [List.filter_cons, Event.isDeleteWebhook, Bool.false_eq_true, if_false,
              if_true, List.map_cons]
            rw [hdels]
            rfl
          · rw [hclock]
            simp only [emit_clock, List.length_cons]
            omega
          · intro e he
            simp only [List.mem_cons] at he
            rcases he with rfl | rfl | he
            · rfl
            · simp [World.fails, hdel]
            · exact hok e he
        · intro h
          obtain ⟨pre, id, hevs, hfail, hok⟩ := hsome h
          refine ⟨Event.klog "Info" ("removing webhook: " ++ wh.GetName ++
              ", git_organization: " ++ githubOrg ++ ", git_repository: " ++ repo) ::
            Event.DeleteWebhook repo wh.GetID :: pre, id, by rw [hevs]; rfl, hfail, ?_⟩
          intro e he
          simp only [List.mem_cons] at he
          rcases he with rfl | rfl | he
          · rfl
          · simp [World.fails, hdel]
          · exact hok e he
      · have hrun : cleanRepoWebhooks w githubOrg repo (wh :: rest) s =
            (some ("failed to delete webhook: " ++ w.sprintNamePointer wh ++ ", repo: " ++ repo),
              emit (Event.DeleteWebhook repo wh.GetID)
                (emit (Event.klog "Info" ("removing webhook: " ++ wh.GetName ++
                  ", git_organization: " ++ githubOrg ++ ", git_repository: " ++ repo))
                  { s with clock := s.clock + 1 })) := by
          rw [cleanRepoWebhooks]
          simp only [if_pos (hage.2 hold), hstate, hdel]
        rw [hrun]
        refine ⟨[Event.klog "Info" ("removing webhook: " ++ wh.GetName ++
            ", git_organization: " ++ githubOrg ++ ", git_repository: " ++ repo),
          Event.DeleteWebhook repo wh.GetID], ?_, ?_, ?_⟩
        · simp only [emit_trace, List.append_assoc]
          rfl
        · intro h
          cases h
        · intro _
          refine ⟨[Event.klog "Info" ("removing webhook: " ++ wh.GetName ++
            ", git_organization: " ++ githubOrg ++ ", git_repository: " ++ repo)], wh.GetID,
            rfl, by rw [hdel]; rfl, ?_⟩
          intro e he
          rw [List.mem_singleton] at he
          subst he
          rfl
    · obtain ⟨evs, htr, hnone, hsome⟩ := ih { s with clock := s.clock + 1 }
      have hrun : cleanRepoWebhooks w githubOrg repo (wh :: rest) s =
          cleanRepoWebhooks w githubOrg repo rest { s with clock := s.clock + 1 } := by
        rw [cleanRepoWebhooks]
        simp only [if_neg (fun h => hold (hage.1 h)), hstate]
      rw [hrun]
      refine ⟨evs, htr, ?_, hsome⟩
      intro h
      obtain ⟨hdels, hclock, hok⟩ := hnone h
      refine ⟨?_, ?_, hok⟩
      · rw [oldHooksAt, if_neg hold]
        exact hdels
      · rw [hclock]
        simp only [List.length_cons]
        omega

/-- The calls of the outer loop of `CleanGitHubWebHooks`, over the repositories. -/
theorem cleanWebhooksOf_calls (w : World) (githubOrg : String) (repos : List String) :
    ∀ s : State, ∃ evs,
      (cleanWebhooksOf w githubOrg repos s).2.trace = s.trace ++ evs ∧
      ((cleanWebhooksOf w githubOrg repos s).1 = none →
        evs.filter Event.isDeleteWebhook = expectedWebhookDeletes w s.clock repos ∧
        (∀ repo ∈ repos, ∃ hooks, w.ListRepoWebhooks repo = Except.ok hooks) ∧
        ∀ e ∈ evs, w.fails e = false) ∧
      ((cleanWebhooksOf w githubOrg repos s).1 ≠ none →
        ∃ pre last, evs = pre ++ [last] ∧ w.fails last = true ∧
          ∀ e ∈ pre, w.fails e = false) := by
  induction repos with
  | nil =>
    intro s
    exact ⟨[], by simp [cleanWebhooksOf], by simp [cleanWebhooksOf, expectedWebhookDeletes],
      by simp [cleanWebhooksOf]⟩
  | cons repo rest ih =>
    intro s
    rcases hlist : w.ListRepoWebhooks repo with err | hooks
    · have hrun : cleanWebhooksOf w githubOrg (repo :: rest) s =
          (some err, emit (Event.ListRepoWebhooks repo) s) := by
        rw [cleanWebhooksOf]
        simp only [hlist]
      rw [hrun]
      refine ⟨[Event.ListRepoWebhooks repo], rfl, ?_, ?_⟩
      · intro h
        cases h
      · intro _
        exact ⟨[], Event.ListRepoWebhooks repo, rfl, by simp [World.fails, hlist], by simp⟩
    · obtain ⟨evs1, htr1, hnone1, hsome1⟩ := cleanRepoWebhooks_calls w githubOrg repo hooks
        (emit (Event.ListRepoWebhooks repo) s)
      have hlistok : w.fails (Event.ListRepoWebhooks repo) = false := by
        simp [World.fails, hlist]
      rcases hinner : cleanRepoWebhooks w githubOrg repo hooks
          (emit (Event.ListRepoWebhooks repo) s) with ⟨res, s2⟩
      rw [hinner] at htr1 hnone1 hsome1
      cases res with
      | some err =>
        have hrun : cleanWebhooksOf w githubOrg (repo :: rest) s = (some err, s2) := by
          rw [cleanWebhooksOf]
          simp only [hlist, hinner]
        rw [hrun]
        refine ⟨Event.ListRepoWebhooks repo :: evs1, ?_, ?_, ?_⟩
        · rw [htr1, emit_trace, List.append_assoc]
          rfl
        · intro h
          cases h
        · intro _
          obtain ⟨pre, id, hevs, hfail, hok⟩ := hsome1 (by simp)
          refine ⟨Event.ListRepoWebhooks repo :: pre, Event.DeleteWebhook repo id,
            by rw [hevs]; rfl, hfail, ?_⟩
          intro e he
          rcases List.mem_cons.1 he with rfl | he
          · exact hlistok
          · exact hok e he
      | none =>
        have hrun : cleanWebhooksOf w githubOrg (repo :: rest) s =
            cleanWebhooksOf w githubOrg rest s2 := by
          rw [cleanWebhooksOf]
          simp only [hlist, hinner]
        obtain ⟨hdels1, hclock1, hok1⟩ := hnone1 rfl
        simp only [emit_clock] at hdels1 hclock1
        obtain ⟨evs2, htr2, hnone2, hsome2⟩ := ih s2
        rw [hrun]
        refine ⟨Event.ListRepoWebhooks repo :: (evs1 ++ evs2), ?_, ?_, ?_⟩
        · rw [htr2, htr1, emit_trace]
          simp only [List.append_assoc]
          rfl
        · intro h
          obtain ⟨hdels2, hlists, hok2⟩ := hnone2 h
          refine ⟨?_, ?_, ?_⟩
          · rw [expectedWebhookDeletes]
            simp only [hlist]
            rw [List.filter_cons, List.filter_append, hdels1, hdels2, hclock1]
            rfl
          · intro r hr
            rcases List.mem_cons.1 hr with rfl | hr
            · exact ⟨hooks, hlist⟩
            · exact hlists r hr
          · intro e he
            rcases List.mem_cons.1 he with rfl | he
            · exact hlistok
            · rcases List.mem_append.1 he with he | he
              · exact hok1 e he
              · exact hok2 e he
        · intro h
          obtain ⟨pre, last, hevs, hfail, hok⟩ := hsome2 h
          refine ⟨Event.ListRepoWebhooks repo :: (evs1 ++ pre), last, ?_, hfail, ?_⟩
          · rw [hevs]
            simp only [List.cons_append, List.append_assoc]
          · intro e he
            rcases List.mem_cons.1 he with rfl | he
            · exact hlistok
            · rcases List.mem_append.1 he with he | he
              · exact hok1 e he
              · exact hok e he

/-- C12: when `CleanGitHubWebHooks` returns nil, every list call succeeded, no call failed, and
its calls of `DeleteWebhook` are, repository after repository and in list order, one for each
listed webhook that was created more than 24 hours before the clock reading made for it, and
none for a younger webhook.  A list or delete call that fails is the last call made, no call
before it failed, and `CleanGitHubWebHooks` returns an error. -/
theorem CleanGitHubWebHooks_deletes (w : World) (s : State) :
    ((CleanGitHubWebHooks w s).1 = none →
      (emitted s (CleanGitHubWebHooks w s).2).filter Event.isDeleteWebhook =
        expectedWebhookDeletes w s.clock repositoriesWithWebhooks ∧
      (∀ repo ∈ repositoriesWithWebhooks, ∃ hooks, w.ListRepoWebhooks repo = Except.ok hooks) ∧
      ∀ e ∈ emitted s (CleanGitHubWebHooks w s).2, w.fails e = false) ∧
    (∀ now hooks1 hooks2 hooks3, (∀ k, w.Now k = now) →
      w.ListRepoWebhooks "devfile-sample-hello-world" = Except.ok hooks1 →
      w.ListRepoWebhooks "hacbs-test-project" = Except.ok hooks2 →
      w.ListRepoWebhooks "secret-lookup-sample-repo-two" = Except.ok hooks3 →
      expectedWebhookDeletes w s.clock repositoriesWithWebhooks =
        (hooks1.filter (hookIsOld now)).map
            (fun wh => Event.DeleteWebhook "devfile-sample-hello-world" wh.GetID) ++
          ((hooks2.filter (hookIsOld now)).map
              (fun wh => Event.DeleteWebhook "hacbs-test-project" wh.GetID) ++
            (hooks3.filter (hookIsOld now)).map
              (fun wh => Event.DeleteWebhook "secret-lookup-sample-repo-two" wh.GetID))) ∧
    (∀ e ∈ emitted s (CleanGitHubWebHooks w s).2, w.fails e = true →
      (CleanGitHubWebHooks w s).1 ≠ none ∧
      ∃ pre, emitted s (CleanGitHubWebHooks w s).2 = pre ++ [e] ∧
        ∀ e0 ∈ pre, w.fails e0 = false) := by
  have hconst : ∀ now hooks1 hooks2 hooks3, (∀ k, w.Now k = now) →
      w.ListRepoWebhooks "devfile-sample-hello-world" = Except.ok hooks1 →
      w.ListRepoWebhooks "hacbs-test-project" = Except.ok hooks2 →
      w.ListRepoWebhooks "secret-lookup-sample-repo-two" = Except.ok hooks3 →
      expectedWebhookDeletes w s.clock repositoriesWithWebhooks =
        (hooks1.filter (hookIsOld now)).map
            (fun wh => Event.DeleteWebhook "devfile-sample-hello-world" wh.GetID) ++
          ((hooks2.filter (hookIsOld now)).map
              (fun wh => Event.DeleteWebhook "hacbs-test-project" wh.GetID) ++
            (hooks3.filter (hookIsOld now)).map
              (fun wh => Event.DeleteWebhook "secret-lookup-sample-repo-two" wh.GetID)) := by
    intro now hooks1 hooks2 hooks3 hnow h1 h2 h3
    simp only [repositoriesWithWebhooks, expectedWebhookDeletes, h1, h2, h3,
      oldHooksAt_const w now hnow, List.append_nil]
  by_cases htoken : GetEnv s.env w.GITHUB_TOKEN_ENV "" = ""
  · have hrun : CleanGitHubWebHooks w s =
        (some "empty GITHUB_TOKEN env. Please provide a valid github token", s) := by
      unfold CleanGitHubWebHooks
      simp only [htoken, if_true]
    have hem : emitted s (CleanGitHubWebHooks w s).2 = [] := by
      rw [hrun]
      exact emitted_append s s [] (by simp)
    rw [hem]
    refine ⟨?_, hconst, ?_⟩
    · intro h
      rw [hrun] at h
      cases h
    · intro e he
      cases he
  · rcases hclient : w.NewGithubClient (GetEnv s.env w.GITHUB_TOKEN_ENV "")
        (GetEnv s.env w.GITHUB_E2E_ORGANIZATION_ENV "redhat-appstudio-qe") with _ | cerr
    · have hrun : CleanGitHubWebHooks w s =
          cleanWebhooksOf w (GetEnv s.env w.GITHUB_E2E_ORGANIZATION_ENV "redhat-appstudio-qe")
            repositoriesWithWebhooks
            (emit (Event.external "github.NewGithubClient"
              [GetEnv s.env w.GITHUB_TOKEN_ENV "",
                GetEnv s.env w.GITHUB_E2E_ORGANIZATION_ENV "redhat-appstudio-qe"]) s) := by
        unfold CleanGitHubWebHooks
        simp only [if_neg htoken, hclient]
      obtain ⟨evs, htr, hnone, hsome⟩ := cleanWebhooksOf_calls w
        (GetEnv s.env w.GITHUB_E2E_ORGANIZATION_ENV "redhat-appstudio-qe")
        repositoriesWithWebhooks
        (emit (Event.external "github.NewGithubClient"
          [GetEnv s.env w.GITHUB_TOKEN_ENV "",
            GetEnv s.env w.GITHUB_E2E_ORGANIZATION_ENV "redhat-appstudio-qe"]) s)
      rw [← hrun] at htr hnone hsome
      simp only [emit_clock] at hnone
      have hem : emitted s (CleanGitHubWebHooks w s).2 =
          Event.external "github.NewGithubClient"
            [GetEnv s.env w.GITHUB_TOKEN_ENV "",
              GetEnv s.env w.GITHUB_E2E_ORGANIZATION_ENV "redhat-appstudio-qe"] :: evs := by
        apply emitted_append
        rw [htr, emit_trace, List.append_assoc]
        rfl
      rw [hem]
      refine ⟨?_, hconst, ?_⟩
      · intro h
        obtain ⟨hdels, hlists, hok⟩ := hnone h
        refine ⟨?_, hlists, ?_⟩
        · rw [← hdels]
          rfl
        · intro e he
          rcases List.mem_cons.1 he with rfl | he
          · rfl
          · exact hok e he
      · intro e he hfail
        have hne : (CleanGitHubWebHooks w s).1 ≠ none := by
          intro h
          obtain ⟨-, -, hok⟩ := hnone h
          rcases List.mem_cons.1 he with rfl | he
          · cases hfail
          · rw [hok e he] at hfail
            cases hfail
        refine ⟨hne, ?_⟩
        obtain ⟨pre, last, hevs, -, hok⟩ := hsome hne
        have hlast : e = last := by
          rcases List.mem_cons.1 he with rfl | he
          · cases hfail
          · rw [hevs] at he
            rcases List.mem_append.1 he with he | he
            · rw [hok e he] at hfail
              cases hfail
            · exact List.mem_singleton.1 he
        subst hlast
        refine ⟨Event.external "github.NewGithubClient"
          [GetEnv s.env w.GITHUB_TOKEN_ENV "",
            GetEnv s.env w.GITHUB_E2E_ORGANIZATION_ENV "redhat-appstudio-qe"] :: pre, ?_, ?_⟩
        · rw [hevs]
          rfl
        · intro e0 he0
          rcases List.mem_cons.1 he0 with rfl | he0
          · rfl
          · exact hok e0 he0
    · have hrun : CleanGitHubWebHooks w s =
          (some cerr, emit (Event.external "github.NewGithubClient"
            [GetEnv s.env w.GITHUB_TOKEN_ENV "",
              GetEnv s.env w.GITHUB_E2E_ORGANIZATION_ENV "redhat-appstudio-qe"]) s) := by
        unfold CleanGitHubWebHooks
        simp only [if_neg htoken, hclient]
      have hem : emitted s (CleanGitHubWebHooks w s).2 =
          [Event.external "github.NewGithubClient"
            [GetEnv s.env w.GITHUB_TOKEN_ENV "",
              GetEnv s.env w.GITHUB_E2E_ORGANIZATION_ENV "redhat-appstudio-qe"]] := by
        rw [hrun]
        exact emitted_append _ _ _ rfl
      rw [hem]
      refine ⟨?_, hconst, ?_⟩
      · intro h
        rw [hrun] at h
        cases h
      · intro e he hfail
        rw [List.mem_singleton] at he
        subst he
        cases hfail

/-- C12, at a concrete input: of the two webhooks of `hacbs-test-project` in `webhookWorld`,
only the one created two days ago is deleted. -/
theorem CleanGitHubWebHooks_deletes_witness :
    (emitted (State.start (envOf [("GITHUB_TOKEN", "token")]))
      (CleanGitHubWebHooks webhookWorld
        (State.start (envOf [("GITHUB_TOKEN", "token")]))).2).filter Event.isDeleteWebhook =
      [Event.DeleteWebhook "hacbs-test-project" 1] :=
  ((CleanGitHubWebHooks_deletes webhookWorld
    (State.start (envOf [("GITHUB_TOKEN", "token")]))).1 rfl).1.trans (by decide)

/-! ## Cleanup of the registered PaC servers -/

theorem unregisteredServers_append (a b : List Event) :
    unregisteredServers (a ++ b) = unregisteredServers a ++ unregisteredServers b := by
  simp [unregisteredServers, List.filterMap_append]

theorem checkedHosts_append (a b : List Event) :
    checkedHosts (a ++ b) = checkedHosts a ++ checkedHosts b := by
  simp [checkedHosts, List.filterMap_append]

theorem invalidServers_cons (w : World) (entry : String) (rest : List String) :
    invalidServers w (entry :: rest) =
      if (w.httpGet (trimSpace entry)).isSome then trimSpace entry :: invalidServers w rest
      else invalidServers w rest := by
  unfold invalidServers
  by_cases h : (w.httpGet (trimSpace entry)).isSome = true
  · simp [List.filter_cons, h]
  · simp [List.filter_cons, h]

theorem mem_invalidServers (w : World) (entries : List String) (x : String)
    (h : x ∈ invalidServers w entries) : (w.httpGet x).isSome = true := by
  unfold invalidServers at h
  simp only [List.mem_map, List.mem_filter] at h
  obtain ⟨entry, ⟨-, hentry⟩, rfl⟩ := h
  exact hentry

theorem untilFirstFailure_sublist (w : World) (servers : List String) :
    (untilFirstFailure w servers).Sublist servers := by
  induction servers with
  | nil => exact List.Sublist.refl _
  | cons server rest ih =>
    unfold untilFirstFailure
    split_ifs
    · exact (List.nil_sublist rest).cons₂ server
    · exact ih.cons₂ server

theorem untilFirstFailure_of_none (w : World) (servers : List String)
    (h : ∀ x ∈ servers, w.UnregisterServer x = none) : untilFirstFailure w servers = servers := by
  induction servers with
  | nil => rfl
  | cons server rest ih =>
    unfold untilFirstFailure
    have h0 : w.UnregisterServer server = none := h server (List.mem_cons_self _ _)
    rw [h0]
    simp only [Option.isSome_none, Bool.false_eq_true, if_false]
    rw [ih (fun x hx => h x (List.mem_cons_of_mem _ hx))]

/-- The calls of the loop of `CleanupRegisteredPacServers`: the servers it unregisters, when
it succeeds, which hosts it checks, and where it stops. -/
theorem cleanupServers_calls (w : World) (baseURL : String) (entries : List String) :
    ∀ s : State, ∃ evs,
      (cleanupServers w baseURL entries s).2.trace = s.trace ++ evs ∧
      unregisteredServers evs = untilFirstFailure w (invalidServers w entries) ∧
      ((cleanupServers w baseURL entries s).1 = none ↔
        ∀ x ∈ invalidServers w entries, w.UnregisterServer x = none) ∧
      ((cleanupServers w baseURL entries s).1 = none →
        checkedHosts evs = entries.map trimSpace) ∧
      ((cleanupServers w baseURL entries s).1 ≠ none →
        ∃ pre server, evs = pre ++ [Event.UnregisterServer server] ∧
          (w.UnregisterServer server).isSome = true ∧
          ∀ e ∈ pre, w.fails e = false) ∧
      (∀ e ∈ evs, (∃ url, e = Event.httpGet url) ∨ (∃ server, e = Event.UnregisterServer server) ∨
        ∃ level msg, e = Event.klog level msg) := by
  induction entries with
  | nil =>
    intro s
    refine ⟨[], by simp [cleanupServers], by simp [invalidServers, untilFirstFailure,
      unregisteredServers], by simp [cleanupServers, invalidServers], by simp [checkedHosts],
      by simp [cleanupServers], by simp⟩
  | cons entry rest ih =>
    intro s
    rcases hget : w.httpGet (trimSpace entry) with _ | herr
    · -- the host answers: the entry is kept
      obtain ⟨evs, htr, hun, hres, hchk, hstop, hkind⟩ :=
        ih (emit (Event.httpGet (trimSpace entry)) s)
      have hrun : cleanupServers w baseURL (entry :: rest) s =
          cleanupServers w baseURL rest (emit (Event.httpGet (trimSpace entry)) s) := by
        rw [cleanupServers]
        simp [isValidPacHost, hget]
      have hinv : invalidServers w (entry :: rest) = invalidServers w rest := by
        rw [invalidServers_cons, hget]
        rfl
      rw [hrun, hinv]
      refine ⟨Event.httpGet (trimSpace entry) :: evs, ?_, ?_, hres, ?_, ?_, ?_⟩
      · rw [htr, emit_trace, List.append_assoc]
        rfl
      · rw [← hun]
        rfl
      · intro h
        have := hchk h
        simp only [checkedHosts, List.filterMap_cons, List.map_cons] at this ⊢
        rw [this]
      · intro h
        obtain ⟨pre, server, hevs, hfail, hpre⟩ := hstop h
        refine ⟨Event.httpGet (trimSpace entry) :: pre, server, by rw [hevs]; rfl, hfail, ?_⟩
        intro e he
        rcases List.mem_cons.1 he with rfl | he
        · rfl
        · exact hpre e he
      · intro e he
        rcases List.mem_cons.1 he with rfl | he
        · exact Or.inl ⟨_, rfl⟩
        · exact hkind e he
    · -- the host does not answer: the entry is unregistered
      have hinv : invalidServers w (entry :: rest) =
          trimSpace entry :: invalidServers w rest := by
        rw [invalidServers_cons, hget]
        rfl
      rcases hunreg : w.UnregisterServer (trimSpace entry) with _ | uerr
      · obtain ⟨evs, htr, hun, hres, hchk, hstop, hkind⟩ :=
          ih (emit (Event.klog "Info" ("Cleanup invalid PaC server: " ++ entry))
            (emit (Event.UnregisterServer (trimSpace entry))
              (emit (Event.httpGet (trimSpace entry)) s)))
        have hrun : cleanupServers w baseURL (entry :: rest) s =
            cleanupServers w baseURL rest
              (emit (Event.klog "Info" ("Cleanup invalid PaC server: " ++ entry))
                (emit (Event.UnregisterServer (trimSpace entry))
                  (emit (Event.httpGet (trimSpace entry)) s))) := by
          rw [cleanupServers]
          simp [isValidPacHost, hget, hunreg]
        rw [hrun, hinv]
        refine ⟨Event.httpGet (trimSpace entry) :: Event.UnregisterServer (trimSpace entry) ::
          Event.klog "Info" ("Cleanup invalid PaC server: " ++ entry) :: evs, ?_, ?_, ?_, ?_, ?_,
          ?_⟩
        · rw [htr]
          simp only [emit_trace, List.append_assoc]
          rfl
        · rw [untilFirstFailure, hunreg]
          simp only [Option.isSome_none, Bool.false_eq_true, if_false]
          rw [← hun]
          rfl
        · rw [hres]
          simp only [List.mem_cons, forall_eq_or_imp, hunreg, true_and]
        · intro h
          have := hchk h
          simp only [checkedHosts, List.filterMap_cons, List.map_cons] at this ⊢
          rw [this]
        · intro h
          obtain ⟨pre, server, hevs, hfail, hpre⟩ := hstop h
          refine ⟨Event.httpGet (trimSpace entry) :: Event.UnregisterServer (trimSpace entry) ::
            Event.klog "Info" ("Cleanup invalid PaC server: " ++ entry) :: pre, server,
            by rw [hevs]; rfl, hfail, ?_⟩
          intro e he
          simp only [List.mem_cons] at he
          rcases he with rfl | rfl | rfl | he
          · rfl
          · simp [World.fails, hunreg]
          · rfl
          · exact hpre e he
        · intro e he
          simp only [List.mem_cons] at he
          rcases he with rfl | rfl | rfl | he
          · exact Or.inl ⟨_, rfl⟩
          · exact Or.inr (Or.inl ⟨_, rfl⟩)
          · exact Or.inr (Or.inr ⟨_, _, rfl⟩)
          · exact hkind e he
      · have hrun : cleanupServers w baseURL (entry :: rest) s =
            (some ("error when unregistering PaC server " ++ entry ++
              " from SprayProxy server " ++ baseURL ++ ": " ++ uerr),
              emit (Event.UnregisterServer (trimSpace entry))
                (emit (Event.httpGet (trimSpace entry)) s)) := by
          rw [cleanupServers]
          simp [isValidPacHost, hget, hunreg]
        rw [hrun, hinv]
        refine ⟨[Event.httpGet (trimSpace entry), Event.UnregisterServer (trimSpace entry)],
          ?_, ?_, ?_, ?_, ?_, ?_⟩
        · simp only [emit_trace, List.append_assoc]
          rfl
        · rw [untilFirstFailure, hunreg]
          rfl
        · simp only [List.mem_cons, forall_eq_or_imp, hunreg]
          simp
        · intro h
          cases h
        · intro _
          refine ⟨[Event.httpGet (trimSpace entry)], trimSpace entry, rfl, by rw [hunreg]; rfl,
            ?_⟩
          intro e he
          rw [List.mem_singleton] at he
          subst he
          rfl
        · intro e he
          simp only [List.mem_cons, List.mem_singleton, List.not_mem_nil, or_false] at he
          rcases he with rfl | rfl
          · exact Or.inl ⟨_, rfl⟩
          · exact Or.inr (Or.inl ⟨_, rfl⟩)

theorem cleanupServers_single (w : World) (baseURL entry : String) (s : State) :
    ∃ evs, (cleanupServers w baseURL [entry] s).2.trace = s.trace ++ evs ∧
      checkedHosts evs = [trimSpace entry] := by
  rcases hget : w.httpGet (trimSpace entry) with _ | herr
  · refine ⟨[Event.httpGet (trimSpace entry)], ?_, rfl⟩
    simp [cleanupServers, isValidPacHost, hget]
  · rcases hunreg : w.UnregisterServer (trimSpace entry) with _ | uerr
    · refine ⟨[Event.httpGet (trimSpace entry), Event.UnregisterServer (trimSpace entry),
        Event.klog "Info" ("Cleanup invalid PaC server: " ++ entry)], ?_, rfl⟩
      simp [cleanupServers, isValidPacHost, hget, hunreg]
    · refine ⟨[Event.httpGet (trimSpace entry), Event.UnregisterServer (trimSpace entry)],
        ?_, rfl⟩
      simp [cleanupServers, isValidPacHost, hget, hunreg]

theorem printRegisteredPacServers_calls (w : World) (s : State) :
    ∃ evs, (printRegisteredPacServers w s).2.trace = s.trace ++ evs ∧
      unregisteredServers evs = [] ∧ checkedHosts evs = [] := by
  unfold printRegisteredPacServers
  rcases w.GetServers with err | servers
  · exact ⟨[Event.external "sprayProxyConfig.GetServers" []], rfl, rfl, rfl⟩
  · exact ⟨[Event.external "sprayProxyConfig.GetServers" [],
      Event.klog "Info" ("The PaC servers registered in Sprayproxy: " ++ servers)],
      by simp, rfl, rfl⟩

/-- The run of `CleanupRegisteredPacServers` once the configuration and the server list are
at hand: what it returns and which calls it makes, in terms of the calls of its loop. -/
theorem CleanupRegisteredPacServers_run (w : World) (s : State) (config servers : String)
    (hcfg : newSprayProxy w s = Except.ok config)
    (hget : w.GetServers = Except.ok servers) :
    ∃ evs tail,
      (cleanupServers w config (strSplit servers ',')
        (emit (Event.klog "Info"
          ("Before cleaningup Pac servers, the registered PaC servers: " ++ servers))
          (emit (Event.external "sprayProxyConfig.GetServers" [])
            { s with sprayProxyConfig := some config }))).2.trace =
        s.trace ++ [Event.external "sprayProxyConfig.GetServers" [],
          Event.klog "Info"
            ("Before cleaningup Pac servers, the registered PaC servers: " ++ servers)] ++ evs ∧
      (CleanupRegisteredPacServers w s).2.trace =
        s.trace ++ [Event.external "sprayProxyConfig.GetServers" [],
          Event.klog "Info"
            ("Before cleaningup Pac servers, the registered PaC servers: " ++ servers)] ++
          evs ++ tail ∧
      unregisteredServers tail = [] ∧ checkedHosts tail = [] ∧
      ((CleanupRegisteredPacServers w s).1 ≠ none → tail = []) ∧
      (CleanupRegisteredPacServers w s).1 =
        (cleanupServers w config (strSplit servers ',')
          (emit (Event.klog "Info"
            ("Before cleaningup Pac servers, the registered PaC servers: " ++ servers))
            (emit (Event.external "sprayProxyConfig.GetServers" [])
              { s with sprayProxyConfig := some config }))).1 := by
  obtain ⟨evs, htr, -⟩ := cleanupServers_calls w config (strSplit servers ',')
    (emit (Event.klog "Info"
      ("Before cleaningup Pac servers, the registered PaC servers: " ++ servers))
      (emit (Event.external "sprayProxyConfig.GetServers" [])
        { s with sprayProxyConfig := some config }))
  have htr2 : (cleanupServers w config (strSplit servers ',')
      (emit (Event.klog "Info"
        ("Before cleaningup Pac servers, the registered PaC servers: " ++ servers))
        (emit (Event.external "sprayProxyConfig.GetServers" [])
          { s with sprayProxyConfig := some config }))).2.trace =
      s.trace ++ [Event.external "sprayProxyConfig.GetServers" [],
        Event.klog "Info"
          ("Before cleaningup Pac servers, the registered PaC servers: " ++ servers)] ++
        evs := by
    rw [htr]
    simp only [emit_trace, List.append_assoc]
    rfl
  rcases hloop : cleanupServers w config (strSplit servers ',')
      (emit (Event.klog "Info"
        ("Before cleaningup Pac servers, the registered PaC servers: " ++ servers))
        (emit (Event.external "sprayProxyConfig.GetServers" [])
          { s with sprayProxyConfig := some config })) with ⟨res, s4⟩
  rw [hloop] at htr2
  cases res with
  | some err =>
    have hrun : CleanupRegisteredPacServers w s = (some err, s4) := by
      unfold CleanupRegisteredPacServers
      simp only [hcfg, hget, hloop]
    refine ⟨evs, [], htr2, ?_, rfl, rfl, fun _ => rfl, ?_⟩
    · rw [hrun, List.append_nil]
      exact htr2
    · rw [hrun]
  | none =>
    obtain ⟨pevs, hp, hpu, hpc⟩ := printRegisteredPacServers_calls w
      (emit (Event.klog "Info" "After cleaningup Pac servers...") s4)
    rcases hprint : printRegisteredPacServers w
        (emit (Event.klog "Info" "After cleaningup Pac servers...") s4) with ⟨pres, s6⟩
    rw [hprint] at hp
    simp only [emit_trace] at hp htr2
    cases pres with
    | some perr =>
      have hrun : CleanupRegisteredPacServers w s =
          (none, emit (Event.klog "Error" perr) s6) := by
        unfold CleanupRegisteredPacServers
        simp only [hcfg, hget, hloop, hprint]
      refine ⟨evs, Event.klog "Info" "After cleaningup Pac servers..." :: pevs ++
        [Event.klog "Error" perr], htr2, ?_, ?_, ?_, ?_, ?_⟩
      · rw [hrun]
        simp only [emit_trace, hp, htr2, List.append_assoc, List.cons_append,
          List.nil_append]
      · rw [List.cons_append, ← List.singleton_append, unregisteredServers_append,
          unregisteredServers_append, hpu]
        rfl
      · rw [List.cons_append, ← List.singleton_append, checkedHosts_append,
          checkedHosts_append, hpc]
        rfl
      · intro h
        rw [hrun] at h
        exact absurd rfl h
      · rw [hrun]
    | none =>
      have hrun : CleanupRegisteredPacServers w s = (none, s6) := by
        unfold CleanupRegisteredPacServers
        simp only [hcfg, hget, hloop, hprint]
      refine ⟨evs, Event.klog "Info" "After cleaningup Pac servers..." :: pevs, htr2, ?_, ?_,
        ?_, ?_, ?_⟩
      · rw [hrun]
        simp only [hp, htr2, List.append_assoc, List.cons_append, List.nil_append]
      · rw [← List.singleton_append, unregisteredServers_append, hpu]
        rfl
      · rw [← List.singleton_append, checkedHosts_append, hpc]
        rfl
      · intro h
        rw [hrun] at h
        exact absurd rfl h
      · rw [hrun]

/-- C16: once the configuration of SprayProxy and the comma-separated server list are at hand,
`CleanupRegisteredPacServers` calls `UnregisterServer`, on the trimmed entry, for the entries
of the split list that fail the check of `isValidPacHost`, in list order and up to the first
unregistration that fails, and never for an entry that passes the check.  It returns nil
exactly when no unregistration fails, and then every entry was checked and every failing entry
unregistered; otherwise the failed unregistration is its last call and no call before it
failed.  The empty list splits into the single entry `""`, which is checked as one server. -/
theorem CleanupRegisteredPacServers_unregisters (w : World) (s : State)
    (config servers : String)
    (hcfg : newSprayProxy w s = Except.ok config)
    (hget : w.GetServers = Except.ok servers) :
    unregisteredServers (emitted s (CleanupRegisteredPacServers w s).2) =
      untilFirstFailure w (invalidServers w (strSplit servers ',')) ∧
    (∀ entry ∈ strSplit servers ',', (isValidPacHost w entry s).1 = true →
      trimSpace entry ∉ unregisteredServers (emitted s (CleanupRegisteredPacServers w s).2)) ∧
    ((CleanupRegisteredPacServers w s).1 = none ↔
      ∀ x ∈ invalidServers w (strSplit servers ','), w.UnregisterServer x = none) ∧
    ((CleanupRegisteredPacServers w s).1 = none →
      unregisteredServers (emitted s (CleanupRegisteredPacServers w s).2) =
        invalidServers w (strSplit servers ',') ∧
      checkedHosts (emitted s (CleanupRegisteredPacServers w s).2) =
        (strSplit servers ',').map trimSpace) ∧
    ((CleanupRegisteredPacServers w s).1 ≠ none →
      ∃ pre server, emitted s (CleanupRegisteredPacServers w s).2 =
          pre ++ [Event.UnregisterServer server] ∧
        (w.UnregisterServer server).isSome = true ∧ ∀ e ∈ pre, w.fails e = false) ∧
    strSplit "" ',' = [""] ∧
    (servers = "" → checkedHosts (emitted s (CleanupRegisteredPacServers w s).2) = [""]) := by
  obtain ⟨evs, tail, htr3, hfull, htu, htc, htnil, hres⟩ :=
    CleanupRegisteredPacServers_run w s config servers hcfg hget
  obtain ⟨evs0, htr0, hun, hiff, hchk, hstop, -⟩ :=
    cleanupServers_calls w config (strSplit servers ',')
      (emit (Event.klog "Info"
        ("Before cleaningup Pac servers, the registered PaC servers: " ++ servers))
        (emit (Event.external "sprayProxyConfig.GetServers" [])
          { s with sprayProxyConfig := some config }))
  have hstart : (emit (Event.klog "Info"
        ("Before cleaningup Pac servers, the registered PaC servers: " ++ servers))
        (emit (Event.external "sprayProxyConfig.GetServers" [])
          { s with sprayProxyConfig := some config })).trace =
      s.trace ++ [Event.external "sprayProxyConfig.GetServers" [],
        Event.klog "Info"
          ("Before cleaningup Pac servers, the registered PaC servers: " ++ servers)] := by
    simp only [emit_trace, List.append_assoc]
    rfl
  have hevs : evs0 = evs := by
    rw [htr3, hstart] at htr0
    exact (List.append_cancel_left htr0).symm
  subst hevs
  have hem : emitted s (CleanupRegisteredPacServers w s).2 =
      [Event.external "sprayProxyConfig.GetServers" [],
        Event.klog "Info"
          ("Before cleaningup Pac servers, the registered PaC servers: " ++ servers)] ++
        evs0 ++ tail := by
    apply emitted_append
    rw [hfull]
    simp only [List.append_assoc]
  have hunreg : unregisteredServers (emitted s (CleanupRegisteredPacServers w s).2) =
      untilFirstFailure w (invalidServers w (strSplit servers ',')) := by
    rw [hem, unregisteredServers_append, unregisteredServers_append, htu, hun,
      List.append_nil]
    rfl
  have hchecked : checkedHosts (emitted s (CleanupRegisteredPacServers w s).2) =
      checkedHosts evs0 := by
    rw [hem, checkedHosts_append, checkedHosts_append, htc, List.append_nil]
    rfl
  rw [← hres] at hiff hchk hstop
  refine ⟨hunreg, ?_, hiff, ?_, ?_, by decide, ?_⟩
  · intro entry _ hvalid hmem
    rw [hunreg] at hmem
    have hinv := mem_invalidServers w _ _ ((untilFirstFailure_sublist w _).subset hmem)
    simp only [isValidPacHost] at hvalid
    rw [Option.isNone_iff_eq_none] at hvalid
    rw [hvalid] at hinv
    cases hinv
  · intro hnone
    refine ⟨?_, ?_⟩
    · rw [hunreg]
      exact untilFirstFailure_of_none w _ (hiff.1 hnone)
    · rw [hchecked]
      exact hchk hnone
  · intro hne
    obtain ⟨pre, server, hpre, hfail, hok⟩ := hstop hne
    refine ⟨[Event.external "sprayProxyConfig.GetServers" [],
        Event.klog "Info"
          ("Before cleaningup Pac servers, the registered PaC servers: " ++ servers)] ++ pre,
      server, ?_, hfail, ?_⟩
    · rw [hem, htnil hne, hpre, List.append_nil, List.append_assoc]
    · intro e he
      rcases List.mem_append.1 he with h | h
      · simp only [List.mem_cons, List.mem_singleton, List.not_mem_nil, or_false] at h
        rcases h with rfl | rfl <;> rfl
      · exact hok e h
  · intro hempty
    subst hempty
    obtain ⟨evs1, htr1, hc1⟩ := cleanupServers_single w config ""
      (emit (Event.klog "Info"
        ("Before cleaningup Pac servers, the registered PaC servers: " ++ ""))
        (emit (Event.external "sprayProxyConfig.GetServers" [])
          { s with sprayProxyConfig := some config }))
    have hsplit : strSplit "" ',' = [""] := by decide
    rw [hsplit] at htr3
    rw [htr3, hstart] at htr1
    have h01 : evs0 = evs1 := List.append_cancel_left htr1
    rw [hchecked, h01, hc1]
    decide

/-- C16, at a concrete input: of the two servers that SprayProxy lists in `pacWorld`, only
`https://down.example`, which does not answer, is unregistered, under its trimmed name. -/
theorem CleanupRegisteredPacServers_unregisters_witness :
    unregisteredServers (emitted (State.start (envOf pacEnv))
      (CleanupRegisteredPacServers pacWorld (State.start (envOf pacEnv))).2) =
      ["https://down.example"] :=
  (CleanupRegisteredPacServers_unregisters pacWorld (State.start (envOf pacEnv))
    "https://sprayproxy" "https://up.example, https://down.example" rfl rfl).1.trans
    (by decide)

end Magefile

namespace RulesEngine
open Magefile

/-! ## Order of the report entries -/

theorem runSequential_getElem? (ctx : RuleCtx) (durations : Nat → Nat) (matched : List Rule) :
    ∀ (k i : Nat), (runSequential ctx durations k matched)[i]? =
      (matched[i]?).map (fun r => execute ctx r (durations (k + i))) := by
  induction matched with
  | nil =>
    intro k i
    simp [runSequential]
  | cons r rest ih =>
    intro k i
    cases i with
    | zero => simp [runSequential]
    | succ j =>
      simp only [runSequential, List.getElem?_cons_succ, ih]
      have : k + 1 + j = k + (j + 1) := by omega
      rw [this]

theorem collect_length (ctx : RuleCtx) (matched : List Rule) (durations : Nat → Nat)
    (completions : List Nat) :
    ∀ slots : List (Option RuleResult),
      (collect ctx matched durations completions slots).length = slots.length := by
  induction completions with
  | nil =>
    intro slots
    rfl
  | cons j rest ih =>
    intro slots
    unfold collect
    split
    · exact ih slots
    · rw [ih, List.length_set]

theorem collect_getElem? (ctx : RuleCtx) (matched : List Rule) (durations : Nat → Nat)
    (completions : List Nat) :
    ∀ (slots : List (Option RuleResult)), slots.length = matched.length →
      ∀ i, (collect ctx matched durations completions slots)[i]? =
        if i ∈ completions then
          (matched[i]?).map (fun r => some (execute ctx r (durations i)))
        else slots[i]? := by
  induction completions with
  | nil =>
    intro slots _ i
    simp [collect]
  | cons j rest ih =>
    intro slots hlen i
    unfold collect
    split
    · rename_i hnone
      rw [ih slots hlen i]
      by_cases hi : i ∈ rest
      · simp [hi]
      · by_cases hij : i = j
        · subst hij
          rw [List.get?_eq_getElem?] at hnone
          have hs : slots[i]? = none := by
            rw [List.getElem?_eq_none_iff] at hnone ⊢
            omega
          simp [hi, hnone, hs]
        · simp [hi, hij]
    · rename_i r hsome
      rw [ih (slots.set j (some (execute ctx r (durations j))))
        (by rw [List.length_set]; exact hlen) i]
      by_cases hi : i ∈ rest
      · simp [hi]
      · by_cases hij : i = j
        · subst hij
          rw [List.get?_eq_getElem?] at hsome
          have hlt : i < slots.length := by
            rw [hlen]
            by_contra hge
            have : matched[i]? = none := List.getElem?_eq_none_iff.2 (by omega)
            rw [this] at hsome
            cases hsome
          simp [hi, hsome, List.getElem?_set, hlt]
        · have hji : j ≠ i := fun h => hij h.symm
          simp [hi, hij, List.getElem?_set_ne hji]

theorem runParallel_eq_runSequential (ctx : RuleCtx) (matched : List Rule)
    (durations : Nat → Nat) (completions : List Nat)
    (hperm : completions.Perm (List.range matched.length)) :
    runParallel ctx matched durations completions = runSequential ctx durations 0 matched := by
  have hslots : collect ctx matched durations completions (List.replicate matched.length none) =
      (runSequential ctx durations 0 matched).map some := by
    apply List.ext_getElem?
    intro i
    rw [collect_getElem? ctx matched durations completions _ (by simp) i,
      List.getElem?_map, runSequential_getElem?]
    by_cases hi : i < matched.length
    · have hmem : i ∈ completions := hperm.mem_iff.2 (List.mem_range.2 hi)
      simp only [hmem, if_true, Option.map_map, Nat.zero_add]
      rfl
    · have hmem : ¬ i ∈ completions := fun h => hi (List.mem_range.1 (hperm.mem_iff.1 h))
      have hnone : matched[i]? = none := List.getElem?_eq_none_iff.2 (by omega)
      simp [hmem, hnone, List.getElem?_replicate, hi]
  unfold runParallel
  rw [hslots, List.filterMap_map]
  simp

theorem runSequential_names (ctx : RuleCtx) (durations : Nat → Nat) (matched : List Rule) :
    ∀ k, (runSequential ctx durations k matched).map RuleResult.ruleName =
      matched.map Rule.name := by
  induction matched with
  | nil =>
    intro k
    rfl
  | cons r rest ih =>
    intro k
    simp only [runSequential, List.map_cons, ih]
    congr 1
    unfold execute
    split <;> rfl

theorem assemble_names (ctx : RuleCtx) (durations : Nat → Nat) (pass : List Selected) :
    ∀ k, (assemble pass (runSequential ctx durations k (matchedRules pass))).map
        RuleResult.ruleName = pass.map (fun e => e.rule.name) := by
  induction pass with
  | nil =>
    intro k
    rfl
  | cons e rest ih =>
    intro k
    cases e with
    | matched r =>
      simp only [matchedRules, runSequential, assemble, List.map_cons, ih, Selected.rule]
      congr 1
      unfold execute
      split <;> rfl
    | conditionFailed r =>
      simp only [matchedRules, assemble, List.map_cons, ih, Selected.rule]
      rfl

theorem selectOne_rule (category : String) (ctx : RuleCtx) (r : Rule) (e : Selected)
    (h : selectOne category ctx r = some e) : e.rule = r := by
  unfold selectOne at h
  split at h
  · split at h
    · cases h
      rfl
    · cases h
    · cases h
      rfl
  · cases h

theorem selectionPass_congr (catalog : List Rule) (category : String) (ctx ctx2 : RuleCtx)
    (h : ∀ r ∈ catalog, r.category = category → r.condition ctx2 = r.condition ctx) :
    selectionPass catalog category ctx2 = selectionPass catalog category ctx := by
  have hone : ∀ r ∈ catalog, selectOne category ctx2 r = selectOne category ctx r := by
    intro r hr
    unfold selectOne
    by_cases hcat : r.category = category
    · rw [if_pos hcat, if_pos hcat, h r hr hcat]
    · rw [if_neg hcat, if_neg hcat]
  unfold selectionPass
  induction catalog with
  | nil => rfl
  | cons r rest ih =>
    rw [List.filterMap_cons, List.filterMap_cons, hone r (List.mem_cons_self _ _),
      ih (fun x hx => h x (List.mem_cons_of_mem _ hx))
        (fun x hx => hone x (List.mem_cons_of_mem _ hx))]

theorem selectionPass_names_sublist (catalog : List Rule) (category : String) (ctx : RuleCtx) :
    ((selectionPass catalog category ctx).map (fun e => e.rule.name)).Sublist
      (catalog.map Rule.name) := by
  unfold selectionPass
  induction catalog with
  | nil => exact List.Sublist.refl _
  | cons r rest ih =>
    rw [List.filterMap_cons]
    rcases hone : selectOne category ctx r with _ | e
    · exact ih.cons r.name
    · simp only [List.map_cons]
      rw [selectOne_rule category ctx r e hone]
      exact ih.cons₂ r.name

/-- C8, as the model has it: with `Parallel = true` and every matched action completing once,
the entries of the report are in the order of the selection pass, whatever the order in which
the actions complete: the report is the report of the sequential execution of the same
selection, and its rule names are those of the selection pass, in catalog order.  The report
of the run with `Parallel = false` names the rules of its own selection pass; the two reports
name the same rules in the same order whenever no condition of the category reads the
`Parallel` flag, and in every case both name their rules in catalog order.  `CI.init` sets
`Parallel = true` for the jobs that are neither periodic nor a rehearsal, and leaves the
context as it was for those. -/
theorem runReport_selection_order (catalog : List Rule) (category : String) (ctx : RuleCtx)
    (durations durationsSeq : Nat → Nat) (completions completionsSeq : List Nat)
    (hpar : ctx.Parallel = true)
    (hperm : completions.Perm (List.range (select catalog category ctx).length)) :
    runReport catalog category ctx durations completions =
      assemble (selectionPass catalog category ctx)
        (runSequential ctx durations 0 (select catalog category ctx)) ∧
    (runReport catalog category ctx durations completions).map RuleResult.ruleName =
      (selectionPass catalog category ctx).map (fun e => e.rule.name) ∧
    (runReport catalog category { ctx with Parallel := false } durationsSeq
        completionsSeq).map RuleResult.ruleName =
      (selectionPass catalog category { ctx with Parallel := false }).map
        (fun e => e.rule.name) ∧
    ((∀ r ∈ catalog, r.category = category →
        r.condition { ctx with Parallel := false } = r.condition ctx) →
      (runReport catalog category ctx durations completions).map RuleResult.ruleName =
        (runReport catalog category { ctx with Parallel := false } durationsSeq
          completionsSeq).map RuleResult.ruleName) ∧
    ((runReport catalog category ctx durations completions).map RuleResult.ruleName).Sublist
      (catalog.map Rule.name) ∧
    ((runReport catalog category { ctx with Parallel := false } durationsSeq
        completionsSeq).map RuleResult.ruleName).Sublist (catalog.map Rule.name) ∧
    (∀ (w : World) (s s1 : State),
      ¬ (s.jobType = "periodic" ∨ strContains s.jobName "rehearse" = true) →
      CI.init w s = some (none, s1) → s1.rctx.Parallel = true) ∧
    (∀ (w : World) (s : State),
      s.jobType = "periodic" ∨ strContains s.jobName "rehearse" = true →
      CI.init w s = some (none, s)) := by
  have h1 : runReport catalog category ctx durations completions =
      assemble (selectionPass catalog category ctx)
        (runSequential ctx durations 0 (select catalog category ctx)) := by
    unfold runReport
    rw [if_pos hpar, runParallel_eq_runSequential ctx _ durations completions hperm]
  have h2 : (runReport catalog category ctx durations completions).map RuleResult.ruleName =
      (selectionPass catalog category ctx).map (fun e => e.rule.name) := by
    rw [h1]
    exact assemble_names ctx durations _ 0
  have h3 : (runReport catalog category { ctx with Parallel := false } durationsSeq
      completionsSeq).map RuleResult.ruleName =
      (selectionPass catalog category { ctx with Parallel := false }).map
        (fun e => e.rule.name) := by
    unfold runReport
    simp only [Bool.false_eq_true, if_false]
    exact assemble_names _ durationsSeq _ 0
  refine ⟨h1, h2, h3, ?_, ?_, ?_, ?_, ?_⟩
  · intro hcond
    rw [h2, h3, selectionPass_congr catalog category ctx _ hcond]
  · rw [h2]
    exact selectionPass_names_sublist catalog category ctx
  · rw [h3]
    exact selectionPass_names_sublist catalog category _
  · intro w s s1 hjob hinit
    obtain ⟨s2, s3, -, -, hs1⟩ := CI_init_ok w s s1 hjob hinit
    rw [hs1, initRuleCtx_rctx]
  · intro w s hjob
    unfold CI.init
    rw [if_pos hjob]

/-- C8, at a concrete input: the second matched rule completes first, and the report still
lists the rules in the order of the selection pass, the rule whose condition raised
included. -/
theorem runReport_selection_order_witness :
    (runReport demoCatalog "tests" parallelCtx (fun _ => 0) [1, 0]).map RuleResult.ruleName =
      ["A", "C", "D"] :=
  (runReport_selection_order demoCatalog "tests" parallelCtx (fun _ => 0) (fun _ => 0) [1, 0] []
    rfl (by decide)).2.1.trans (by decide)

/-- C8 fails as it is written.  A rule whose condition reads the `Parallel` flag is reported
by the run with `Parallel = true` and not by the run with `Parallel = false`; and for a
periodic job `CI.init` returns nil and leaves `Parallel` as it was, here false. -/
theorem runReport_reads_Parallel :
    (runReport flagCatalog "tests" parallelCtx (fun _ => 0) [0]).map RuleResult.ruleName =
      ["P"] ∧
    (runReport flagCatalog "tests" { parallelCtx with Parallel := false } (fun _ => 0)
      []).map RuleResult.ruleName = [] ∧
    (CI.init quietWorld (State.start (envOf [("JOB_TYPE", "periodic")]))).map
      (fun p => (p.1, p.2.rctx.Parallel)) = some (none, false) := by
  decide

end RulesEngine

namespace ReleaseTests

/-! ## The polling predicate of the suite -/

/-- C15 fails on the code: the polling predicate answers true for a finished Release that is
valid but not released, and for one that is released but not valid. -/
theorem releaseHasFailed_accepts_valid_release :
    releaseHasFailed
      { HasReleaseFinished := true, IsValid := true, IsReleased := false,
        ConditionMessages := ["Release validation failed"] } = some true ∧
    releaseHasFailed
      { HasReleaseFinished := true, IsValid := false, IsReleased := true,
        ConditionMessages := ["Release validation failed"] } = some true := by
  decide

end ReleaseTests
